import Mathlib

/-!
# QOwnNotes main window: external-modification reconciliation

A shallow embedding of the reconciliation protocol of `src/mainwindow.cpp`
(`notesWereModified`, `notesDirectoryWasModified`, `updateNoteTextFromDisk`,
`openNoteDiffDialog`, `storeUpdatedNotesToDisk`, `buildNotesIndex`,
`loadNoteDirectoryList`, `setCurrentNote`, `on_noteTextEdit_textChanged`,
`changeNoteFolder`), of the note list (`filterNotes`, `gotoNextNote`,
`gotoPreviousNote`, `removeCurrentNote`, `resetCurrentNote`), of the
autosave settings (`readSettingsFromSettingsDialog`) and of the recent note
folders (`storeRecentNoteFolder`).

The window object, the in-memory note index, the notes folders on disk, the
clock and a chronological trace of dialogs, disk writes and waits are one
explicit state record.  Every slot of the window is a total function on
that record; the answers the user gives in modal dialogs are an input.  The
two recursive navigation methods carry the number of nested calls they may
make and end as returned, crashed or unfinished.

Toolkit plumbing that does not take part in the protocol (metrics, window
title, tool bar buttons, text cursor positions, scroll bars) is not part of
the state; the active tag and the result of the note search are inputs of
the filters.
-/

namespace QOwnNotes

/-! ## Files on disk -/

/-- One regular file: the folder it lives in, its name, its text, its
modification time (milliseconds) and whether it can be opened for writing. -/
structure DiskFile where
  dir : String
  fileName : String
  text : String
  lastModified : Nat
  writable : Bool := true
deriving DecidableEq, Repr

/-- The file system: the existing directories and the regular files. -/
structure Disk where
  dirs : List String := []
  files : List DiskFile := []
deriving DecidableEq, Repr

/-- First file of a listing with the given folder and name. -/
def findFile (dir fileName : String) : List DiskFile → Option DiskFile
  | [] => none
  | f :: fs => if f.dir = dir ∧ f.fileName = fileName then some f else findFile dir fileName fs

/-- Replaces text and modification time of the first file with the given folder and name. -/
def replaceFile (dir fileName text : String) (now : Nat) : List DiskFile → List DiskFile
  | [] => []
  | f :: fs =>
    if f.dir = dir ∧ f.fileName = fileName then
      { f with text := text, lastModified := now } :: fs
    else f :: replaceFile dir fileName text now fs

namespace Disk

/-- Looks a file up (`QFile::exists`, and the handle for reading it). -/
def lookup (d : Disk) (dir fileName : String) : Option DiskFile :=
  findFile dir fileName d.files

/-- Text of a file, `none` when there is no such file. -/
def read (d : Disk) (dir fileName : String) : Option String :=
  (d.lookup dir fileName).map (fun f => f.text)

/-- Whether a file of that name exists (`QFile::exists`). -/
def fileExists (d : Disk) (dir fileName : String) : Bool :=
  (d.lookup dir fileName).isSome

/-- Whether the file exists and may be written (`QFileInfo::isWritable`). -/
def isWritable (d : Disk) (dir fileName : String) : Bool :=
  match d.lookup dir fileName with
  | some f => f.writable
  | none => false

/-- Whether opening the file for writing succeeds: an existing file has to
be writable, a new file needs its folder to exist. -/
def canWrite (d : Disk) (dir fileName : String) : Bool :=
  match d.lookup dir fileName with
  | some f => f.writable
  | none => decide (dir ∈ d.dirs)

/-- Opens the file write-only, truncates it and writes `text`; `none` when
the file cannot be opened. -/
def write (d : Disk) (dir fileName text : String) (now : Nat) : Option Disk :=
  match d.lookup dir fileName with
  | some f =>
    if f.writable then some { d with files := replaceFile dir fileName text now d.files }
    else none
  | none =>
    if dir ∈ d.dirs then
      some { d with files := d.files ++
        [{ dir := dir, fileName := fileName, text := text, lastModified := now }] }
    else none

end Disk

/-- Case-insensitive match of a file name against the name filters
`*.txt` and `*.md` of `buildNotesIndex`. -/
def matchesNoteFilters (fileName : String) : Bool :=
  match fileName.data.reverse with
  | c :: b :: a :: p :: _ =>
    ((c = 't' ∨ c = 'T') ∧ (b = 'x' ∨ b = 'X') ∧ (a = 't' ∨ a = 'T') ∧ p = '.')
      ∨ ((c = 'd' ∨ c = 'D') ∧ (b = 'm' ∨ b = 'M') ∧ a = '.')
  | [c, b, a] => (c = 'd' ∨ c = 'D') ∧ (b = 'm' ∨ b = 'M') ∧ a = '.'
  | _ => false

/-- Hidden files (leading dot) are not listed by `QDir::Files` alone. -/
def isHiddenFileName (fileName : String) : Bool :=
  match fileName.data with
  | c :: _ => c = '.'
  | [] => false

/-- The listing `notesDir.entryList(filters, QDir::Files, QDir::Time)`: the
note files of a folder, newest modification first. -/
def entryList (d : Disk) (dir : String) : List DiskFile :=
  List.insertionSort (fun a b : DiskFile => b.lastModified ≤ a.lastModified)
    (d.files.filter (fun f =>
      decide (f.dir = dir) && matchesNoteFilters f.fileName && !isHiddenFileName f.fileName))

/-! ## Notes and the note index -/

/-- Modelled from the spec: the `Note` entity class is not in the source.
Per the data model a note has a numeric id (0 for a note that is not in the
index), a name, a file name, its in-memory text, the dirty flag, the
last-modified time of its file and the encryption key and password. -/
structure Note where
  id : Nat := 0
  name : String := ""
  fileName : String := ""
  noteText : String := ""
  hasDirtyData : Bool := false
  fileLastModified : Nat := 0
  cryptoKey : Int := 0
  cryptoPassword : String := ""
deriving DecidableEq, Repr

/-- Modelled from the spec: the note index (NoteStore) is not in the
source.  It holds the note rows and the last id handed out; ids are never
handed out twice, so every rebuild reassigns all ids. -/
structure NoteIndex where
  notes : List Note := []
  lastId : Nat := 0
deriving DecidableEq, Repr

/-- First row of the index with the given file name. -/
def findByFileName (fileName : String) : List Note → Option Note
  | [] => none
  | n :: ns => if n.fileName = fileName then some n else findByFileName fileName ns

/-- First row of the index with the given id. -/
def findById (id : Nat) : List Note → Option Note
  | [] => none
  | n :: ns => if n.id = id then some n else findById id ns

/-- First row of the index with the given name. -/
def findByName (name : String) : List Note → Option Note
  | [] => none
  | n :: ns => if n.name = name then some n else findByName name ns

/-- Replaces every row that carries the id of `n` by `n`. -/
def updateRow (n : Note) : List Note → List Note
  | [] => []
  | m :: ms => (if m.id = n.id then n else m) :: updateRow n ms

/-- The path of a note file, `Note::getFullNoteFilePathForFile`. -/
def getFullNoteFilePathForFile (notesPath fileName : String) : String :=
  notesPath ++ "/" ++ fileName

/-- The name of a note made from a file: the file name up to its last dot. -/
def noteNameOfFileName (fileName : String) : String :=
  match (fileName.data.reverse.dropWhile (fun c => decide (c ≠ '.'))) with
  | [] => fileName
  | _ :: rest => String.mk rest.reverse

namespace Note

/-- Modelled from the spec: `Note::fetchByFileName` is not in the source.
Resolves a note by file name lookup; the empty note when there is none. -/
def fetchByFileName (db : NoteIndex) (fileName : String) : Note :=
  (findByFileName fileName db.notes).getD {}

/-- Modelled from the spec: `Note::fetch` is not in the source.  Resolves a
note by id; the empty note when there is none. -/
def fetch (db : NoteIndex) (id : Nat) : Note :=
  (findById id db.notes).getD {}

/-- Modelled from the spec: `Note::fetchByName` is not in the source.
Resolves a note by name; the empty note when there is none. -/
def fetchByName (db : NoteIndex) (name : String) : Note :=
  (findByName name db.notes).getD {}

/-- Modelled from the spec: `Note::exists` is not in the source.  A note
exists when the index has a row with its id. -/
def noteExists (n : Note) (db : NoteIndex) : Bool :=
  decide (0 < (fetch db n.id).id)

/-- Modelled from the spec: `Note::fileExists` is not in the source.  The
file of the note is present in the notes folder. -/
def fileExists (n : Note) (notesPath : String) (disk : Disk) : Bool :=
  disk.fileExists notesPath n.fileName

/-- Modelled from the spec: `Note::updateNoteTextFromDisk` is not in the
source.  Reads the disk text (readDiskText) into the note; the text of the
note then is what was most recently read from disk, so by the data-model
invariant the note is not dirty.  A note without a file is left as it is. -/
def updateNoteTextFromDisk (n : Note) (notesPath : String) (disk : Disk) : Note :=
  match disk.read notesPath n.fileName with
  | some text => { n with noteText := text, hasDirtyData := false }
  | none => n

/-- Modelled from the spec: `Note::store` is not in the source.  Writes the
note into the index: a note with an id replaces its row, a note without id
becomes a new row with a fresh id. -/
def store (n : Note) (db : NoteIndex) : NoteIndex × Note :=
  if 0 < n.id then ({ db with notes := updateRow n db.notes }, n)
  else
    let n1 : Note := { n with id := db.lastId + 1 }
    ({ notes := db.notes ++ [n1], lastId := db.lastId + 1 }, n1)

/-- Modelled from the spec: `Note::storeNewText` is not in the source.  An
edit: the text becomes the in-memory text, the note is dirty, the note is
stored in the index. -/
def storeNewText (n : Note) (db : NoteIndex) (text : String) : NoteIndex × Note :=
  store { n with noteText := text, hasDirtyData := true } db

/-- Modelled from the spec: `Note::storeNoteTextFileToDisk` is not in the
source (save(noteId) → writtenBool).  Persists the in-memory text to the
file of the note; after a successful write the dirty flag is cleared, the
last-modified time updated and the note stored.  A failed write leaves
note, index and disk as they are. -/
def storeNoteTextFileToDisk (n : Note) (notesPath : String) (disk : Disk) (db : NoteIndex)
    (now : Nat) : Disk × NoteIndex × Note × Bool :=
  match disk.write notesPath n.fileName n.noteText now with
  | some disk1 =>
    let r := store { n with hasDirtyData := false, fileLastModified := now } db
    (disk1, r.1, r.2, true)
  | none => (disk, db, n, false)

/-- Modelled from the spec: `Note::refetch` is not in the source.
Re-resolves the note by its file name; a note that is not found is left as
it is. -/
def refetch (n : Note) (db : NoteIndex) : Note :=
  (findByFileName n.fileName db.notes).getD n

/-- Modelled from the spec: `Note::deleteAll` is not in the source.  Wipes
the index; the ids handed out so far stay used. -/
def deleteAll (db : NoteIndex) : NoteIndex :=
  { db with notes := [] }

/-- Modelled from the spec: `Note::createFromFile` is not in the source.
Constructs the note of a file and stores it as a new row. -/
def createFromFile (db : NoteIndex) (f : DiskFile) : NoteIndex :=
  (store { name := noteNameOfFileName f.fileName, fileName := f.fileName,
           noteText := f.text, fileLastModified := f.lastModified } db).1

/-- Modelled from the spec: `Note::fetchAll` is not in the source.  All
notes of the index, most recently modified first. -/
def fetchAll (db : NoteIndex) : List Note :=
  List.insertionSort (fun a b : Note => b.fileLastModified ≤ a.fileLastModified) db.notes

/-- Modelled from the spec: `Note::fetchNoteFileNames` is not in the source.
The file names of all notes, most recently modified first. -/
def fetchNoteFileNames (db : NoteIndex) : List String :=
  (fetchAll db).map (fun n => n.fileName)

/-- One step of the flush: saves one dirty note and records the attempt. -/
def storeDirtyStep (notesPath : String) (now : Nat)
    (acc : Disk × NoteIndex × List (String × Bool)) (n : Note) :
    Disk × NoteIndex × List (String × Bool) :=
  let r := storeNoteTextFileToDisk n notesPath acc.1 acc.2.1 now
  (r.1, r.2.1, acc.2.2 ++ [(n.fileName, r.2.2.2)])

/-- Modelled from the spec: `Note::storeDirtyNotesToDisk` is not in the
source.  Saves every note of the index that is dirty; the result lists the
attempted writes in order, each with its success.  The current note that
the caller passes in is not changed by the flush. -/
def storeDirtyNotesToDisk (notesPath : String) (disk : Disk) (db : NoteIndex) (now : Nat) :
    Disk × NoteIndex × List (String × Bool) :=
  (db.notes.filter (fun n => n.hasDirtyData)).foldl (storeDirtyStep notesPath now)
    (disk, db, [])

end Note

/-- The count returned by `Note::storeDirtyNotesToDisk`: the notes actually written. -/
def writtenCount (attempts : List (String × Bool)) : Nat :=
  (attempts.filter (fun a => a.2)).length

/-- Modelled from the spec: `Note::toMarkdownHtml` is not in the source and
rendering is out of scope; the preview is stood for by the text it renders. -/
def Note.toMarkdownHtml (n : Note) : String := n.noteText

/-! ## The main window -/

/-- An entry of the trace: a modal dialog that was opened, a write of a
note file, or a wait.  Each entry records whether the signals of the file
watcher were blocked at that moment. -/
inductive Event where
  | diffDialog (text1 text2 : String) (watcherBlocked : Bool)
  | removedDialog (watcherBlocked : Bool)
  | fileWrite (fileName : String) (written : Bool) (watcherBlocked : Bool)
  | wait (msecs : Nat) (watcherBlocked : Bool)
deriving DecidableEq, Repr

/-- Whether a trace entry is a modal dialog. -/
def Event.isDialog : Event → Bool
  | .diffDialog _ _ _ => true
  | .removedDialog _ => true
  | _ => false

/-- Whether a trace entry is the diff prompt. -/
def Event.isDiffDialog : Event → Bool
  | .diffDialog _ _ _ => true
  | _ => false

/-- The texts of the status bar messages the protocol shows. -/
inductive StatusText where
  /-- The message "current note was modified externally". -/
  | currentNoteModifiedExternally
  /-- The message "stored current note to disk". -/
  | storedCurrentNoteToDisk
  /-- The message "note was modified externally: %1". -/
  | noteModifiedExternally (path : String)
  /-- The message "notes directory was modified externally". -/
  | notesDirectoryModifiedExternally
  /-- The message "stored %n note(s) to disk". -/
  | storedNotesToDisk (count : Nat)
deriving DecidableEq, Repr

/-- An item of the note list widget: its text (the note name), the tool
tip (name and modification time), the note id kept as item data, and the
hidden flag. -/
structure NoteListItem where
  text : String
  toolTipName : String := ""
  toolTipModified : Nat := 0
  noteId : Nat := 0
  hidden : Bool := false
deriving DecidableEq, Repr

/-- Modelled from the spec: the result roles of `NoteDiffDialog` are not in
the source; the prompt returns Overwrite, Reload, Cancel or Ignore, which
are distinct integer codes. -/
def NoteDiffDialog.Overwrite : Int := 1

/-- Modelled from the spec: result role Reload of the diff prompt. -/
def NoteDiffDialog.Reload : Int := 2

/-- Modelled from the spec: result role Ignore of the diff prompt. -/
def NoteDiffDialog.Ignore : Int := 3

/-- Modelled from the spec: result role Cancel of the diff prompt. -/
def NoteDiffDialog.Cancel : Int := 4

/-- The answers of the user in the modal dialogs: the result role of the
diff prompt shown for two texts, and the button picked in the message box
"Note was removed externally!" (0 is Restore, 1 is Cancel). -/
structure User where
  diffChoice : String → String → Int
  restoreChoice : Int

/-- The state: the members of the window used by the protocol, the widgets
it reads and writes, the file watcher, the persisted flags, and the world
around it (note index, disk, clock in milliseconds, trace). -/
structure MainWindow where
  demoNotesCreated : Bool := true
  distractionFreeMode : Bool := false
  platformLinux : Bool := true
  notesPath : String := ""
  currentNote : Note := {}
  currentNoteLastEdited : Nat := 0
  notifyAllExternalModifications : Bool := false
  sortAlphabetically : Bool := false
  noteViewNeedsUpdate : Bool := false
  noteDiffDialogVisible : Bool := false
  noteHistory : List String := []
  jumpToWelcomeNoteScheduled : Bool := false
  noteTextEdit : String := ""
  noteTextEditReadOnly : Bool := false
  noteTextView : String := ""
  notesListWidget : List NoteListItem := []
  currentRow : Int := -1
  firstVisibleNoteListRow : Int := 0
  statusBarMessage : Option (StatusText × Nat) := none
  watcherDirectories : List String := []
  watcherFiles : List String := []
  watcherBlocked : Bool := false
  db : NoteIndex := {}
  disk : Disk := {}
  now : Nat := 0
  log : List Event := []
deriving DecidableEq, Repr

/-- The file name of a path, `QFileInfo(str).fileName()`: what follows the last slash. -/
def fileNameOfPath (str : String) : String :=
  String.mk (str.data.reverse.takeWhile (fun c => decide (c ≠ '/'))).reverse

/-- Row of the first item with the given text (`findItems(name, Qt::MatchExactly)`, item 0). -/
def findItemRow (name : String) : List NoteListItem → Option Nat
  | [] => none
  | it :: its => if it.text = name then some 0 else (findItemRow name its).map Nat.succ

/-- Adds a path to a watch list; a path that is watched already is not added again. -/
def addPath (paths : List String) (path : String) : List String :=
  if path ∈ paths then paths else paths ++ [path]

/-- The loop of `loadNoteDirectoryList` that watches the note files: on
Linux it stops once the counter is above 200. -/
def watchNoteFiles (linux : Bool) (notesPath : String) (disk : Disk) :
    List String → Nat → List String → List String
  | [], _, acc => acc
  | fileName :: rest, count, acc =>
    if linux && decide (200 < count) then acc
    else if disk.fileExists notesPath fileName then
      watchNoteFiles linux notesPath disk rest (count + 1)
        (addPath acc (getFullNoteFilePathForFile notesPath fileName))
    else watchNoteFiles linux notesPath disk rest count acc

/-- The three demo notes copied into an empty notes folder. -/
def demoNoteFileNames : List String :=
  ["Markdown Showcase.md", "GitHub Flavored Markdown.md", "Welcome to QOwnNotes.md"]

/-- Modelled from the spec: the resource files under `:/demonotes/` are not
in the source; a demo note is stood for by a headline made of its name. -/
def demoNoteText (fileName : String) : String :=
  noteNameOfFileName fileName

/-- The copy `sourceFile.copy(destinationFile)`: creates the destination
when it does not exist and its folder does. -/
def copyDemoNote (now : Nat) (dir : String) (d : Disk) (fileName : String) : Disk :=
  match d.lookup dir fileName with
  | some _ => d
  | none =>
    if dir ∈ d.dirs then
      { d with files := d.files ++
        [{ dir := dir, fileName := fileName, text := demoNoteText fileName, lastModified := now }] }
    else d

/-- Modelled from the spec: the `NoteHistory` class is not in the source;
the history is kept as the names of the notes that were made current. -/
def noteHistoryAdd (history : List String) (note : Note) : List String :=
  if note.name ∈ history then history else history ++ [note.name]

namespace MainWindow

/-- Shows a status bar message if not in distraction free mode. -/
def showStatusBarMessage (s : MainWindow) (message : StatusText) (timeout : Nat) : MainWindow :=
  if !s.distractionFreeMode then { s with statusBarMessage := some (message, timeout) } else s

/-- The wait `waitMsecs`: the clock advances by the given time.  The events
the loop dispatches meanwhile are not part of the model. -/
def waitMsecs (s : MainWindow) (msecs : Nat) : MainWindow :=
  { s with now := s.now + msecs, log := s.log ++ [Event.wait msecs s.watcherBlocked] }

/-- Sets the note text according to a note: the editor text unless only
the view is updated, and the preview.  The scroll slider is left out. -/
def setNoteTextFromNote (s : MainWindow) (note : Note) (updateNoteTextViewOnly : Bool) :
    MainWindow :=
  let s1 : MainWindow := if !updateNoteTextViewOnly then { s with noteTextEdit := note.noteText } else s
  { s1 with noteTextView := note.toMarkdownHtml }

/-- Enables or disables the encrypt note buttons; what matters here is that
it re-fetches the current note. -/
def updateEncryptNoteButtons (s : MainWindow) : MainWindow :=
  { s with currentNote := s.currentNote.refetch s.db }

/-- The call `note.storeNoteTextFileToDisk()` run against the world of the
window; the write is entered in the trace. -/
def saveNote (s : MainWindow) (n : Note) : MainWindow × Note :=
  let r := n.storeNoteTextFileToDisk s.notesPath s.disk s.db s.now
  ({ s with disk := r.1, db := r.2.1,
            log := s.log ++ [Event.fileWrite n.fileName r.2.2.2 s.watcherBlocked] }, r.2.2.1)

/-- The window method `updateNoteTextFromDisk(Note note)`: reads the note
from disk, stores it, makes it the current note, and sets the editor text
with the signals of the editor blocked (so the change slot does not run). -/
def updateNoteTextFromDisk (s : MainWindow) (note : Note) : MainWindow :=
  let note1 := note.updateNoteTextFromDisk s.notesPath s.disk
  let r := note1.store s.db
  let s1 : MainWindow := { s with db := r.1, currentNote := r.2 }
  let s2 := updateEncryptNoteButtons s1
  setNoteTextFromNote s2 r.2 false

/-- The method `openNoteDiffDialog`: closes a diff dialog that is still
visible, computes the diff of the editor text and the disk text of the
changed note, runs the modal dialog and returns its result role. -/
def openNoteDiffDialog (u : User) (s : MainWindow) (changedNote : Note) : MainWindow × Int :=
  let s1 : MainWindow := if s.noteDiffDialogVisible then { s with noteDiffDialogVisible := false } else s
  let text1 := s1.noteTextEdit
  let changedNote1 := changedNote.updateNoteTextFromDisk s1.notesPath s1.disk
  let text2 := changedNote1.noteText
  ({ s1 with log := s1.log ++ [Event.diffDialog text1 text2 s1.watcherBlocked],
             noteDiffDialogVisible := false },
   u.diffChoice text1 text2)

/-- Sets the tool tip of the list item in the given row. -/
def setListWidgetItemToolTip (name : String) (modified : Nat) :
    List NoteListItem → Int → List NoteListItem
  | [], _ => []
  | it :: its, row =>
    if row = 0 then { it with toolTipName := name, toolTipModified := modified } :: its
    else it :: setListWidgetItemToolTip name modified its (row - 1)

/-- Makes the current note the first item in the note list without reloading the whole list. -/
def makeCurrentNoteFirstInNoteList (s : MainWindow) : MainWindow :=
  match findItemRow s.currentNote.name s.notesListWidget with
  | some i =>
    match s.notesListWidget[i]? with
    | some it => { s with notesListWidget := it :: s.notesListWidget.eraseIdx i, currentRow := 0 }
    | none => s
  | none => s

/-- The list item made for a note by `loadNoteDirectoryList`. -/
def noteListItem (note : Note) : NoteListItem :=
  { text := note.name, toolTipName := note.name, toolTipModified := note.fileLastModified,
    noteId := note.id }

/-- The method `loadNoteDirectoryList`: refills the note list from the
index (notes without name are skipped), clears the editors when there is
no note, rebuilds the watch set (the notes folder and the note files) and
sorts the list if the alphabetical mode is on.  Item icons and the metrics
event are left out, and so is the closing call `setupTags()`, which shows
the tag widgets and ends in `filterNotes(false)`: the search text and the
active tag are not part of the state, so the hidden flags and
`firstVisibleNoteListRow` that the code has after a refill are not
described by this function. -/
def loadNoteDirectoryList (s : MainWindow) : MainWindow :=
  let noteList := Note.fetchAll s.db
  let items := (noteList.filter (fun n => !n.name.isEmpty)).map noteListItem
  let s1 : MainWindow := { s with notesListWidget := items, currentRow := -1 }
  let s2 : MainWindow := if noteList.isEmpty then { s1 with noteTextEdit := "", noteTextView := "" } else s1
  let dirs : List String := if s2.notesPath ∈ s2.disk.dirs then [s2.notesPath] else []
  let s3 : MainWindow := { s2 with
    watcherDirectories := dirs,
    watcherFiles := watchNoteFiles s2.platformLinux s2.notesPath s2.disk
      (Note.fetchNoteFileNames s2.db) 0 [] }
  if s3.sortAlphabetically then
    { s3 with notesListWidget :=
        (List.insertionSort (fun a b : NoteListItem => ¬ b.text < a.text) s3.notesListWidget) }
  else s3

/-- The slot `storeUpdatedNotesToDisk` (autosave): with the watcher blocked,
saves the dirty notes; if something was written it waits 100 ms, re-fetches
the current note and refreshes the note list.  The metrics event and
`Tag::renameNoteFileNamesOfLinks` are left out. -/
def storeUpdatedNotesToDisk (s : MainWindow) : MainWindow :=
  let s0 : MainWindow := { s with watcherBlocked := true }
  let oldNoteName := s0.currentNote.name
  let r := Note.storeDirtyNotesToDisk s0.notesPath s0.disk s0.db s0.now
  let count := writtenCount r.2.2
  let s1 : MainWindow :=
    { s0 with disk := r.1, db := r.2.1,
              log := s0.log ++ r.2.2.map (fun a => Event.fileWrite a.1 a.2 true) }
  let s2 : MainWindow :=
    if 0 < count then
      let a : MainWindow := { s1 with noteViewNeedsUpdate := true }
      let b := showStatusBarMessage a (StatusText.storedNotesToDisk count) 1000
      let c := waitMsecs b 100
      let d : MainWindow := { c with currentNote := c.currentNote.refetch c.db }
      if oldNoteName = d.currentNote.name then
        if !d.sortAlphabetically then makeCurrentNoteFirstInNoteList d else d
      else loadNoteDirectoryList d
    else s1
  { s2 with watcherBlocked := s.watcherBlocked }

/-- The method `buildNotesIndex`: flushes the dirty notes, lists the note
files, seeds the demo notes into an empty folder once, wipes the index,
creates the notes from the files, re-fetches the current note and gives it
its crypto key back.  The single-shot timer for `jumpToWelcomeNote` is a
flag; the file permissions of the copies and the set-up of the note folder
database (tags) are left out. -/
def buildNotesIndex (s : MainWindow) : MainWindow :=
  let s1 := storeUpdatedNotesToDisk s
  let files := entryList s1.disk s1.notesPath
  let createDemoNotes := files.isEmpty && !s1.demoNotesCreated
  let s2 : MainWindow := if createDemoNotes then { s1 with demoNotesCreated := true } else s1
  let s3 : MainWindow :=
    if createDemoNotes then
      { s2 with disk := demoNoteFileNames.foldl (copyDemoNote s2.now s2.notesPath) s2.disk,
                jumpToWelcomeNoteScheduled := true }
    else s2
  let files1 := if createDemoNotes then entryList s3.disk s3.notesPath else files
  let cryptoKey := s3.currentNote.cryptoKey
  let cryptoPassword := s3.currentNote.cryptoPassword
  let db1 := Note.deleteAll s3.db
  let db2 := files1.foldl Note.createFromFile db1
  let s4 : MainWindow := { s3 with db := db2, currentNote := s3.currentNote.refetch db2 }
  if cryptoKey ≠ 0 then
    let r := Note.store
      { s4.currentNote with cryptoKey := cryptoKey, cryptoPassword := cryptoPassword } s4.db
    { s4 with db := r.1, currentNote := r.2 }
  else s4

/-- The method `setCurrentNote(note, updateNoteText, updateSelectedNote,
addNoteToHistory)`; the callers `setCurrentNote(note, flag)` of the
reconciliation leave the last two arguments at their default `true`.  Adds
the note to the history, makes it the current note, sets the read-only flag
of the editor from the file, selects the list item with the name of the
note, sets the editor text if asked to, and re-fetches the current note.
Metrics, the version and trash buttons, the cursor position kept in the
history, the window title, the encrypted editor and the tags of the note
are left out. -/
def setCurrentNote (s : MainWindow) (note : Note)
    (updateNoteText updateSelectedNote addNoteToHistory : Bool) : MainWindow :=
  let s1 : MainWindow :=
    if addNoteToHistory && note.noteExists s.db then
      { s with noteHistory := noteHistoryAdd s.noteHistory note }
    else s
  let s2 : MainWindow :=
    { s1 with currentNote := note,
              noteTextEditReadOnly := !s1.disk.isWritable s1.notesPath note.fileName }
  let s3 : MainWindow :=
    if updateSelectedNote then
      match findItemRow note.name s2.notesListWidget with
      | some i => { s2 with currentRow := (i : Int) }
      | none => s2
    else s2
  let s4 : MainWindow := if updateNoteText then setNoteTextFromNote s3 note false else s3
  updateEncryptNoteButtons s4

/-- The `switch (result)` of `notesWereModified` that follows the diff
dialog: Overwrite stores the current note to disk with the watcher blocked
and waits 100 ms, Reload loads the note from disk, every other result role
does nothing. -/
def applyDiffResult (s : MainWindow) (note : Note) (result : Int) : MainWindow :=
  if result = NoteDiffDialog.Overwrite then
    let s2 : MainWindow := { s with watcherBlocked := true }
    let st := s2.currentNote.store s2.db
    let s3 : MainWindow := { s2 with db := st.1, currentNote := st.2 }
    let sv := saveNote s3 s3.currentNote
    let s4 : MainWindow := { sv.1 with currentNote := sv.2 }
    let s5 := showStatusBarMessage s4 StatusText.storedCurrentNoteToDisk 1000
    let s6 := waitMsecs s5 100
    { s6 with watcherBlocked := s.watcherBlocked }
  else if result = NoteDiffDialog.Reload then updateNoteTextFromDisk s note
  else s

/-- The slot `notesWereModified(str)`, run when the watcher reports that
the file `str` has changed. -/
def notesWereModified (u : User) (s : MainWindow) (str : String) : MainWindow :=
  let note := Note.fetchByFileName s.db (fileNameOfPath str)
  if note.fileName = s.currentNote.fileName then
    if note.fileExists s.notesPath s.disk then
      let text1 := s.noteTextEdit
      let note1 := note.updateNoteTextFromDisk s.notesPath s.disk
      let text2 := note1.noteText
      if text1 = text2 then s
      else
        let s1 := showStatusBarMessage s StatusText.currentNoteModifiedExternally 3000
        if !s1.notifyAllExternalModifications
            && (!s1.currentNote.hasDirtyData
                && decide (s1.currentNoteLastEdited + 60000 < s1.now)) then
          updateNoteTextFromDisk s1 note1
        else
          let r := openNoteDiffDialog u s1 note1
          applyDiffResult r.1 note1 r.2
    else
      let s1 : MainWindow := { s with log := s.log ++ [Event.removedDialog s.watcherBlocked] }
      if u.restoreChoice = 0 then
        let s2 : MainWindow := { s1 with watcherBlocked := true }
        let text := s2.noteTextEdit
        let st := note.storeNewText s2.db text
        let s3 : MainWindow := { s2 with db := st.1 }
        let sv := saveNote s3 st.2
        let s4 := showStatusBarMessage sv.1 StatusText.storedCurrentNoteToDisk 1000
        let s5 := buildNotesIndex s4
        let s6 := loadNoteDirectoryList s5
        let note2 := sv.2.refetch s6.db
        let s7 := setCurrentNote s6 note2 false true true
        { s7 with watcherBlocked := s1.watcherBlocked }
      else s1
  else
    let s1 := showStatusBarMessage s (StatusText.noteModifiedExternally str) 3000
    let s2 := buildNotesIndex s1
    let s3 := loadNoteDirectoryList s2
    setCurrentNote s3 s3.currentNote false true true

/-- The slot `notesDirectoryWasModified(str)`, run when the watcher reports
that the notes folder has changed. -/
def notesDirectoryWasModified (s : MainWindow) (_str : String) : MainWindow :=
  let s1 := showStatusBarMessage s StatusText.notesDirectoryModifiedExternally 3000
  let s2 := buildNotesIndex s1
  let s3 := loadNoteDirectoryList s2
  let updateNoteText := !s3.currentNote.noteExists s3.db
  setCurrentNote s3 s3.currentNote updateNoteText true true

/-- The slot `on_noteTextEdit_textChanged`, run after the text of the
editor has changed: when the editor text differs from the text on disk it
is stored in the current note, the note is re-fetched, and the time of the
last edit and the tool tip of the current list item are set. -/
def on_noteTextEdit_textChanged (s : MainWindow) : MainWindow :=
  let note := s.currentNote.updateNoteTextFromDisk s.notesPath s.disk
  let noteTextFromDisk := note.noteText
  let text := s.noteTextEdit
  if text ≠ noteTextFromDisk then
    let st := s.currentNote.storeNewText s.db text
    let s1 : MainWindow :=
      { s with db := st.1, currentNote := st.2.refetch st.1,
               currentNoteLastEdited := s.now, noteViewNeedsUpdate := true }
    let s2 := updateEncryptNoteButtons s1
    { s2 with notesListWidget :=
        (setListWidgetItemToolTip s2.currentNote.name s2.currentNoteLastEdited
          s2.notesListWidget s2.currentRow) }
  else s

/-- The user types: the editor holds the new text and the change slot runs. -/
def userEditsText (s : MainWindow) (text : String) : MainWindow :=
  on_noteTextEdit_textChanged { s with noteTextEdit := text }

/-- The conflict condition of `notesWereModified`: the change of the
current note is not reloaded quietly when every external modification is
to be notified, or the current note is dirty, or the last edit is not more
than 60 seconds ago. -/
def promptNeeded (s : MainWindow) : Prop :=
  s.notifyAllExternalModifications = true ∨ s.currentNote.hasDirtyData = true
    ∨ s.now ≤ s.currentNoteLastEdited + 60000

end MainWindow

/-- The copy of a note after its text `d` was read from disk. -/
def Note.withDiskText (n : Note) (d : String) : Note :=
  { n with noteText := d, hasDirtyData := false }

/-! ## Concrete scenarios -/

/-- Note "A" as the index holds it: text "hello", saved. -/
def noteA : Note :=
  { id := 1, name := "A", fileName := "A.md", noteText := "hello", fileLastModified := 5000 }

/-- Note "A" is open with text "hello"; an external process has changed the
file to "hello world"; every external modification is to be notified. -/
def scenarioA : MainWindow :=
  { notesPath := "/notes", currentNote := noteA, noteTextEdit := "hello",
    noteTextView := "hello", notifyAllExternalModifications := true,
    notesListWidget := [{ text := "A", toolTipName := "A", toolTipModified := 5000, noteId := 1 }],
    currentRow := 0,
    watcherDirectories := ["/notes"], watcherFiles := ["/notes/A.md"],
    db := { notes := [noteA], lastId := 1 },
    disk := { dirs := ["/notes"],
              files := [{ dir := "/notes", fileName := "A.md", text := "hello world",
                          lastModified := 90000 }] },
    now := 100000 }

/-- A user who answers the diff prompt with Reload. -/
def userReload : User := { diffChoice := fun _ _ => NoteDiffDialog.Reload, restoreChoice := 1 }

/-- A user who answers the diff prompt with Overwrite. -/
def userOverwrite : User :=
  { diffChoice := fun _ _ => NoteDiffDialog.Overwrite, restoreChoice := 1 }

/-- A user who cancels every dialog. -/
def userCancel : User := { diffChoice := fun _ _ => NoteDiffDialog.Cancel, restoreChoice := 1 }

/-- A user who answers the message box about a removed note with Restore. -/
def userRestore : User := { diffChoice := fun _ _ => NoteDiffDialog.Cancel, restoreChoice := 0 }

/-- As `scenarioA`, but the file on disk holds the text of the editor. -/
def scenarioSpurious : MainWindow :=
  { scenarioA with
    disk := { dirs := ["/notes"],
              files := [{ dir := "/notes", fileName := "A.md", text := "hello",
                          lastModified := 90000 }] } }

/-- As `scenarioA`, but external modifications are not all notified, and
the last edit of the current note is exactly 60 seconds ago. -/
def scenarioBoundary : MainWindow :=
  { scenarioA with notifyAllExternalModifications := false, currentNoteLastEdited := 40000 }

/-- As `scenarioA`, but external modifications are not all notified, and
the last edit of the current note is 60.001 seconds ago. -/
def scenarioQuiet : MainWindow :=
  { scenarioA with notifyAllExternalModifications := false, currentNoteLastEdited := 39999 }

/-- The reachable state of the Overwrite defect: note "A" is open and saved
with text "hello"; the user types "hello!" and then types the text back to
"hello"; before the next autosave an external process changes the file to
"hello world". -/
def scenarioTypedBack : MainWindow :=
  { (({ scenarioSpurious with notifyAllExternalModifications := false }).userEditsText
        "hello!").userEditsText "hello" with
    disk := scenarioA.disk }

/-! ## Helper definitions for the rebuild -/

/-- The rows that `Note::createFromFile` makes for a listing, ids counted on from `k`. -/
def rebuiltRows (k : Nat) : List DiskFile → List Note
  | [] => []
  | f :: fs =>
    { id := k + 1, name := noteNameOfFileName f.fileName, fileName := f.fileName,
      noteText := f.text, fileLastModified := f.lastModified } :: rebuiltRows (k + 1) fs

/-- The index after the wipe and the creation of the notes of a listing. -/
def createdIndex (db1 : NoteIndex) (files1 : List DiskFile) : NoteIndex :=
  files1.foldl Note.createFromFile (Note.deleteAll db1)

/-- The index part of `buildNotesIndex` as a function of the flushed index,
the current note and the listing of the folder: wipe, create the notes,
re-fetch the current note, give it its crypto key back. -/
def rebuildIndex (db1 : NoteIndex) (cur1 : Note) (files1 : List DiskFile) : NoteIndex × Note :=
  if cur1.cryptoKey ≠ 0 then
    Note.store { cur1.refetch (createdIndex db1 files1) with
                 cryptoKey := cur1.cryptoKey, cryptoPassword := cur1.cryptoPassword }
      (createdIndex db1 files1)
  else (createdIndex db1 files1, cur1.refetch (createdIndex db1 files1))

/-- The folder `dir` holds a file named `fileName`, and every file of that
name in the folder has the text `text`. -/
def Disk.holds (d : Disk) (dir fileName text : String) : Prop :=
  (∃ f ∈ d.files, f.dir = dir ∧ f.fileName = fileName)
    ∧ ∀ f ∈ d.files, f.dir = dir → f.fileName = fileName → f.text = text

/-- Note "B" as the index holds it. -/
def noteB : Note :=
  { id := 2, name := "B", fileName := "B.md", noteText := "other", fileLastModified := 4000 }

/-- Note "A" is open with text "hello" and its file was removed externally. -/
def scenarioRemoved : MainWindow :=
  { scenarioA with disk := { dirs := ["/notes"], files := [] } }

/-- Note "A" is open with text "hello"; the notes folder was removed
externally together with the file of the note. -/
def scenarioFolderRemoved : MainWindow :=
  { scenarioA with disk := { dirs := [], files := [] } }

/-- The Restore branch of `notesWereModified` after the message box was
answered: the watcher is blocked and the editor text is stored in the note. -/
def MainWindow.beforeRestoreWrite (s : MainWindow) (note : Note) : MainWindow :=
  { s with log := s.log ++ [Event.removedDialog s.watcherBlocked], watcherBlocked := true,
           db := (note.storeNewText s.db s.noteTextEdit).1 }

/-- The Restore branch up to the rebuild: the note was written to its file
and the status bar message shown. -/
def MainWindow.afterRestoreWrite (s : MainWindow) (note : Note) : MainWindow :=
  ((s.beforeRestoreWrite note).saveNote
      (note.storeNewText s.db s.noteTextEdit).2).1.showStatusBarMessage
    StatusText.storedCurrentNoteToDisk 1000

/-- The note object of the Restore branch after it was written to its file. -/
def MainWindow.restoredNote (s : MainWindow) (note : Note) : Note :=
  ((s.beforeRestoreWrite note).saveNote (note.storeNewText s.db s.noteTextEdit).2).2

/-- The notes "A" and "B" are indexed, "A" is open, its record holds the
text "hello" while the editor holds "draft", and the file of "A" was moved
away: the folder holds only "B". -/
def scenarioCurrentMoved : MainWindow :=
  { scenarioA with
    noteTextEdit := "draft",
    db := { notes := [noteA, noteB], lastId := 2 },
    disk := { dirs := ["/notes"],
              files := [{ dir := "/notes", fileName := "B.md", text := "other",
                          lastModified := 4000 }] } }

/-- Note "A" is open and its file holds "hello"; the user has typed
"hello!", which is not saved yet. -/
def scenarioDirty : MainWindow :=
  ({ scenarioSpurious with notifyAllExternalModifications := false }).userEditsText "hello!"

/-- As `scenarioDirty`, but the file of note "A" has become read-only. -/
def scenarioReadOnly : MainWindow :=
  { scenarioDirty with
    disk := { dirs := ["/notes"],
              files := [{ dir := "/notes", fileName := "A.md", text := "hello",
                          lastModified := 90000, writable := false }] } }

/-- As `scenarioReadOnly`, and an external process has changed the text of
the read-only file to "hello world". -/
def scenarioReadOnlyChanged : MainWindow :=
  { scenarioDirty with
    disk := { dirs := ["/notes"],
              files := [{ dir := "/notes", fileName := "A.md", text := "hello world",
                          lastModified := 95000, writable := false }] } }

/-- Note "A" is open and saved; its record carries the password "secret"
and the crypto key 0. -/
def scenarioPasswordOnly : MainWindow :=
  { scenarioSpurious with
    currentNote := { noteA with cryptoPassword := "secret" },
    db := { notes := [{ noteA with cryptoPassword := "secret" }], lastId := 1 } }

/-- Note "A" is open and saved; its record carries the password "secret"
and the crypto key 42. -/
def scenarioEncrypted : MainWindow :=
  { scenarioSpurious with
    currentNote := { noteA with cryptoKey := 42, cryptoPassword := "secret" },
    db := { notes := [{ noteA with cryptoKey := 42, cryptoPassword := "secret" }], lastId := 1 } }

/-- The value of the local variable `createDemoNotes` of `buildNotesIndex`
once the settings were consulted: the listing of the flushed notes folder
is empty and the demo notes were not created before. -/
def MainWindow.createDemoNotes (s : MainWindow) : Bool :=
  (entryList s.storeUpdatedNotesToDisk.disk s.storeUpdatedNotesToDisk.notesPath).isEmpty
    && !s.storeUpdatedNotesToDisk.demoNotesCreated

/-- A run of index rebuilds.  Before each rebuild the world may have
changed: another folder is the notes folder, and the disk is another one.
The result is the last state and the number of rebuilds that seeded the
demo notes. -/
def rebuildRun : List (String × Disk) → MainWindow → MainWindow × Nat
  | [], s => (s, 0)
  | w :: ws, s =>
    let s1 : MainWindow := { s with notesPath := w.1, disk := w.2 }
    let r := rebuildRun ws s1.buildNotesIndex
    (r.1, (if s1.createDemoNotes then 1 else 0) + r.2)

/-- First start: the notes folder exists and is empty, the index is empty,
and the demo notes were never created. -/
def scenarioFirstRun : MainWindow :=
  { demoNotesCreated := false, notesPath := "/notes",
    disk := { dirs := ["/notes"], files := [] }, now := 100000 }

/-- The name of the note file number `i` of the large folder: `i + 1`
letters "n" and the suffix ".md". -/
def numberedFileName (i : Nat) : String :=
  String.mk (List.replicate (i + 1) 'n' ++ ['.', 'm', 'd'])

/-- A notes folder on Linux with 250 note files, all of them indexed. -/
def scenarioManyNotes : MainWindow :=
  { notesPath := "/notes",
    db := { notes := (List.range 250).map (fun i =>
              { id := i + 1, name := noteNameOfFileName (numberedFileName i),
                fileName := numberedFileName i, noteText := "text",
                fileLastModified := 1000 }),
            lastId := 250 },
    disk := { dirs := ["/notes"],
              files := (List.range 250).map (fun i =>
                { dir := "/notes", fileName := numberedFileName i, text := "text",
                  lastModified := 1000 }) },
    now := 100000 }

/-- Modelled from the spec: the `NoteFolder` entity class is not in the
source.  A note folder is a named root directory, and exactly one folder is
the current one; `fetched` tells whether `NoteFolder::fetch` found a folder
with the given id (`isFetched`), `current` whether the folder is the current
one (`isCurrent`), `localPath` is its directory (`getLocalPath`). -/
structure NoteFolder where
  id : Int := 0
  name : String := ""
  localPath : String := ""
  fetched : Bool := false
  current : Bool := false
deriving DecidableEq, Repr

/-- The slot `changeNoteFolder(noteFolderId, forceChange)`, given the folder
that `NoteFolder::fetch(noteFolderId)` returns: when the folder differs from
the notes path it stores the dirty notes, makes the folder the notes path,
unsets the current note, rebuilds index, note list and watch set, clears
editor and preview and clears the note history.  The settings written on the
way (`setAsCurrent`, `storeRecentNoteFolder`, the key `notesPath`), the
search line, the encrypted editor and the folder tool tip are left out. -/
def MainWindow.changeNoteFolder (s : MainWindow) (noteFolder : NoteFolder)
    (forceChange : Bool) : MainWindow :=
  if !noteFolder.fetched then s
  else if noteFolder.current && !forceChange then s
  else
    let folderName := noteFolder.localPath
    let oldPath := s.notesPath
    if oldPath ≠ folderName then
      let s1 := s.storeUpdatedNotesToDisk
      let s2 : MainWindow := { s1 with notesPath := folderName, currentNote := {} }
      let s3 := s2.buildNotesIndex
      let s4 := s3.loadNoteDirectoryList
      { s4 with noteTextEdit := "", noteTextView := "", noteHistory := [] }
    else s

/-- Two note folders: "/notes" holds "A.md", "/work" holds "W.md".  Note "A"
is open, the user has typed "hello!", which is not saved yet; the watcher
watches "/notes" and "/notes/A.md". -/
def scenarioTwoFolders : MainWindow :=
  { scenarioDirty with
    noteHistory := ["A"],
    disk := { dirs := ["/notes", "/work"],
              files := [{ dir := "/notes", fileName := "A.md", text := "hello",
                          lastModified := 90000 },
                        { dir := "/work", fileName := "W.md", text := "work",
                          lastModified := 80000 }] } }

/-- The note folder "/work", which is not the current one. -/
def workFolder : NoteFolder :=
  { id := 2, name := "work", localPath := "/work", fetched := true, current := false }

/-! ## The note list: filters and navigation -/

/-- Whether the row `i` of the note list exists and is hidden. -/
def hiddenAt (items : List NoteListItem) (i : Nat) : Bool :=
  match items[i]? with
  | some item => item.hidden
  | none => false

/-- Whether the row `i` of the note list exists and is not hidden. -/
def visibleAt (items : List NoteListItem) (i : Nat) : Bool :=
  match items[i]? with
  | some item => !item.hidden
  | none => false

/-- The call `QString::count()`: the number of UTF-16 code units of the
text; a character above U+FFFF takes two. -/
def qstringCount (text : String) : Nat :=
  (text.data.map (fun c => if c.toNat < 65536 then 1 else 2)).sum

/-- The loop of `filterNotesBySearchLineEditText` over the rows from row
`i` on: a row whose text is not in the name list is hidden, every other
row is shown, and the first of them becomes the first visible row when
that is still negative. -/
def searchFilterLoop (noteNameList : List String) :
    List NoteListItem → Nat → Int → List NoteListItem × Int
  | [], _, firstVisible => ([], firstVisible)
  | item :: rest, i, firstVisible =>
    if item.text ∉ noteNameList then
      let r := searchFilterLoop noteNameList rest (i + 1) firstVisible
      ({ item with hidden := true } :: r.1, r.2)
    else
      let r := searchFilterLoop noteNameList rest (i + 1)
        (if firstVisible < 0 then (i : Int) else firstVisible)
      ({ item with hidden := false } :: r.1, r.2)

/-- The loop of `filterNotesByTag` over the rows from row `i` on: a hidden
row is skipped, a row whose text is not in the list of the linked notes is
hidden, every other row is shown, and the first of them becomes the first
visible row when that is still negative. -/
def tagFilterLoop (fileNameList : List String) :
    List NoteListItem → Nat → Int → List NoteListItem × Int
  | [], _, firstVisible => ([], firstVisible)
  | item :: rest, i, firstVisible =>
    if item.hidden then
      let r := tagFilterLoop fileNameList rest (i + 1) firstVisible
      (item :: r.1, r.2)
    else if item.text ∉ fileNameList then
      let r := tagFilterLoop fileNameList rest (i + 1) firstVisible
      ({ item with hidden := true } :: r.1, r.2)
    else
      let r := tagFilterLoop fileNameList rest (i + 1)
        (if firstVisible < 0 then (i : Int) else firstVisible)
      ({ item with hidden := false } :: r.1, r.2)

/-- How a call of a recursive method ends: it returns and leaves a state,
it uses an item that does not exist, or the allowed depth of the recursion
is used up before it returns. -/
inductive Outcome where
  | returned (s : MainWindow)
  | crashed
  | unfinished
deriving DecidableEq, Repr

namespace MainWindow

/-- The method `filterNotesBySearchLineEditText`. The text of the search
line `arg1` and the result `noteNameList` of `Note::searchAsNameList(arg1)`,
which is not in the source, are parameters. -/
def filterNotesBySearchLineEditText (s : MainWindow) (arg1 : String)
    (noteNameList : List String) : MainWindow :=
  if qstringCount arg1 ≥ 2 then
    let r := searchFilterLoop noteNameList s.notesListWidget 0 (-1)
    { s with notesListWidget := r.1, firstVisibleNoteListRow := r.2 }
  else
    { s with firstVisibleNoteListRow := 0,
             notesListWidget := s.notesListWidget.map (fun item => { item with hidden := false }) }

/-- The method `filterNotesByTag`. The class `Tag` is not in the source:
`activeTag` is `none` when `Tag::activeTag()` is not fetched, and otherwise
holds the result of its `fetchAllLinkedNoteFileNames()`. -/
def filterNotesByTag (s : MainWindow) (activeTag : Option (List String)) : MainWindow :=
  match activeTag with
  | none => s
  | some fileNameList =>
    let r := tagFilterLoop fileNameList s.notesListWidget 0 s.firstVisibleNoteListRow
    { s with notesListWidget := r.1, firstVisibleNoteListRow := r.2 }

/-- The method `filterNotes`: the filter by the search text and, when the
setting `tagsEnabled` is set, the filter by the active tag. The search for
the text inside the open note is left out. -/
def filterNotes (s : MainWindow) (arg1 : String) (noteNameList : List String)
    (tagsEnabled : Bool) (activeTag : Option (List String)) : MainWindow :=
  let s1 := filterNotesBySearchLineEditText s arg1 noteNameList
  if tagsEnabled then filterNotesByTag s1 activeTag else s1

/-- The slot `on_notesListWidget_currentItemChanged` for the current item
of the list: the note with the name of the item becomes the current note.
The highlighter and the search in the note are left out. -/
def on_notesListWidget_currentItemChanged (s : MainWindow) : MainWindow :=
  if s.currentRow < 0 then s
  else
    match s.notesListWidget[s.currentRow.toNat]? with
    | none => s
    | some current => setCurrentNote s (Note.fetchByName s.db current.text) true false true

/-- The call `ui->notesListWidget->setCurrentRow(row)` with the signals of
the list not blocked: the row becomes the current row, and when that
changes the current item the slot `on_notesListWidget_currentItemChanged`
runs. -/
def setCurrentRow (s : MainWindow) (row : Int) : MainWindow :=
  let s1 : MainWindow := { s with currentRow := row }
  if row ≠ s.currentRow then on_notesListWidget_currentItemChanged s1 else s1

/-- The method `gotoNextNote(nextRow)` with at most `depth` nested calls. -/
def gotoNextNoteAux : Nat → MainWindow → Int → Outcome
  | 0, _, _ => Outcome.unfinished
  | depth + 1, s, nextRow =>
    if s.firstVisibleNoteListRow = -1 then Outcome.returned s
    else
      let nextRow1 := if nextRow = -1 then s.currentRow + 1 else nextRow
      if nextRow1 ≥ (s.notesListWidget.length : Int) then gotoNextNoteAux depth s 0
      else if nextRow1 < 0 then Outcome.crashed
      else
        match s.notesListWidget[nextRow1.toNat]? with
        | none => Outcome.crashed
        | some item =>
          if item.hidden then gotoNextNoteAux depth s (nextRow1 + 1)
          else Outcome.returned (setCurrentRow s nextRow1)

/-- The call `gotoNextNote()` with the default argument -1. -/
def gotoNextNote (depth : Nat) (s : MainWindow) : Outcome :=
  gotoNextNoteAux depth s (-1)

/-- The method `gotoPreviousNote(previousRow)` with at most `depth` nested calls. -/
def gotoPreviousNoteAux : Nat → MainWindow → Int → Outcome
  | 0, _, _ => Outcome.unfinished
  | depth + 1, s, previousRow =>
    if s.firstVisibleNoteListRow = -1 then Outcome.returned s
    else
      let previousRow1 := if previousRow = -1 then s.currentRow - 1 else previousRow
      if previousRow1 < 0 then
        gotoPreviousNoteAux depth s ((s.notesListWidget.length : Int) - 1)
      else
        match s.notesListWidget[previousRow1.toNat]? with
        | none => Outcome.crashed
        | some item =>
          if item.hidden then
            let previousRow2 := previousRow1 - 1
            let previousRow3 :=
              if previousRow2 < 0 then (s.notesListWidget.length : Int) - 1 else previousRow2
            gotoPreviousNoteAux depth s previousRow3
          else Outcome.returned (setCurrentRow s previousRow1)

/-- The call `gotoPreviousNote()` with the default argument -1. -/
def gotoPreviousNote (depth : Nat) (s : MainWindow) : Outcome :=
  gotoPreviousNoteAux depth s (-1)

end MainWindow

/-- The outcome of a second call made on the state that a first call leaves. -/
def Outcome.andThen (o : Outcome) (f : MainWindow → Outcome) : Outcome :=
  match o with
  | Outcome.returned s => f s
  | Outcome.crashed => Outcome.crashed
  | Outcome.unfinished => Outcome.unfinished

/-- The notes "A" and "B" are indexed, listed and saved; "A" is open with
editor text "hello"; external modifications are not all notified. -/
def scenarioTwoNotes : MainWindow :=
  { scenarioA with
    notifyAllExternalModifications := false,
    notesListWidget := [{ text := "A", toolTipName := "A", toolTipModified := 5000, noteId := 1 },
                        { text := "B", toolTipName := "B", toolTipModified := 4000, noteId := 2 }],
    watcherFiles := ["/notes/A.md", "/notes/B.md"],
    db := { notes := [noteA, noteB], lastId := 2 },
    disk := { dirs := ["/notes"],
              files := [{ dir := "/notes", fileName := "A.md", text := "hello",
                          lastModified := 5000 },
                        { dir := "/notes", fileName := "B.md", text := "other",
                          lastModified := 4000 }] } }

/-- The state of `scenarioTwoNotes` after the filters ran with an empty
search text and an active tag that no note is linked to: every row is hidden. -/
def scenarioTagHidesAll : MainWindow :=
  scenarioTwoNotes.filterNotes "" [] true (some [])

/-- A notes folder without notes after the filters ran with an empty search
text: the note list is empty. -/
def scenarioNoNotes : MainWindow :=
  MainWindow.filterNotes { notesPath := "/notes", watcherDirectories := ["/notes"],
                           disk := { dirs := ["/notes"] } } "" [] false none

/-- The state of `scenarioTwoNotes` after these steps: the user types
"hello!" into note "A" at 100 s, the autosave stores the note at 105 s, the
user selects note "B" in the list at 110 s, and at 120 s an external
process has changed the file of "B" to "changed". -/
def scenarioSwitched : MainWindow :=
  { (MainWindow.setCurrentRow
      { ({ scenarioTwoNotes.userEditsText "hello!" with now := 105000 }).storeUpdatedNotesToDisk
        with now := 110000 } 1) with
    now := 120000,
    disk := { dirs := ["/notes"],
              files := [{ dir := "/notes", fileName := "A.md", text := "hello!",
                          lastModified := 105000 },
                        { dir := "/notes", fileName := "B.md", text := "changed",
                          lastModified := 119000 }] } }

/-! ## Removing the current note -/

/-- Modelled from the spec: `Note::remove(withFile)` is not in the source;
following the comment at its call ("delete note in database and on file
system") it deletes the row of the note from the index and, with
`withFile`, the file of the note from the notes folder. -/
def Note.remove (n : Note) (notesPath : String) (disk : Disk) (db : NoteIndex)
    (withFile : Bool) : Disk × NoteIndex :=
  (if withFile then
     { disk with files := disk.files.filter
                   (fun f => decide (¬(f.dir = notesPath ∧ f.fileName = n.fileName))) }
   else disk,
   { db with notes := db.notes.filter (fun m => decide (m.id ≠ n.id)) })

namespace MainWindow

/-- The method `resetCurrentNote`: with a non-empty note list the first row
becomes the current row, with the signals of the list blocked, and the note
with the name of its item becomes the current note; with an empty list
nothing is done. -/
def resetCurrentNote (s : MainWindow) : MainWindow :=
  match s.notesListWidget with
  | [] => s
  | item :: _ =>
    let s1 : MainWindow := { s with currentRow := 0 }
    setCurrentNote s1 (Note.fetchByName s1.db item.text) true false true

/-- The method `removeCurrentNote`, for the button `answer` the user picks
in the message box "Remove current note" (0 is Remove, 1 is Cancel). The
row that the list makes current when the item is deleted is set anew by
`resetCurrentNote` unless the list has become empty, which leaves no
current row. -/
def removeCurrentNote (s : MainWindow) (answer : Int) : MainWindow :=
  let s1 := storeUpdatedNotesToDisk s
  if answer = 0 then
    match findItemRow s1.currentNote.name s1.notesListWidget with
    | none => s1
    | some i =>
      let s2 : MainWindow := { s1 with watcherBlocked := true }
      let r := s2.currentNote.remove s2.notesPath s2.disk s2.db true
      let s3 : MainWindow := { s2 with disk := r.1, db := r.2, noteTextEdit := "",
                                       noteTextView := "" }
      let s4 : MainWindow :=
        { s3 with notesListWidget := s3.notesListWidget.eraseIdx i,
                  currentRow := if (s3.notesListWidget.eraseIdx i).isEmpty then -1
                                else s3.currentRow }
      let s5 := resetCurrentNote s4
      { s5 with watcherBlocked := s1.watcherBlocked }
  else s1

end MainWindow

/-- Note "A" is the only note; it is open and saved. -/
def scenarioOnlyNote : MainWindow :=
  { scenarioSpurious with notifyAllExternalModifications := false }

/-! ## The settings of the autosave timer -/

/-- The value of a C++ `int` expression: the integer wrapped into 32 bits. -/
def wrapInt32 (x : Int) : Int :=
  (x + 2147483648) % 4294967296 - 2147483648

/-- The members and the stored settings that `readSettingsFromSettingsDialog`
and the note save timer use: the settings keys `noteSaveIntervalTime`
(`none` when the key is absent, otherwise the `int` that `toInt()` gives)
and `notifyAllExternalModifications`, the two members of these names, and
the interval in milliseconds of the note save timer (`none` while the timer
is stopped). -/
structure SettingsState where
  storedNoteSaveIntervalTime : Option Int := none
  storedNotifyAllExternalModifications : Bool := false
  notifyAllExternalModifications : Bool := false
  noteSaveIntervalTime : Int := 0
  noteSaveTimerInterval : Option Int := none
deriving DecidableEq, Repr

namespace SettingsState

/-- The method `readSettingsFromSettingsDialog`, without the fonts, the
icon size, the folder combo box and the style sheet. -/
def readSettingsFromSettingsDialog (s : SettingsState) : SettingsState :=
  let s1 : SettingsState :=
    { s with notifyAllExternalModifications := s.storedNotifyAllExternalModifications,
             noteSaveIntervalTime := s.storedNoteSaveIntervalTime.getD 0 }
  if s1.noteSaveIntervalTime = 0 then
    { s1 with noteSaveIntervalTime := 10, storedNoteSaveIntervalTime := some 10 }
  else s1

/-- The call `noteSaveTimer->start(noteSaveIntervalTime * 1000)`: the
product is an `int`. -/
def startNoteSaveTimer (s : SettingsState) : SettingsState :=
  { s with noteSaveTimerInterval := some (wrapInt32 (s.noteSaveIntervalTime * 1000)) }

/-- The part of the constructor that reads the settings and starts the
note save timer. -/
def construct (s : SettingsState) : SettingsState :=
  startNoteSaveTimer (readSettingsFromSettingsDialog s)

/-- The method `openSettingsDialog` when the dialog was accepted: the
settings are read again and the note save timer is restarted. -/
def openSettingsDialogAccepted (s : SettingsState) : SettingsState :=
  startNoteSaveTimer { readSettingsFromSettingsDialog s with noteSaveTimerInterval := none }

end SettingsState

/-! ## The recent note folders -/

/-- The call `QStringList::removeAll(x)`: every occurrence of `x` is removed. -/
def removeAll (l : List String) (x : String) : List String :=
  l.filter (fun y => decide (y ≠ x))

/-- The method `storeRecentNoteFolder(addFolderName, removeFolderName)` as
a function of the list stored under the settings key `recentNoteFolders`:
the list that it stores under this key. The reload of the menu of the note
folders is left out. -/
def storeRecentNoteFolder (recentNoteFolders : List String)
    (addFolderName removeFolderName : String) : List String :=
  let l1 := removeAll recentNoteFolders addFolderName
  let l2 := removeAll l1 removeFolderName
  let l3 := removeAll l2 ""
  if addFolderName ≠ removeFolderName then addFolderName :: l3 else l3

/-! ## The next and the previous visible row -/

/-- Row `r` is the first visible row strictly after row `c` in cyclic order. -/
def isNextVisible (items : List NoteListItem) (c : Int) (r : Nat) : Prop :=
  visibleAt items r = true
    ∧ ((c < (r : Int) ∧ ∀ i : Nat, c < (i : Int) → i < r → hiddenAt items i = true)
       ∨ ((r : Int) ≤ c
          ∧ (∀ i : Nat, c < (i : Int) → i < items.length → hiddenAt items i = true)
          ∧ ∀ i : Nat, i < r → hiddenAt items i = true))

/-- Row `r` is the last visible row strictly before row `c` in cyclic order. -/
def isPreviousVisible (items : List NoteListItem) (c : Int) (r : Nat) : Prop :=
  visibleAt items r = true
    ∧ (((r : Int) < c ∧ ∀ i : Nat, r < i → (i : Int) < c → hiddenAt items i = true)
       ∨ (c ≤ (r : Int)
          ∧ (∀ i : Nat, (i : Int) < c → hiddenAt items i = true)
          ∧ ∀ i : Nat, r < i → i < items.length → hiddenAt items i = true))

/-! ## Theorems -/

/-! ### Disk and index lookups -/

theorem findFile_text_of_read (d : Disk) (dir fileName text : String)
    (h : d.read dir fileName = some text) :
    ∃ f, d.lookup dir fileName = some f ∧ f.text = text := by
  unfold Disk.read at h
  cases hl : d.lookup dir fileName with
  | none => simp [hl] at h
  | some f => exact ⟨f, rfl, by simpa [hl] using h⟩

theorem Note.updateNoteTextFromDisk_of_read (n : Note) (notesPath : String) (disk : Disk)
    (text : String) (h : disk.read notesPath n.fileName = some text) :
    n.updateNoteTextFromDisk notesPath disk = n.withDiskText text := by
  simp [Note.updateNoteTextFromDisk, Note.withDiskText, h]

theorem Note.fileExists_of_read (n : Note) (notesPath : String) (disk : Disk)
    (text : String) (h : disk.read notesPath n.fileName = some text) :
    n.fileExists notesPath disk = true := by
  obtain ⟨f, hf, _⟩ := findFile_text_of_read disk notesPath n.fileName text h
  simp [Note.fileExists, Disk.fileExists, hf]

theorem findByFileName_some {fileName : String} {l : List Note} {m : Note}
    (h : findByFileName fileName l = some m) : m ∈ l ∧ m.fileName = fileName := by
  induction l with
  | nil => simp [findByFileName] at h
  | cons x xs ih =>
    unfold findByFileName at h
    by_cases hx : x.fileName = fileName
    · simp only [hx, if_true, Option.some.injEq] at h
      subst h
      exact ⟨List.mem_cons_self _ _, hx⟩
    · simp only [hx, if_false] at h
      exact ⟨List.mem_cons_of_mem _ (ih h).1, (ih h).2⟩

theorem findByFileName_append (fileName : String) (l1 l2 : List Note) :
    findByFileName fileName (l1 ++ l2)
      = (findByFileName fileName l1).orElse (fun _ => findByFileName fileName l2) := by
  induction l1 with
  | nil => simp [findByFileName]
  | cons x xs ih =>
    by_cases hx : x.fileName = fileName
    · simp [findByFileName, hx]
    · simp [findByFileName, hx, ih]

theorem findByFileName_updateRow (n m : Note) (l : List Note)
    (h : findByFileName n.fileName l = some m) (hid : m.id = n.id) :
    findByFileName n.fileName (updateRow n l) = some n := by
  induction l with
  | nil => simp [findByFileName] at h
  | cons x xs ih =>
    unfold findByFileName at h
    by_cases hx : x.fileName = n.fileName
    · simp only [hx, if_true, Option.some.injEq] at h
      subst h
      simp [updateRow, findByFileName, hid]
    · simp only [hx, if_false] at h
      by_cases hxi : x.id = n.id
      · simp [updateRow, findByFileName, hxi]
      · simp [updateRow, findByFileName, hxi, hx, ih h]

/-- A note that the index resolved by file name, and that has a positive
id, is the row that a lookup of its file name returns. -/
theorem fetchByFileName_found (db : NoteIndex) (fileName : String)
    (hpos : 0 < (Note.fetchByFileName db fileName).id) :
    findByFileName fileName db.notes = some (Note.fetchByFileName db fileName)
      ∧ (Note.fetchByFileName db fileName).fileName = fileName := by
  unfold Note.fetchByFileName at hpos ⊢
  cases h : findByFileName fileName db.notes with
  | none => simp [h] at hpos
  | some m => exact ⟨by simp, by simpa using (findByFileName_some h).2⟩

/-- Storing a changed copy of a resolved note and re-fetching it by file
name gives the changed copy back. -/
theorem refetch_store_resolved (db : NoteIndex) (n m : Note)
    (h : findByFileName n.fileName db.notes = some m) (hid : m.id = n.id) (hpos : 0 < n.id) :
    (n.store db).2.refetch (n.store db).1 = n ∧ (n.store db).2 = n := by
  simp [Note.store, hpos, Note.refetch, findByFileName_updateRow n m db.notes h hid]

/-- A status bar message changes the status bar only. -/
theorem showStatusBarMessage_eq (s : MainWindow) (m : StatusText) (t : Nat) :
    s.showStatusBarMessage m t
      = { s with statusBarMessage := (s.showStatusBarMessage m t).statusBarMessage } := by
  unfold MainWindow.showStatusBarMessage
  split <;> rfl

@[simp] theorem showStatusBarMessage_notifyAll (s : MainWindow) (m : StatusText) (t : Nat) :
    (s.showStatusBarMessage m t).notifyAllExternalModifications
      = s.notifyAllExternalModifications := by
  rw [showStatusBarMessage_eq]

@[simp] theorem showStatusBarMessage_currentNote (s : MainWindow) (m : StatusText) (t : Nat) :
    (s.showStatusBarMessage m t).currentNote = s.currentNote := by
  rw [showStatusBarMessage_eq]

@[simp] theorem showStatusBarMessage_lastEdited (s : MainWindow) (m : StatusText) (t : Nat) :
    (s.showStatusBarMessage m t).currentNoteLastEdited = s.currentNoteLastEdited := by
  rw [showStatusBarMessage_eq]

@[simp] theorem showStatusBarMessage_now (s : MainWindow) (m : StatusText) (t : Nat) :
    (s.showStatusBarMessage m t).now = s.now := by
  rw [showStatusBarMessage_eq]

@[simp] theorem showStatusBarMessage_noteTextEdit (s : MainWindow) (m : StatusText) (t : Nat) :
    (s.showStatusBarMessage m t).noteTextEdit = s.noteTextEdit := by
  rw [showStatusBarMessage_eq]

@[simp] theorem showStatusBarMessage_disk (s : MainWindow) (m : StatusText) (t : Nat) :
    (s.showStatusBarMessage m t).disk = s.disk := by
  rw [showStatusBarMessage_eq]

@[simp] theorem showStatusBarMessage_db (s : MainWindow) (m : StatusText) (t : Nat) :
    (s.showStatusBarMessage m t).db = s.db := by
  rw [showStatusBarMessage_eq]

@[simp] theorem showStatusBarMessage_log (s : MainWindow) (m : StatusText) (t : Nat) :
    (s.showStatusBarMessage m t).log = s.log := by
  rw [showStatusBarMessage_eq]

@[simp] theorem showStatusBarMessage_watcherBlocked (s : MainWindow) (m : StatusText) (t : Nat) :
    (s.showStatusBarMessage m t).watcherBlocked = s.watcherBlocked := by
  rw [showStatusBarMessage_eq]

@[simp] theorem showStatusBarMessage_notesPath (s : MainWindow) (m : StatusText) (t : Nat) :
    (s.showStatusBarMessage m t).notesPath = s.notesPath := by
  rw [showStatusBarMessage_eq]

@[simp] theorem showStatusBarMessage_notesListWidget (s : MainWindow) (m : StatusText) (t : Nat) :
    (s.showStatusBarMessage m t).notesListWidget = s.notesListWidget := by
  rw [showStatusBarMessage_eq]

@[simp] theorem showStatusBarMessage_sortAlphabetically (s : MainWindow) (m : StatusText)
    (t : Nat) : (s.showStatusBarMessage m t).sortAlphabetically = s.sortAlphabetically := by
  rw [showStatusBarMessage_eq]

@[simp] theorem showStatusBarMessage_demoNotesCreated (s : MainWindow) (m : StatusText)
    (t : Nat) : (s.showStatusBarMessage m t).demoNotesCreated = s.demoNotesCreated := by
  rw [showStatusBarMessage_eq]

/-- The diff dialog for a note whose file holds `d`: one trace entry with
the editor text and `d`, and the answer of the user for these two texts. -/
theorem openNoteDiffDialog_eq (u : User) (s : MainWindow) (n : Note) (d : String)
    (hd : s.disk.read s.notesPath n.fileName = some d) :
    MainWindow.openNoteDiffDialog u s n
      = ({ s with log := s.log ++ [Event.diffDialog s.noteTextEdit d s.watcherBlocked],
                  noteDiffDialogVisible := false },
         u.diffChoice s.noteTextEdit d) := by
  unfold MainWindow.openNoteDiffDialog
  by_cases hv : s.noteDiffDialogVisible = true
  · simp [hv, Note.updateNoteTextFromDisk, hd]
  · simp [hv, Note.updateNoteTextFromDisk, hd]

/-- The path taken by `notesWereModified` when the changed file is the
current note and its disk text differs from the editor text. -/
theorem notesWereModified_differ (u : User) (s : MainWindow) (str d : String)
    (hcur : (Note.fetchByFileName s.db (fileNameOfPath str)).fileName = s.currentNote.fileName)
    (hdisk : s.disk.read s.notesPath s.currentNote.fileName = some d)
    (hne : s.noteTextEdit ≠ d) :
    MainWindow.notesWereModified u s str =
      if s.notifyAllExternalModifications = false ∧ s.currentNote.hasDirtyData = false
          ∧ s.currentNoteLastEdited + 60000 < s.now then
        (s.showStatusBarMessage StatusText.currentNoteModifiedExternally 3000).updateNoteTextFromDisk
          ((Note.fetchByFileName s.db (fileNameOfPath str)).withDiskText d)
      else
        (MainWindow.openNoteDiffDialog u
            (s.showStatusBarMessage StatusText.currentNoteModifiedExternally 3000)
            ((Note.fetchByFileName s.db (fileNameOfPath str)).withDiskText d)).1.applyDiffResult
          ((Note.fetchByFileName s.db (fileNameOfPath str)).withDiskText d)
          (u.diffChoice s.noteTextEdit d) := by
  have hd : s.disk.read s.notesPath (Note.fetchByFileName s.db (fileNameOfPath str)).fileName
      = some d := by rw [hcur]; exact hdisk
  have ho := openNoteDiffDialog_eq u
    (s.showStatusBarMessage StatusText.currentNoteModifiedExternally 3000)
    ((Note.fetchByFileName s.db (fileNameOfPath str)).withDiskText d) d
    (by simpa [Note.withDiskText] using hd)
  unfold MainWindow.notesWereModified
  simp only [hcur, if_true]
  rw [Note.fileExists_of_read _ _ _ _ hd, Note.updateNoteTextFromDisk_of_read _ _ _ _ hd]
  have ht : ((Note.fetchByFileName s.db (fileNameOfPath str)).withDiskText d).noteText = d := rfl
  simp only [if_true, ht, hne, if_false, showStatusBarMessage_notifyAll,
    showStatusBarMessage_currentNote, showStatusBarMessage_lastEdited, showStatusBarMessage_now]
  by_cases hq : s.notifyAllExternalModifications = false ∧ s.currentNote.hasDirtyData = false
      ∧ s.currentNoteLastEdited + 60000 < s.now
  · rw [if_pos hq, if_pos]
    obtain ⟨h1, h2, h3⟩ := hq
    simp [h1, h2, h3]
  · rw [if_neg hq, if_neg (by simpa using hq), ho]
    simp

/-! ### Spurious notifications -/

/-- C1: when the changed file is the current note, the file exists and its
text on disk equals the text of the editor, `notesWereModified` returns the
state it was given: no dialog entry is added to the trace, and current note,
editor text, dirty flag, last-edited time, note index and disk are as before. -/
theorem notesWereModified_same_text (u : User) (s : MainWindow) (str : String)
    (hcur : (Note.fetchByFileName s.db (fileNameOfPath str)).fileName = s.currentNote.fileName)
    (hdisk : s.disk.read s.notesPath s.currentNote.fileName = some s.noteTextEdit) :
    MainWindow.notesWereModified u s str = s := by
  have hd : s.disk.read s.notesPath (Note.fetchByFileName s.db (fileNameOfPath str)).fileName
      = some s.noteTextEdit := by rw [hcur]; exact hdisk
  unfold MainWindow.notesWereModified
  simp only [hcur, if_true]
  rw [Note.fileExists_of_read _ _ _ _ hd, Note.updateNoteTextFromDisk_of_read _ _ _ _ hd]
  simp [Note.withDiskText]

/-- C1, at a concrete state: the file of the open note "A" holds the editor text "hello". -/
theorem notesWereModified_same_text_witness :
    MainWindow.notesWereModified userCancel scenarioSpurious "/notes/A.md" = scenarioSpurious :=
  notesWereModified_same_text userCancel scenarioSpurious "/notes/A.md" (by decide) (by decide)

/-! ### Quiet reload -/

/-- The window method `updateNoteTextFromDisk` on a note that the index
resolves by file name: editor and current note get the disk text, the row
of the note is replaced, disk and trace stay. -/
theorem updateNoteTextFromDisk_resolved (s : MainWindow) (n m : Note) (d : String)
    (hd : s.disk.read s.notesPath n.fileName = some d)
    (hf : findByFileName n.fileName s.db.notes = some m) (hid : m.id = n.id) (hpos : 0 < n.id) :
    (s.updateNoteTextFromDisk n).noteTextEdit = d
      ∧ (s.updateNoteTextFromDisk n).currentNote = n.withDiskText d
      ∧ (s.updateNoteTextFromDisk n).disk = s.disk
      ∧ (s.updateNoteTextFromDisk n).log = s.log
      ∧ (s.updateNoteTextFromDisk n).db
          = { s.db with notes := updateRow (n.withDiskText d) s.db.notes } := by
  have hr := refetch_store_resolved s.db (n.withDiskText d) m hf hid hpos
  unfold MainWindow.updateNoteTextFromDisk MainWindow.updateEncryptNoteButtons
    MainWindow.setNoteTextFromNote
  rw [Note.updateNoteTextFromDisk_of_read _ _ _ _ hd]
  have hpos1 : 0 < (n.withDiskText d).id := hpos
  refine ⟨?_, ?_, ?_, ?_, ?_⟩
  · show ((n.withDiskText d).store s.db).2.noteText = d
    rw [hr.2]; rfl
  · exact hr.1
  · rfl
  · rfl
  · show ((n.withDiskText d).store s.db).1 = _
    simp [Note.store, hpos1]

/-- C2 as stated fails at the boundary: the current note is not dirty, not
every modification is notified, and the last edit is exactly 60 seconds ago
(40000 ms + 60000 ms = 100000 ms); the diff prompt is opened all the same
and the editor keeps its text. -/
theorem quiet_reload_fails_at_sixty_seconds :
    scenarioBoundary.notifyAllExternalModifications = false
      ∧ scenarioBoundary.currentNote.hasDirtyData = false
      ∧ scenarioBoundary.currentNoteLastEdited + 60000 ≤ scenarioBoundary.now
      ∧ scenarioBoundary.disk.read "/notes" "A.md" = some "hello world"
      ∧ (MainWindow.notesWereModified userCancel scenarioBoundary "/notes/A.md").log
          = [Event.diffDialog "hello" "hello world" false]
      ∧ (MainWindow.notesWereModified userCancel scenarioBoundary "/notes/A.md").noteTextEdit
          = "hello" := by
  decide

/-- C2, amended: with notifyAllExternalModifications off, a current note
that is not dirty and a last edit more than 60 seconds ago (lastEdited +
60 s < now), a change of the file of the current note to a text that
differs from the editor text makes the editor text and the text of the
current note the disk text, and the trace gets no entry: no prompt. -/
theorem notesWereModified_quiet_reload (u : User) (s : MainWindow) (str d : String)
    (hcur : (Note.fetchByFileName s.db (fileNameOfPath str)).fileName = s.currentNote.fileName)
    (hres : 0 < (Note.fetchByFileName s.db (fileNameOfPath str)).id)
    (hdisk : s.disk.read s.notesPath s.currentNote.fileName = some d)
    (hne : s.noteTextEdit ≠ d)
    (hnotify : s.notifyAllExternalModifications = false)
    (hclean : s.currentNote.hasDirtyData = false)
    (hold : s.currentNoteLastEdited + 60000 < s.now) :
    (MainWindow.notesWereModified u s str).noteTextEdit = d
      ∧ (MainWindow.notesWereModified u s str).currentNote.noteText = d
      ∧ (MainWindow.notesWereModified u s str).log = s.log := by
  have hfound := fetchByFileName_found s.db (fileNameOfPath str) hres
  rw [notesWereModified_differ u s str d hcur hdisk hne, if_pos ⟨hnotify, hclean, hold⟩]
  have hd : (s.showStatusBarMessage StatusText.currentNoteModifiedExternally 3000).disk.read
      (s.showStatusBarMessage StatusText.currentNoteModifiedExternally 3000).notesPath
      ((Note.fetchByFileName s.db (fileNameOfPath str)).withDiskText d).fileName = some d := by
    simpa [Note.withDiskText, hcur] using hdisk
  have hf : findByFileName ((Note.fetchByFileName s.db (fileNameOfPath str)).withDiskText d).fileName
      (s.showStatusBarMessage StatusText.currentNoteModifiedExternally 3000).db.notes
      = some (Note.fetchByFileName s.db (fileNameOfPath str)) := by
    simpa [Note.withDiskText, hfound.2] using hfound.1
  obtain ⟨h1, h2, _, h4, _⟩ := updateNoteTextFromDisk_resolved _ _ _ d hd hf rfl hres
  refine ⟨h1, ?_, ?_⟩
  · rw [h2]; simp [Note.withDiskText]
  · rw [h4]; simp

/-- C2, amended, at a concrete state: last edit 60.001 seconds ago. -/
theorem notesWereModified_quiet_reload_witness :
    (MainWindow.notesWereModified userCancel scenarioQuiet "/notes/A.md").noteTextEdit
        = "hello world"
      ∧ (MainWindow.notesWereModified userCancel scenarioQuiet "/notes/A.md").currentNote.noteText
        = "hello world"
      ∧ (MainWindow.notesWereModified userCancel scenarioQuiet "/notes/A.md").log
        = scenarioQuiet.log :=
  notesWereModified_quiet_reload userCancel scenarioQuiet "/notes/A.md" "hello world"
    (by decide) (by decide) (by decide) (by decide) (by decide) (by decide) (by decide)

/-! ### The conflict path -/

theorem Note.store_fileName (n : Note) (db : NoteIndex) : (n.store db).2.fileName = n.fileName := by
  unfold Note.store
  split <;> rfl

/-- The state in which the diff dialog returns: the state before, with the
status bar message, the dialog entry in the trace and no visible dialog. -/
theorem openNoteDiffDialog_frame (u : User) (s : MainWindow) (n : Note) :
    (MainWindow.openNoteDiffDialog u s n).1.currentNote = s.currentNote
      ∧ (MainWindow.openNoteDiffDialog u s n).1.noteTextEdit = s.noteTextEdit
      ∧ (MainWindow.openNoteDiffDialog u s n).1.disk = s.disk
      ∧ (MainWindow.openNoteDiffDialog u s n).1.db = s.db
      ∧ (MainWindow.openNoteDiffDialog u s n).1.notesPath = s.notesPath
      ∧ (MainWindow.openNoteDiffDialog u s n).1.currentNoteLastEdited = s.currentNoteLastEdited
      ∧ (MainWindow.openNoteDiffDialog u s n).1.watcherBlocked = s.watcherBlocked
      ∧ (MainWindow.openNoteDiffDialog u s n).1.now = s.now := by
  unfold MainWindow.openNoteDiffDialog
  by_cases hv : s.noteDiffDialogVisible = true <;> simp [hv]

theorem applyDiffResult_reload (s : MainWindow) (n : Note) :
    s.applyDiffResult n NoteDiffDialog.Reload = s.updateNoteTextFromDisk n := by
  unfold MainWindow.applyDiffResult
  rw [if_neg (by decide), if_pos rfl]

theorem applyDiffResult_other (s : MainWindow) (n : Note) (r : Int)
    (h1 : r ≠ NoteDiffDialog.Overwrite) (h2 : r ≠ NoteDiffDialog.Reload) :
    s.applyDiffResult n r = s := by
  unfold MainWindow.applyDiffResult
  rw [if_neg h1, if_neg h2]

theorem updateNoteTextFromDisk_log (s : MainWindow) (n : Note) :
    (s.updateNoteTextFromDisk n).log = s.log := rfl

theorem updateNoteTextFromDisk_watcherBlocked (s : MainWindow) (n : Note) :
    (s.updateNoteTextFromDisk n).watcherBlocked = s.watcherBlocked := rfl

/-- The trace of the switch after the diff dialog: Overwrite adds the write
of the file of the current note and the wait of 100 ms, both with the
watcher blocked; every other result adds nothing. -/
theorem applyDiffResult_log (s : MainWindow) (n : Note) (r : Int) :
    ∃ written : Bool, (s.applyDiffResult n r).log
      = s.log ++ (if r = NoteDiffDialog.Overwrite then
          [Event.fileWrite s.currentNote.fileName written true, Event.wait 100 true] else []) := by
  by_cases ho : r = NoteDiffDialog.Overwrite
  · refine ⟨((s.currentNote.store s.db).2.storeNoteTextFileToDisk s.notesPath s.disk
      (s.currentNote.store s.db).1 s.now).2.2.2, ?_⟩
    unfold MainWindow.applyDiffResult
    simp [ho, MainWindow.waitMsecs, MainWindow.saveNote, Note.store_fileName]
  · refine ⟨true, ?_⟩
    by_cases hr : r = NoteDiffDialog.Reload
    · subst hr
      rw [applyDiffResult_reload, updateNoteTextFromDisk_log, if_neg (by decide)]
      simp
    · rw [applyDiffResult_other s n r ho hr, if_neg ho]
      simp

/-- The switch after the diff dialog leaves the watcher as it found it. -/
theorem applyDiffResult_watcherBlocked (s : MainWindow) (n : Note) (r : Int) :
    (s.applyDiffResult n r).watcherBlocked = s.watcherBlocked := by
  by_cases ho : r = NoteDiffDialog.Overwrite
  · unfold MainWindow.applyDiffResult
    simp [ho]
  · by_cases hr : r = NoteDiffDialog.Reload
    · subst hr
      rw [applyDiffResult_reload, updateNoteTextFromDisk_watcherBlocked]
    · rw [applyDiffResult_other s n r ho hr]

/-- The path of `notesWereModified` through the diff dialog. -/
theorem notesWereModified_conflict (u : User) (s : MainWindow) (str d : String)
    (hcur : (Note.fetchByFileName s.db (fileNameOfPath str)).fileName = s.currentNote.fileName)
    (hdisk : s.disk.read s.notesPath s.currentNote.fileName = some d)
    (hne : s.noteTextEdit ≠ d) (hconf : s.promptNeeded) :
    MainWindow.notesWereModified u s str
      = (MainWindow.openNoteDiffDialog u
            (s.showStatusBarMessage StatusText.currentNoteModifiedExternally 3000)
            ((Note.fetchByFileName s.db (fileNameOfPath str)).withDiskText d)).1.applyDiffResult
          ((Note.fetchByFileName s.db (fileNameOfPath str)).withDiskText d)
          (u.diffChoice s.noteTextEdit d) := by
  rw [notesWereModified_differ u s str d hcur hdisk hne, if_neg]
  rintro ⟨h1, h2, h3⟩
  rcases hconf with h | h | h
  · rw [h1] at h; exact Bool.noConfusion h
  · rw [h2] at h; exact Bool.noConfusion h
  · omega

/-- The trace entry of the diff dialog in `notesWereModified`. -/
theorem notesWereModified_dialog_log (u : User) (s : MainWindow) (str d : String)
    (hcur : (Note.fetchByFileName s.db (fileNameOfPath str)).fileName = s.currentNote.fileName)
    (hdisk : s.disk.read s.notesPath s.currentNote.fileName = some d) :
    (MainWindow.openNoteDiffDialog u
        (s.showStatusBarMessage StatusText.currentNoteModifiedExternally 3000)
        ((Note.fetchByFileName s.db (fileNameOfPath str)).withDiskText d)).1.log
      = s.log ++ [Event.diffDialog s.noteTextEdit d s.watcherBlocked] := by
  rw [openNoteDiffDialog_eq u _ _ d (by simpa [Note.withDiskText, hcur] using hdisk)]
  simp

/-- C3: when the changed file is the current note, its disk text differs
from the editor text and the change is not reloaded quietly (every
modification is notified, or the note is dirty, or the last edit is not
more than 60 seconds ago), `notesWereModified` is the switch over the
answer applied to the state in which the prompt returns; in that state
current note, editor text, disk and index are as before the event; the
prompt was opened for the diff of editor text and disk text, in that
order; and the trace of the whole run holds that one prompt and no other. -/
theorem notesWereModified_prompts_once (u : User) (s : MainWindow) (str d : String)
    (hcur : (Note.fetchByFileName s.db (fileNameOfPath str)).fileName = s.currentNote.fileName)
    (hdisk : s.disk.read s.notesPath s.currentNote.fileName = some d)
    (hne : s.noteTextEdit ≠ d) (hconf : s.promptNeeded) :
    ∃ atPrompt : MainWindow,
      atPrompt = (MainWindow.openNoteDiffDialog u
          (s.showStatusBarMessage StatusText.currentNoteModifiedExternally 3000)
          ((Note.fetchByFileName s.db (fileNameOfPath str)).withDiskText d)).1
      ∧ MainWindow.notesWereModified u s str
          = atPrompt.applyDiffResult
              ((Note.fetchByFileName s.db (fileNameOfPath str)).withDiskText d)
              (u.diffChoice s.noteTextEdit d)
      ∧ atPrompt.log = s.log ++ [Event.diffDialog s.noteTextEdit d s.watcherBlocked]
      ∧ atPrompt.currentNote = s.currentNote
      ∧ atPrompt.noteTextEdit = s.noteTextEdit
      ∧ atPrompt.disk = s.disk
      ∧ atPrompt.db = s.db
      ∧ (MainWindow.notesWereModified u s str).log.filter Event.isDialog
          = s.log.filter Event.isDialog ++ [Event.diffDialog s.noteTextEdit d s.watcherBlocked] := by
  refine ⟨_, rfl, notesWereModified_conflict u s str d hcur hdisk hne hconf,
    notesWereModified_dialog_log u s str d hcur hdisk, ?_, ?_, ?_, ?_, ?_⟩
  · simp [(openNoteDiffDialog_frame u _ _).1]
  · simp [(openNoteDiffDialog_frame u _ _).2.1]
  · simp [(openNoteDiffDialog_frame u _ _).2.2.1]
  · simp [(openNoteDiffDialog_frame u _ _).2.2.2.1]
  · rw [notesWereModified_conflict u s str d hcur hdisk hne hconf]
    obtain ⟨w, hw⟩ := applyDiffResult_log (MainWindow.openNoteDiffDialog u
      (s.showStatusBarMessage StatusText.currentNoteModifiedExternally 3000)
      ((Note.fetchByFileName s.db (fileNameOfPath str)).withDiskText d)).1
      ((Note.fetchByFileName s.db (fileNameOfPath str)).withDiskText d)
      (u.diffChoice s.noteTextEdit d)
    rw [hw, notesWereModified_dialog_log u s str d hcur hdisk]
    by_cases ho : u.diffChoice s.noteTextEdit d = NoteDiffDialog.Overwrite
    · simp [ho, Event.isDialog]
    · simp [ho, Event.isDialog]

/-- C3, at a concrete state: note "A" with editor text "hello", disk text
"hello world", every modification notified, the user picks Overwrite. -/
theorem notesWereModified_prompts_once_witness :
    ∃ atPrompt : MainWindow,
      atPrompt = (MainWindow.openNoteDiffDialog userOverwrite
          (scenarioA.showStatusBarMessage StatusText.currentNoteModifiedExternally 3000)
          ((Note.fetchByFileName scenarioA.db (fileNameOfPath "/notes/A.md")).withDiskText
            "hello world")).1
      ∧ MainWindow.notesWereModified userOverwrite scenarioA "/notes/A.md"
          = atPrompt.applyDiffResult
              ((Note.fetchByFileName scenarioA.db (fileNameOfPath "/notes/A.md")).withDiskText
                "hello world")
              (userOverwrite.diffChoice scenarioA.noteTextEdit "hello world")
      ∧ atPrompt.log = scenarioA.log
          ++ [Event.diffDialog scenarioA.noteTextEdit "hello world" scenarioA.watcherBlocked]
      ∧ atPrompt.currentNote = scenarioA.currentNote
      ∧ atPrompt.noteTextEdit = scenarioA.noteTextEdit
      ∧ atPrompt.disk = scenarioA.disk
      ∧ atPrompt.db = scenarioA.db
      ∧ (MainWindow.notesWereModified userOverwrite scenarioA "/notes/A.md").log.filter
            Event.isDialog
          = scenarioA.log.filter Event.isDialog
            ++ [Event.diffDialog scenarioA.noteTextEdit "hello world" scenarioA.watcherBlocked] :=
  notesWereModified_prompts_once userOverwrite scenarioA "/notes/A.md" "hello world"
    (by decide) (by decide) (by decide) (Or.inl (by decide))

/-! ### Overwrite -/

/-- C4, the failing input evaluated: in the state reached by typing "hello!"
and typing the text back to "hello", the editor holds "hello" while the
record of the current note holds "hello!" and is dirty; the prompt shows the
diff of "hello" and "hello world"; after Overwrite the file holds "hello!",
which is not the editor text. -/
theorem overwrite_writes_record_text :
    scenarioTypedBack.noteTextEdit = "hello"
      ∧ scenarioTypedBack.currentNote.noteText = "hello!"
      ∧ scenarioTypedBack.currentNote.hasDirtyData = true
      ∧ (MainWindow.notesWereModified userOverwrite scenarioTypedBack "/notes/A.md").log
          = [Event.diffDialog "hello" "hello world" false, Event.fileWrite "A.md" true true,
             Event.wait 100 true]
      ∧ (MainWindow.notesWereModified userOverwrite scenarioTypedBack "/notes/A.md").disk.read
          "/notes" "A.md" = some "hello!"
      ∧ (MainWindow.notesWereModified userOverwrite scenarioTypedBack "/notes/A.md").noteTextEdit
          = "hello" := by
  decide

/-! ### Reload -/

/-- C5: when the prompt for a changed current note returns Reload, the
editor text and the text of the current note are the disk text, the disk
is as before, and the current note is not dirty. -/
theorem notesWereModified_reload (u : User) (s : MainWindow) (str d : String)
    (hcur : (Note.fetchByFileName s.db (fileNameOfPath str)).fileName = s.currentNote.fileName)
    (hres : 0 < (Note.fetchByFileName s.db (fileNameOfPath str)).id)
    (hdisk : s.disk.read s.notesPath s.currentNote.fileName = some d)
    (hne : s.noteTextEdit ≠ d) (hconf : s.promptNeeded)
    (hchoice : u.diffChoice s.noteTextEdit d = NoteDiffDialog.Reload) :
    (MainWindow.notesWereModified u s str).noteTextEdit = d
      ∧ (MainWindow.notesWereModified u s str).currentNote.noteText = d
      ∧ (MainWindow.notesWereModified u s str).disk = s.disk
      ∧ (MainWindow.notesWereModified u s str).currentNote.hasDirtyData = false := by
  have hfound := fetchByFileName_found s.db (fileNameOfPath str) hres
  have hfr := openNoteDiffDialog_frame u
    (s.showStatusBarMessage StatusText.currentNoteModifiedExternally 3000)
    ((Note.fetchByFileName s.db (fileNameOfPath str)).withDiskText d)
  rw [notesWereModified_conflict u s str d hcur hdisk hne hconf, hchoice, applyDiffResult_reload]
  have hd : (MainWindow.openNoteDiffDialog u
      (s.showStatusBarMessage StatusText.currentNoteModifiedExternally 3000)
      ((Note.fetchByFileName s.db (fileNameOfPath str)).withDiskText d)).1.disk.read
      (MainWindow.openNoteDiffDialog u
      (s.showStatusBarMessage StatusText.currentNoteModifiedExternally 3000)
      ((Note.fetchByFileName s.db (fileNameOfPath str)).withDiskText d)).1.notesPath
      ((Note.fetchByFileName s.db (fileNameOfPath str)).withDiskText d).fileName = some d := by
    rw [hfr.2.2.1, hfr.2.2.2.2.1]
    simpa [Note.withDiskText, hcur] using hdisk
  have hf : findByFileName ((Note.fetchByFileName s.db (fileNameOfPath str)).withDiskText d).fileName
      (MainWindow.openNoteDiffDialog u
      (s.showStatusBarMessage StatusText.currentNoteModifiedExternally 3000)
      ((Note.fetchByFileName s.db (fileNameOfPath str)).withDiskText d)).1.db.notes
      = some (Note.fetchByFileName s.db (fileNameOfPath str)) := by
    rw [hfr.2.2.2.1]
    simpa [Note.withDiskText, hfound.2] using hfound.1
  obtain ⟨h1, h2, h3, _, _⟩ := updateNoteTextFromDisk_resolved _ _ _ d hd hf rfl hres
  refine ⟨h1, ?_, ?_, ?_⟩
  · rw [h2]; rfl
  · rw [h3, hfr.2.2.1]; simp
  · rw [h2]; rfl

/-- C5, the end-to-end scenario: note "A" open with text "hello", the file
changed to "hello world", every modification notified, the user picks
Reload: the text in memory is "hello world" and the note is not dirty. -/
theorem notesWereModified_reload_witness :
    (MainWindow.notesWereModified userReload scenarioA "/notes/A.md").noteTextEdit = "hello world"
      ∧ (MainWindow.notesWereModified userReload scenarioA "/notes/A.md").currentNote.noteText
          = "hello world"
      ∧ (MainWindow.notesWereModified userReload scenarioA "/notes/A.md").disk = scenarioA.disk
      ∧ (MainWindow.notesWereModified userReload scenarioA "/notes/A.md").currentNote.hasDirtyData
          = false :=
  notesWereModified_reload userReload scenarioA "/notes/A.md" "hello world"
    (by decide) (by decide) (by decide) (by decide) (Or.inl (by decide)) (by decide)

/-! ### Cancel, Ignore, dismissed -/

/-- C6: when the prompt for a changed current note returns a result other
than Overwrite and Reload (Cancel, Ignore, or the dialog was dismissed),
the current note with its dirty flag, the editor text, the last-edited
time, the note index and the disk are as before the event. -/
theorem notesWereModified_no_action (u : User) (s : MainWindow) (str d : String)
    (hcur : (Note.fetchByFileName s.db (fileNameOfPath str)).fileName = s.currentNote.fileName)
    (hdisk : s.disk.read s.notesPath s.currentNote.fileName = some d)
    (hne : s.noteTextEdit ≠ d) (hconf : s.promptNeeded)
    (h1 : u.diffChoice s.noteTextEdit d ≠ NoteDiffDialog.Overwrite)
    (h2 : u.diffChoice s.noteTextEdit d ≠ NoteDiffDialog.Reload) :
    (MainWindow.notesWereModified u s str).currentNote = s.currentNote
      ∧ (MainWindow.notesWereModified u s str).noteTextEdit = s.noteTextEdit
      ∧ (MainWindow.notesWereModified u s str).currentNote.hasDirtyData
          = s.currentNote.hasDirtyData
      ∧ (MainWindow.notesWereModified u s str).currentNoteLastEdited = s.currentNoteLastEdited
      ∧ (MainWindow.notesWereModified u s str).db = s.db
      ∧ (MainWindow.notesWereModified u s str).disk = s.disk := by
  have hfr := openNoteDiffDialog_frame u
    (s.showStatusBarMessage StatusText.currentNoteModifiedExternally 3000)
    ((Note.fetchByFileName s.db (fileNameOfPath str)).withDiskText d)
  rw [notesWereModified_conflict u s str d hcur hdisk hne hconf, applyDiffResult_other _ _ _ h1 h2]
  refine ⟨?_, ?_, ?_, ?_, ?_, ?_⟩
  · rw [hfr.1]; simp
  · rw [hfr.2.1]; simp
  · rw [hfr.1]; simp
  · rw [hfr.2.2.2.2.2.1]; simp
  · rw [hfr.2.2.2.1]; simp
  · rw [hfr.2.2.1]; simp

/-- C6, at a concrete state: the user cancels the prompt for note "A". -/
theorem notesWereModified_no_action_witness :
    (MainWindow.notesWereModified userCancel scenarioA "/notes/A.md").currentNote
        = scenarioA.currentNote
      ∧ (MainWindow.notesWereModified userCancel scenarioA "/notes/A.md").noteTextEdit
        = scenarioA.noteTextEdit
      ∧ (MainWindow.notesWereModified userCancel scenarioA "/notes/A.md").currentNote.hasDirtyData
        = scenarioA.currentNote.hasDirtyData
      ∧ (MainWindow.notesWereModified userCancel scenarioA "/notes/A.md").currentNoteLastEdited
        = scenarioA.currentNoteLastEdited
      ∧ (MainWindow.notesWereModified userCancel scenarioA "/notes/A.md").db = scenarioA.db
      ∧ (MainWindow.notesWereModified userCancel scenarioA "/notes/A.md").disk = scenarioA.disk :=
  notesWereModified_no_action userCancel scenarioA "/notes/A.md" "hello world"
    (by decide) (by decide) (by decide) (Or.inl (by decide)) (by decide) (by decide)

/-! ### Suspension of the watcher -/

/-- C10 as stated fails: in the end-to-end scenario the watcher is not
blocked when the event arrives, and the diff prompt is opened with the
watcher not blocked. -/
theorem prompt_opened_with_watcher_unblocked :
    scenarioA.watcherBlocked = false
      ∧ (MainWindow.notesWereModified userReload scenarioA "/notes/A.md").log
          = [Event.diffDialog "hello" "hello world" false] := by
  decide

/-- C10, amended: in the conflict path of `notesWereModified` the diff
prompt is opened with the watcher in the state it had when the event
arrived; only the Overwrite action runs with the watcher blocked: its disk
write and the wait of 100 ms are the entries that follow the prompt in the
trace, both blocked; Reload and the other answers add no entry; afterwards
the watcher is in the state it had when the event arrived. -/
theorem notesWereModified_blocks_overwrite_only (u : User) (s : MainWindow) (str d : String)
    (hcur : (Note.fetchByFileName s.db (fileNameOfPath str)).fileName = s.currentNote.fileName)
    (hdisk : s.disk.read s.notesPath s.currentNote.fileName = some d)
    (hne : s.noteTextEdit ≠ d) (hconf : s.promptNeeded) :
    (∃ written : Bool, (MainWindow.notesWereModified u s str).log
        = s.log ++ Event.diffDialog s.noteTextEdit d s.watcherBlocked ::
            (if u.diffChoice s.noteTextEdit d = NoteDiffDialog.Overwrite then
              [Event.fileWrite s.currentNote.fileName written true, Event.wait 100 true]
             else []))
      ∧ (MainWindow.notesWereModified u s str).watcherBlocked = s.watcherBlocked := by
  have hfr := openNoteDiffDialog_frame u
    (s.showStatusBarMessage StatusText.currentNoteModifiedExternally 3000)
    ((Note.fetchByFileName s.db (fileNameOfPath str)).withDiskText d)
  rw [notesWereModified_conflict u s str d hcur hdisk hne hconf]
  constructor
  · obtain ⟨w, hw⟩ := applyDiffResult_log (MainWindow.openNoteDiffDialog u
      (s.showStatusBarMessage StatusText.currentNoteModifiedExternally 3000)
      ((Note.fetchByFileName s.db (fileNameOfPath str)).withDiskText d)).1
      ((Note.fetchByFileName s.db (fileNameOfPath str)).withDiskText d)
      (u.diffChoice s.noteTextEdit d)
    refine ⟨w, ?_⟩
    rw [hw, notesWereModified_dialog_log u s str d hcur hdisk, hfr.1]
    simp
  · rw [applyDiffResult_watcherBlocked, hfr.2.2.2.2.2.2.1]
    simp

/-- C10, amended, at a concrete state: the user picks Overwrite for note "A". -/
theorem notesWereModified_blocks_overwrite_only_witness :
    (∃ written : Bool, (MainWindow.notesWereModified userOverwrite scenarioA "/notes/A.md").log
        = scenarioA.log
          ++ Event.diffDialog scenarioA.noteTextEdit "hello world" scenarioA.watcherBlocked ::
            (if userOverwrite.diffChoice scenarioA.noteTextEdit "hello world"
                = NoteDiffDialog.Overwrite then
              [Event.fileWrite scenarioA.currentNote.fileName written true, Event.wait 100 true]
             else []))
      ∧ (MainWindow.notesWereModified userOverwrite scenarioA "/notes/A.md").watcherBlocked
          = scenarioA.watcherBlocked :=
  notesWereModified_blocks_overwrite_only userOverwrite scenarioA "/notes/A.md" "hello world"
    (by decide) (by decide) (by decide) (Or.inl (by decide))

/-! ### Rebuild of the index and re-selection -/

theorem makeFirst_shape (s : MainWindow) :
    ∃ l r, s.makeCurrentNoteFirstInNoteList = { s with notesListWidget := l, currentRow := r } := by
  unfold MainWindow.makeCurrentNoteFirstInNoteList
  split
  · split
    · exact ⟨_, _, rfl⟩
    · exact ⟨_, _, rfl⟩
  · exact ⟨_, _, rfl⟩

theorem load_shape (s : MainWindow) :
    ∃ l v wd wf, s.loadNoteDirectoryList =
      { s with notesListWidget := l, currentRow := -1,
               noteTextEdit := if s.db.notes = [] then "" else s.noteTextEdit, noteTextView := v,
               watcherDirectories := wd, watcherFiles := wf } := by
  have hempty : (Note.fetchAll s.db).isEmpty = decide (s.db.notes = []) := by
    unfold Note.fetchAll
    cases h : s.db.notes with
    | nil => simp
    | cons a l =>
      have := List.length_insertionSort (fun a b : Note => b.fileLastModified ≤ a.fileLastModified) (a :: l)
      cases h2 : List.insertionSort (fun a b : Note => b.fileLastModified ≤ a.fileLastModified) (a :: l) with
      | nil => rw [h2] at this; simp at this
      | cons _ _ => simp
  unfold MainWindow.loadNoteDirectoryList
  simp only [hempty]
  by_cases h1 : s.db.notes = [] <;> by_cases h2 : s.sortAlphabetically = true <;>
    simp only [h1, h2, decide_True, decide_False, if_true, if_false] <;> exact ⟨_, _, _, _, rfl⟩

theorem makeFirst_eq (s : MainWindow) :
    s.makeCurrentNoteFirstInNoteList
      = { s with notesListWidget := s.makeCurrentNoteFirstInNoteList.notesListWidget,
                 currentRow := s.makeCurrentNoteFirstInNoteList.currentRow } := by
  obtain ⟨l, r, h⟩ := makeFirst_shape s
  rw [h]

theorem load_eq (s : MainWindow) :
    s.loadNoteDirectoryList =
      { s with notesListWidget := s.loadNoteDirectoryList.notesListWidget, currentRow := -1,
               noteTextEdit := if s.db.notes = [] then "" else s.noteTextEdit,
               noteTextView := s.loadNoteDirectoryList.noteTextView,
               watcherDirectories := s.loadNoteDirectoryList.watcherDirectories,
               watcherFiles := s.loadNoteDirectoryList.watcherFiles } := by
  obtain ⟨l, v, wd, wf, h⟩ := load_shape s
  rw [h]

theorem refetch_cases (n : Note) (db : NoteIndex) :
    (n.refetch db = n ∧ findByFileName n.fileName db.notes = none)
      ∨ findByFileName n.fileName db.notes = some (n.refetch db) := by
  unfold Note.refetch
  cases h : findByFileName n.fileName db.notes with
  | none => left; simp
  | some m => right; simp

theorem storeUpdatedNotesToDisk_shape (s : MainWindow) :
    ∃ (cur : Note) (lg : List Event) (nv : Bool) (sb : Option (StatusText × Nat)) (now1 : Nat)
      (l : List NoteListItem) (r : Int) (v : String) (wd wf : List String),
      s.storeUpdatedNotesToDisk =
        { s with disk := (Note.storeDirtyNotesToDisk s.notesPath s.disk s.db s.now).1,
                 db := (Note.storeDirtyNotesToDisk s.notesPath s.disk s.db s.now).2.1,
                 log := lg, currentNote := cur, noteViewNeedsUpdate := nv,
                 statusBarMessage := sb, now := now1, notesListWidget := l, currentRow := r,
                 noteTextView := v, watcherDirectories := wd, watcherFiles := wf }
      ∧ lg.filter Event.isDialog = s.log.filter Event.isDialog
      ∧ (cur = s.currentNote ∨ findByFileName s.currentNote.fileName
            (Note.storeDirtyNotesToDisk s.notesPath s.disk s.db s.now).2.1.notes = some cur) := by
  have hfilter : ∀ l : List (String × Bool),
      (l.map (fun a => Event.fileWrite a.1 a.2 true)).filter Event.isDialog = [] := by
    intro l
    induction l with
    | nil => rfl
    | cons a l ih => simpa [Event.isDialog] using ih
  unfold MainWindow.storeUpdatedNotesToDisk
  by_cases hc : 0 < writtenCount (Note.storeDirtyNotesToDisk s.notesPath s.disk s.db s.now).2.2
  · simp only [hc, if_true]
    rw [showStatusBarMessage_eq]
    simp only [MainWindow.waitMsecs]
    rcases refetch_cases s.currentNote (Note.storeDirtyNotesToDisk s.notesPath s.disk s.db s.now).2.1
      with ⟨h1, _⟩ | h1
    · rw [h1]
      simp only [if_true]
      split
      · rw [makeFirst_eq]
        exact ⟨_, _, _, _, _, _, _, _, _, _, rfl, by simp [hfilter, Event.isDialog], Or.inl rfl⟩
      · exact ⟨_, _, _, _, _, _, _, _, _, _, rfl, by simp [hfilter, Event.isDialog], Or.inl rfl⟩
    · have hne : (Note.storeDirtyNotesToDisk s.notesPath s.disk s.db s.now).2.1.notes ≠ [] := by
        intro h0
        rw [h0] at h1
        simp [findByFileName] at h1
      split
      · split
        · rw [makeFirst_eq]
          exact ⟨_, _, _, _, _, _, _, _, _, _, rfl, by simp [hfilter, Event.isDialog], Or.inr h1⟩
        · exact ⟨_, _, _, _, _, _, _, _, _, _, rfl, by simp [hfilter, Event.isDialog], Or.inr h1⟩
      · rw [load_eq]
        simp only [hne, if_false]
        exact ⟨_, _, _, _, _, _, _, _, _, _, rfl, by simp [hfilter, Event.isDialog], Or.inr h1⟩
  · simp only [hc, if_false]
    exact ⟨_, _, _, _, _, _, _, _, _, _, rfl, by simp [hfilter], Or.inl rfl⟩

theorem foldl_invariant {α β : Type} (Q : β → Prop) (f : β → α → β) :
    ∀ (l : List α) (b : β), Q b → (∀ b a, a ∈ l → Q b → Q (f b a)) → Q (l.foldl f b) := by
  intro l
  induction l with
  | nil => intro b hb _; exact hb
  | cons a l ih =>
    intro b hb h
    exact ih (f b a) (h b a (List.mem_cons_self _ _) hb)
      (fun b' a' ha' hb' => h b' a' (List.mem_cons_of_mem _ ha') hb')

theorem mem_updateRow {n m : Note} {l : List Note} (h : m ∈ updateRow n l) :
    m ∈ l ∨ (m = n ∧ ∃ x ∈ l, x.id = n.id) := by
  induction l with
  | nil => simp [updateRow] at h
  | cons x xs ih =>
    simp only [updateRow, List.mem_cons] at h
    rcases h with h | h
    · by_cases hx : x.id = n.id
      · right; simp only [hx, if_true] at h
        exact ⟨h, x, List.mem_cons_self _ _, hx⟩
      · left; simp only [hx, if_false] at h
        rw [h]; exact List.mem_cons_self _ _
    · rcases ih h with h1 | ⟨h1, y, hy, hyid⟩
      · left; exact List.mem_cons_of_mem _ h1
      · right; exact ⟨h1, y, List.mem_cons_of_mem _ hy, hyid⟩

theorem store_lastId_le (n : Note) (db : NoteIndex) : db.lastId ≤ (n.store db).1.lastId := by
  unfold Note.store
  split
  · exact Nat.le_refl _
  · exact Nat.le_succ _

theorem store_ids_le (n : Note) (db : NoteIndex) (h : ∀ m ∈ db.notes, m.id ≤ db.lastId) :
    ∀ m ∈ (n.store db).1.notes, m.id ≤ (n.store db).1.lastId := by
  unfold Note.store
  split
  · intro m hm
    rcases mem_updateRow hm with h1 | ⟨h1, x, hx, hxid⟩
    · exact h m h1
    · rw [h1, ← hxid]; exact h x hx
  · intro m hm
    simp only [List.mem_append, List.mem_singleton] at hm
    rcases hm with h1 | h1
    · exact Nat.le_succ_of_le (h m h1)
    · rw [h1]

theorem storeNoteTextFileToDisk_index (n : Note) (notesPath : String) (disk : Disk)
    (db : NoteIndex) (now : Nat) :
    db.lastId ≤ (n.storeNoteTextFileToDisk notesPath disk db now).2.1.lastId
      ∧ ((∀ m ∈ db.notes, m.id ≤ db.lastId) →
          ∀ m ∈ (n.storeNoteTextFileToDisk notesPath disk db now).2.1.notes,
            m.id ≤ (n.storeNoteTextFileToDisk notesPath disk db now).2.1.lastId) := by
  unfold Note.storeNoteTextFileToDisk
  split
  · exact ⟨store_lastId_le _ _, store_ids_le _ _⟩
  · exact ⟨Nat.le_refl _, fun h => h⟩

/-- The flush never lowers the last id, and keeps the ids of the rows at
most the last id. -/
theorem storeDirtyNotesToDisk_index (notesPath : String) (disk : Disk) (db : NoteIndex)
    (now : Nat) :
    db.lastId ≤ (Note.storeDirtyNotesToDisk notesPath disk db now).2.1.lastId
      ∧ ((∀ m ∈ db.notes, m.id ≤ db.lastId) →
          ∀ m ∈ (Note.storeDirtyNotesToDisk notesPath disk db now).2.1.notes,
            m.id ≤ (Note.storeDirtyNotesToDisk notesPath disk db now).2.1.lastId) := by
  unfold Note.storeDirtyNotesToDisk
  refine foldl_invariant
    (fun acc : Disk × NoteIndex × List (String × Bool) =>
      db.lastId ≤ acc.2.1.lastId
        ∧ ((∀ m ∈ db.notes, m.id ≤ db.lastId) → ∀ m ∈ acc.2.1.notes, m.id ≤ acc.2.1.lastId))
    (Note.storeDirtyStep notesPath now) _ (disk, db, []) ⟨Nat.le_refl _, fun h => h⟩ ?_
  intro acc n _ hacc
  have hs := storeNoteTextFileToDisk_index n notesPath acc.1 acc.2.1 now
  exact ⟨Nat.le_trans hacc.1 hs.1, fun h => hs.2 (hacc.2 h)⟩

theorem createFromFile_foldl (files : List DiskFile) :
    ∀ db : NoteIndex, files.foldl Note.createFromFile db
      = { notes := db.notes ++ rebuiltRows db.lastId files,
          lastId := db.lastId + files.length } := by
  induction files with
  | nil => intro db; simp [rebuiltRows]
  | cons f fs ih =>
    intro db
    rw [List.foldl_cons, ih]
    simp [Note.createFromFile, Note.store, rebuiltRows, Nat.add_assoc, Nat.add_comm 1]

theorem rebuiltRows_ids (files : List DiskFile) :
    ∀ (k : Nat) (n : Note), n ∈ rebuiltRows k files → k < n.id := by
  induction files with
  | nil => intro k n h; simp [rebuiltRows] at h
  | cons f fs ih =>
    intro k n h
    simp only [rebuiltRows, List.mem_cons] at h
    rcases h with h | h
    · rw [h]; exact Nat.lt_succ_self _
    · exact Nat.lt_trans (Nat.lt_succ_self _) (ih (k + 1) n h)

theorem findById_some {k : Nat} {l : List Note} {m : Note} (h : findById k l = some m) :
    m ∈ l ∧ m.id = k := by
  induction l with
  | nil => simp [findById] at h
  | cons x xs ih =>
    unfold findById at h
    by_cases hx : x.id = k
    · simp only [hx, if_true, Option.some.injEq] at h
      subst h
      exact ⟨List.mem_cons_self _ _, hx⟩
    · simp only [hx, if_false] at h
      exact ⟨List.mem_cons_of_mem _ (ih h).1, (ih h).2⟩

theorem findById_of_mem {l : List Note} {m : Note} (h : m ∈ l) :
    ∃ x, findById m.id l = some x ∧ x.id = m.id := by
  induction l with
  | nil => simp at h
  | cons x xs ih =>
    by_cases hx : x.id = m.id
    · exact ⟨x, by simp [findById, hx], hx⟩
    · rcases List.mem_cons.mp h with h1 | h1
      · exact absurd (by rw [h1]) hx
      · obtain ⟨y, hy, hyid⟩ := ih h1
        exact ⟨y, by simp [findById, hx, hy], hyid⟩

/-- A lookup by file name in an index in which the rows with the id of `n`
were replaced by `n`: when `n` has that file name and the row that the old
index resolved (if any) has the id of `n`, the lookup gives `n`. -/
theorem findByFileName_updateRow_eq (n : Note) (l : List Note) (row : Note)
    (h : findByFileName n.fileName (updateRow n l) = some row)
    (hid : ∀ m, findByFileName n.fileName l = some m → m.id = n.id) : row = n := by
  induction l with
  | nil => simp [updateRow, findByFileName] at h
  | cons x xs ih =>
    by_cases hx : x.id = n.id
    · simp [updateRow, findByFileName, hx] at h
      exact h.symm
    · by_cases hxf : x.fileName = n.fileName
      · exact absurd (hid x (by simp [findByFileName, hxf])) hx
      · simp only [updateRow, hx, if_false, findByFileName, hxf] at h
        exact ih h (fun m hm => hid m (by simpa [findByFileName, hxf] using hm))

theorem refetch_fileName (n : Note) (db : NoteIndex) : (n.refetch db).fileName = n.fileName := by
  rcases refetch_cases n db with ⟨h, _⟩ | h
  · rw [h]
  · exact (findByFileName_some h).2

theorem createdIndex_notes (db1 : NoteIndex) (files1 : List DiskFile) :
    (createdIndex db1 files1).notes = rebuiltRows db1.lastId files1 := by
  unfold createdIndex
  rw [createFromFile_foldl]
  simp [Note.deleteAll]

theorem createdIndex_lastId (db1 : NoteIndex) (files1 : List DiskFile) :
    (createdIndex db1 files1).lastId = db1.lastId + files1.length := by
  unfold createdIndex
  rw [createFromFile_foldl]
  simp [Note.deleteAll]

theorem createdIndex_ids (db1 : NoteIndex) (files1 : List DiskFile) :
    ∀ n ∈ (createdIndex db1 files1).notes, db1.lastId < n.id := by
  rw [createdIndex_notes]
  exact fun n hn => rebuiltRows_ids _ _ _ hn

theorem store_ids_gt (n : Note) (db : NoteIndex) (k : Nat) (h : ∀ m ∈ db.notes, k < m.id)
    (hk : k ≤ db.lastId) : ∀ m ∈ (n.store db).1.notes, k < m.id := by
  unfold Note.store
  split
  · intro m hm
    rcases mem_updateRow hm with h1 | ⟨h1, x, hx, hxid⟩
    · exact h m h1
    · rw [h1, ← hxid]; exact h x hx
  · intro m hm
    simp only [List.mem_append, List.mem_singleton] at hm
    rcases hm with h1 | h1
    · exact h m h1
    · rw [h1]; exact Nat.lt_succ_of_le hk

/-- When the index into which `n` was stored resolves the file name of `n`,
it resolves it to the stored note, provided the row that the index resolved
before (if any) had the id of `n`. -/
theorem store_resolved (n : Note) (db : NoteIndex) (row : Note)
    (h : findByFileName n.fileName (n.store db).1.notes = some row)
    (hid : ∀ m, findByFileName n.fileName db.notes = some m → m.id = n.id)
    (hpos : ∀ m ∈ db.notes, 0 < m.id) : (n.store db).2 = row := by
  unfold Note.store at h ⊢
  by_cases hn : 0 < n.id
  · simp only [if_pos hn] at h ⊢
    exact (findByFileName_updateRow_eq n db.notes row h hid).symm
  · simp only [if_neg hn] at h ⊢
    cases hf : findByFileName n.fileName db.notes with
    | some m =>
      have h1 := hid m hf
      have h2 := hpos m (findByFileName_some hf).1
      omega
    | none =>
      rw [findByFileName_append, hf] at h
      simpa [findByFileName] using h

/-- Every row of the rebuilt index has an id that was handed out after the rebuild began. -/
theorem rebuildIndex_ids (db1 : NoteIndex) (cur1 : Note) (files1 : List DiskFile) :
    ∀ n ∈ (rebuildIndex db1 cur1 files1).1.notes, db1.lastId < n.id := by
  unfold rebuildIndex
  split
  · exact store_ids_gt _ _ _ (createdIndex_ids db1 files1)
      (by rw [createdIndex_lastId]; exact Nat.le_add_right _ _)
  · exact createdIndex_ids db1 files1

theorem rebuildIndex_fileName (db1 : NoteIndex) (cur1 : Note) (files1 : List DiskFile) :
    (rebuildIndex db1 cur1 files1).2.fileName = cur1.fileName := by
  unfold rebuildIndex
  split
  · rw [Note.store_fileName]; exact refetch_fileName _ _
  · exact refetch_fileName _ _

/-- When the rebuilt index resolves the file name of the current note, the
re-fetched current note is the row it resolves to. -/
theorem rebuildIndex_resolved (db1 : NoteIndex) (cur1 : Note) (files1 : List DiskFile)
    (row : Note)
    (h : findByFileName cur1.fileName (rebuildIndex db1 cur1 files1).1.notes = some row) :
    (rebuildIndex db1 cur1 files1).2 = row := by
  unfold rebuildIndex at h ⊢
  have hids : ∀ n ∈ (createdIndex db1 files1).notes, 0 < n.id :=
    fun n hn => Nat.lt_of_le_of_lt (Nat.zero_le _) (createdIndex_ids _ _ n hn)
  by_cases hk : cur1.cryptoKey ≠ 0
  · rw [if_pos hk] at h ⊢
    have hfn := refetch_fileName cur1 (createdIndex db1 files1)
    refine store_resolved _ _ row (by rw [← hfn] at h; exact h) ?_ hids
    intro m hm
    rcases refetch_cases cur1 (createdIndex db1 files1) with ⟨_, hnone⟩ | hr
    · rw [show _ = cur1.fileName from hfn, hnone] at hm
      exact Option.noConfusion hm
    · rw [show _ = cur1.fileName from hfn, hr] at hm
      rw [← Option.some.inj hm]
  · rw [if_neg hk] at h ⊢
    unfold Note.refetch
    rw [h]
    rfl

theorem store_found (n m : Note) (db : NoteIndex)
    (h : findByFileName n.fileName db.notes = some m) (hid : m.id = n.id) (hpos : 0 < n.id) :
    findByFileName n.fileName (n.store db).1.notes = some n := by
  unfold Note.store
  rw [if_pos hpos]
  exact findByFileName_updateRow n m db.notes h hid

theorem store_not_resolved (n : Note) (db : NoteIndex)
    (hnone : findByFileName n.fileName (n.store db).1.notes = none)
    (hfresh : ∀ m ∈ db.notes, m.id ≠ n.id) :
    (n.store db).2.noteExists (n.store db).1 = false := by
  unfold Note.store at hnone ⊢
  by_cases hn : 0 < n.id
  · rw [if_pos hn] at hnone ⊢
    unfold Note.noteExists Note.fetch
    cases hf : findById n.id (updateRow n db.notes) with
    | none => simp [hf]
    | some m =>
      exfalso
      rcases mem_updateRow (findById_some hf).1 with h1 | ⟨_, x, hx, hxid⟩
      · exact hfresh m h1 (findById_some hf).2
      · exact hfresh x hx hxid
  · rw [if_neg hn] at hnone
    exfalso
    rw [findByFileName_append] at hnone
    cases hf : findByFileName n.fileName db.notes with
    | none => simp [hf, findByFileName] at hnone
    | some m => simp [hf] at hnone

/-- When the rebuilt index does not resolve the file name of the current
note, and the id of the current note is one that was handed out before the
rebuild, the current note does not exist in the rebuilt index. -/
theorem rebuildIndex_not_resolved (db1 : NoteIndex) (cur1 : Note) (files1 : List DiskFile)
    (hid : cur1.id ≤ db1.lastId)
    (h : findByFileName cur1.fileName (rebuildIndex db1 cur1 files1).1.notes = none) :
    (rebuildIndex db1 cur1 files1).2.noteExists (rebuildIndex db1 cur1 files1).1 = false := by
  unfold rebuildIndex at h ⊢
  have hfresh : ∀ m ∈ (createdIndex db1 files1).notes, m.id ≠ cur1.id := by
    intro m hm hmid
    have := createdIndex_ids db1 files1 m hm
    omega
  by_cases hk : cur1.cryptoKey ≠ 0
  · rw [if_pos hk] at h ⊢
    have hfn := refetch_fileName cur1 (createdIndex db1 files1)
    rcases refetch_cases cur1 (createdIndex db1 files1) with ⟨hr, _⟩ | hr
    · rw [hr] at h ⊢
      exact store_not_resolved _ _ h hfresh
    · exfalso
      have hpos : 0 < (cur1.refetch (createdIndex db1 files1)).id :=
        Nat.lt_of_le_of_lt (Nat.zero_le _) (createdIndex_ids _ _ _ (findByFileName_some hr).1)
      have hu := store_found
        { cur1.refetch (createdIndex db1 files1) with
          cryptoKey := cur1.cryptoKey, cryptoPassword := cur1.cryptoPassword }
        (cur1.refetch (createdIndex db1 files1)) (createdIndex db1 files1)
        (by rw [show _ = cur1.fileName from hfn]; exact hr) rfl hpos
      rw [show _ = cur1.fileName from hfn, h] at hu
      exact Option.noConfusion hu
  · rw [if_neg hk] at h ⊢
    simp only at h ⊢
    unfold Note.refetch
    rw [h]
    unfold Note.noteExists Note.fetch
    cases hf : findById cur1.id (createdIndex db1 files1).notes with
    | none => simp [hf]
    | some m => exact absurd (findById_some hf).2 (hfresh m (findById_some hf).1)

/-- When the rebuilt index resolves the file name of the current note, the
current note exists in the rebuilt index. -/
theorem rebuildIndex_exists (db1 : NoteIndex) (cur1 : Note) (files1 : List DiskFile) (row : Note)
    (h : findByFileName cur1.fileName (rebuildIndex db1 cur1 files1).1.notes = some row) :
    (rebuildIndex db1 cur1 files1).2.noteExists (rebuildIndex db1 cur1 files1).1 = true := by
  rw [rebuildIndex_resolved db1 cur1 files1 row h]
  have hmem := (findByFileName_some h).1
  obtain ⟨x, hx, hxid⟩ := findById_of_mem hmem
  have hpos := rebuildIndex_ids db1 cur1 files1 row hmem
  unfold Note.noteExists Note.fetch
  rw [hx]
  simp only [Option.getD_some, hxid, decide_eq_true_eq]
  omega

theorem buildNotesIndex_eq (s : MainWindow) :
    ∃ (fl : List DiskFile) (dk : Disk) (dc j : Bool),
      s.buildNotesIndex =
        { s.storeUpdatedNotesToDisk with
          demoNotesCreated := dc, disk := dk, jumpToWelcomeNoteScheduled := j,
          db := (rebuildIndex s.storeUpdatedNotesToDisk.db s.storeUpdatedNotesToDisk.currentNote
            fl).1,
          currentNote := (rebuildIndex s.storeUpdatedNotesToDisk.db
            s.storeUpdatedNotesToDisk.currentNote fl).2 }
      ∧ (entryList s.storeUpdatedNotesToDisk.disk s.storeUpdatedNotesToDisk.notesPath ≠ [] →
          fl = entryList s.storeUpdatedNotesToDisk.disk s.storeUpdatedNotesToDisk.notesPath
            ∧ dk = s.storeUpdatedNotesToDisk.disk) := by
  unfold MainWindow.buildNotesIndex rebuildIndex createdIndex
  generalize s.storeUpdatedNotesToDisk = s1
  generalize hdemo : demoNoteFileNames.foldl (copyDemoNote s1.now s1.notesPath) s1.disk = dd
  by_cases hd : ((entryList s1.disk s1.notesPath).isEmpty && !s1.demoNotesCreated) = true
  · refine ⟨entryList dd s1.notesPath, dd, true, true, ?_, ?_⟩
    · by_cases hk : s1.currentNote.cryptoKey = 0
      · simp only [hd, hk, hdemo, if_true, ne_eq, not_true_eq_false, if_false]
      · simp only [hd, hk, hdemo, if_true, ne_eq, not_false_eq_true]
    · intro hne
      cases hl : entryList s1.disk s1.notesPath with
      | nil => exact absurd hl hne
      | cons a l => rw [hl] at hd; simp at hd
  · refine ⟨entryList s1.disk s1.notesPath, s1.disk, s1.demoNotesCreated,
      s1.jumpToWelcomeNoteScheduled, ?_, fun _ => ⟨rfl, rfl⟩⟩
    have hd1 : ((entryList s1.disk s1.notesPath).isEmpty && !s1.demoNotesCreated) = false := by
      simpa using hd
    by_cases hk : s1.currentNote.cryptoKey = 0
    · simp only [hd1, hk, if_true, ne_eq, not_true_eq_false, if_false, Bool.false_eq_true]
    · simp only [hd1, hk, if_true, ne_eq, not_false_eq_true, if_false, Bool.false_eq_true]

theorem setCurrentNote_eq (s : MainWindow) (note : Note) (u sel hist : Bool) :
    s.setCurrentNote note u sel hist =
      { s with noteHistory := (s.setCurrentNote note u sel hist).noteHistory,
               currentNote := note.refetch s.db,
               noteTextEditReadOnly := (s.setCurrentNote note u sel hist).noteTextEditReadOnly,
               currentRow := (s.setCurrentNote note u sel hist).currentRow,
               noteTextEdit := if u = true then note.noteText else s.noteTextEdit,
               noteTextView := (s.setCurrentNote note u sel hist).noteTextView } := by
  unfold MainWindow.setCurrentNote MainWindow.updateEncryptNoteButtons
    MainWindow.setNoteTextFromNote
  by_cases h1 : (hist && note.noteExists s.db) = true <;> by_cases h2 : sel = true <;>
    by_cases h3 : u = true <;> simp only [h1, h2, h3, if_true, if_false, Bool.false_eq_true,
      Bool.not_false, Bool.not_true] <;> split <;> rfl

/-- The state after `buildNotesIndex`: the index and the current note are
those of `rebuildIndex` for the flushed index, the current note after the
flush and some listing; the dialogs in the trace, the editor text and the
notes path are untouched. -/
theorem buildNotesIndex_shape (s : MainWindow) :
    ∃ (fl : List DiskFile) (cur1 : Note) (dk : Disk) (dc j : Bool) (lg : List Event) (nv : Bool)
      (sb : Option (StatusText × Nat)) (now1 : Nat) (l : List NoteListItem) (r : Int)
      (v : String) (wd wf : List String),
      s.buildNotesIndex =
        { s with
          db := (rebuildIndex (Note.storeDirtyNotesToDisk s.notesPath s.disk s.db s.now).2.1
            cur1 fl).1,
          currentNote := (rebuildIndex
            (Note.storeDirtyNotesToDisk s.notesPath s.disk s.db s.now).2.1 cur1 fl).2,
          disk := dk, demoNotesCreated := dc, jumpToWelcomeNoteScheduled := j, log := lg,
          noteViewNeedsUpdate := nv, statusBarMessage := sb, now := now1, notesListWidget := l,
          currentRow := r, noteTextView := v, watcherDirectories := wd, watcherFiles := wf }
      ∧ lg.filter Event.isDialog = s.log.filter Event.isDialog
      ∧ cur1.fileName = s.currentNote.fileName
      ∧ (cur1 = s.currentNote ∨ findByFileName s.currentNote.fileName
            (Note.storeDirtyNotesToDisk s.notesPath s.disk s.db s.now).2.1.notes = some cur1) := by
  obtain ⟨fl, dk, dc, j, hb, _⟩ := buildNotesIndex_eq s
  obtain ⟨cur1, lg, nv, sb, now1, l, r, v, wd, wf, hs, hlg, hcur⟩ :=
    storeUpdatedNotesToDisk_shape s
  rw [hs] at hb
  refine ⟨fl, cur1, dk, dc, j, lg, nv, sb, now1, l, r, v, wd, wf, hb, hlg, ?_, hcur⟩
  rcases hcur with h | h
  · rw [h]
  · exact (findByFileName_some h).2

/-- After `buildNotesIndex` a re-fetch of the current note gives the current note. -/
theorem rebuildIndex_refetch (db1 : NoteIndex) (cur1 : Note) (files1 : List DiskFile) :
    (rebuildIndex db1 cur1 files1).2.refetch (rebuildIndex db1 cur1 files1).1
      = (rebuildIndex db1 cur1 files1).2 := by
  unfold Note.refetch
  rw [rebuildIndex_fileName]
  cases h : findByFileName cur1.fileName (rebuildIndex db1 cur1 files1).1.notes with
  | none => rfl
  | some row => rw [rebuildIndex_resolved db1 cur1 files1 row h]; rfl

theorem loadNoteDirectoryList_fields (s : MainWindow) :
    s.loadNoteDirectoryList.db = s.db
      ∧ s.loadNoteDirectoryList.currentNote = s.currentNote
      ∧ s.loadNoteDirectoryList.log = s.log
      ∧ s.loadNoteDirectoryList.disk = s.disk
      ∧ s.loadNoteDirectoryList.notesPath = s.notesPath
      ∧ s.loadNoteDirectoryList.noteTextEdit = (if s.db.notes = [] then "" else s.noteTextEdit) := by
  rw [load_eq]
  exact ⟨rfl, rfl, rfl, rfl, rfl, rfl⟩

theorem setCurrentNote_fields (s : MainWindow) (note : Note) (u sel hist : Bool) :
    (s.setCurrentNote note u sel hist).db = s.db
      ∧ (s.setCurrentNote note u sel hist).currentNote = note.refetch s.db
      ∧ (s.setCurrentNote note u sel hist).log = s.log
      ∧ (s.setCurrentNote note u sel hist).disk = s.disk
      ∧ (s.setCurrentNote note u sel hist).notesListWidget = s.notesListWidget
      ∧ (s.setCurrentNote note u sel hist).noteTextEdit
          = (if u = true then note.noteText else s.noteTextEdit) := by
  rw [setCurrentNote_eq]
  exact ⟨rfl, rfl, rfl, rfl, rfl, rfl⟩

/-- The state after rebuilding index and list and re-selecting the current
note, as `notesWereModified` (for another note) and
`notesDirectoryWasModified` do it after their status bar message. -/
theorem rebuild_reselect (s : MainWindow) (u : Bool) :
    ((s.buildNotesIndex.loadNoteDirectoryList).setCurrentNote
        s.buildNotesIndex.loadNoteDirectoryList.currentNote u true true).db = s.buildNotesIndex.db
      ∧ ((s.buildNotesIndex.loadNoteDirectoryList).setCurrentNote
          s.buildNotesIndex.loadNoteDirectoryList.currentNote u true true).currentNote
          = s.buildNotesIndex.currentNote
      ∧ s.buildNotesIndex.currentNote.fileName = s.currentNote.fileName
      ∧ ((s.buildNotesIndex.loadNoteDirectoryList).setCurrentNote
          s.buildNotesIndex.loadNoteDirectoryList.currentNote u true true).log.filter
            Event.isDialog = s.log.filter Event.isDialog
      ∧ (∀ row, findByFileName s.currentNote.fileName s.buildNotesIndex.db.notes = some row →
          s.buildNotesIndex.currentNote = row ∧ s.db.lastId < row.id
            ∧ s.buildNotesIndex.currentNote.noteExists s.buildNotesIndex.db = true)
      ∧ ((∀ n ∈ s.db.notes, n.id ≤ s.db.lastId) → s.currentNote.id ≤ s.db.lastId →
          findByFileName s.currentNote.fileName s.buildNotesIndex.db.notes = none →
          s.buildNotesIndex.currentNote.noteExists s.buildNotesIndex.db = false)
      ∧ ((s.buildNotesIndex.loadNoteDirectoryList).setCurrentNote
          s.buildNotesIndex.loadNoteDirectoryList.currentNote u true true).noteTextEdit
          = (if u = true then s.buildNotesIndex.currentNote.noteText
             else if s.buildNotesIndex.db.notes = [] then "" else s.noteTextEdit) := by
  obtain ⟨fl, cur1, dk, dc, j, lg, nv, sb, now1, l, r, v, wd, wf, hB, hlg, hfn, hcur⟩ :=
    buildNotesIndex_shape s
  have hidx := storeDirtyNotesToDisk_index s.notesPath s.disk s.db s.now
  have hL := loadNoteDirectoryList_fields s.buildNotesIndex
  have hS := setCurrentNote_fields s.buildNotesIndex.loadNoteDirectoryList
    s.buildNotesIndex.loadNoteDirectoryList.currentNote u true true
  have hdb : s.buildNotesIndex.db
      = (rebuildIndex (Note.storeDirtyNotesToDisk s.notesPath s.disk s.db s.now).2.1 cur1 fl).1 := by
    rw [hB]
  have hc : s.buildNotesIndex.currentNote
      = (rebuildIndex (Note.storeDirtyNotesToDisk s.notesPath s.disk s.db s.now).2.1 cur1 fl).2 := by
    rw [hB]
  have hlog : s.buildNotesIndex.log = lg := by rw [hB]
  have hedit : s.buildNotesIndex.noteTextEdit = s.noteTextEdit := by rw [hB]
  refine ⟨?_, ?_, ?_, ?_, ?_, ?_, ?_⟩
  · rw [hS.1, hL.1]
  · rw [hS.2.1, hL.1, hL.2.1, hdb, hc, rebuildIndex_refetch]
  · rw [hc, rebuildIndex_fileName, hfn]
  · rw [hS.2.2.1, hL.2.2.1, hlog, hlg]
  · intro row hrow
    rw [hdb, ← hfn] at hrow
    rw [hdb, hc]
    refine ⟨rebuildIndex_resolved _ _ _ row hrow, ?_, rebuildIndex_exists _ _ _ row hrow⟩
    exact Nat.lt_of_le_of_lt hidx.1 (rebuildIndex_ids _ _ _ row (findByFileName_some hrow).1)
  · intro hrows hcurid hnone
    rw [hdb, ← hfn] at hnone
    rw [hdb, hc]
    refine rebuildIndex_not_resolved _ _ _ ?_ hnone
    rcases hcur with h | h
    · rw [h]; exact Nat.le_trans hcurid hidx.1
    · exact hidx.2 hrows cur1 (findByFileName_some h).1
  · rw [hS.2.2.2.2.2, hL.2.1, hL.2.2.2.2.2, hedit]

theorem findFile_some {dir fileName : String} {l : List DiskFile} {f : DiskFile}
    (h : findFile dir fileName l = some f) : f ∈ l ∧ f.dir = dir ∧ f.fileName = fileName := by
  induction l with
  | nil => simp [findFile] at h
  | cons x xs ih =>
    unfold findFile at h
    by_cases hx : x.dir = dir ∧ x.fileName = fileName
    · rw [if_pos hx] at h
      rw [← Option.some.inj h]
      exact ⟨List.mem_cons_self _ _, hx⟩
    · rw [if_neg hx] at h
      exact ⟨List.mem_cons_of_mem _ (ih h).1, (ih h).2⟩

theorem findFile_none {dir fileName : String} {l : List DiskFile}
    (h : findFile dir fileName l = none) :
    ∀ f ∈ l, ¬(f.dir = dir ∧ f.fileName = fileName) := by
  induction l with
  | nil => intro f hf; simp at hf
  | cons x xs ih =>
    unfold findFile at h
    by_cases hx : x.dir = dir ∧ x.fileName = fileName
    · rw [if_pos hx] at h; exact Option.noConfusion h
    · rw [if_neg hx] at h
      intro f hf
      rcases List.mem_cons.mp hf with h1 | h1
      · rw [h1]; exact hx
      · exact ih h f h1

theorem Disk.read_of_holds (d : Disk) (dir fileName text : String)
    (h : d.holds dir fileName text) : d.read dir fileName = some text := by
  unfold Disk.read Disk.lookup
  cases hf : findFile dir fileName d.files with
  | none =>
    obtain ⟨f, hfm, hfd⟩ := h.1
    exact absurd hfd (findFile_none hf f hfm)
  | some f =>
    have := findFile_some hf
    simp [h.2 f this.1 this.2.1 this.2.2]

theorem mem_replaceFile {dir fileName text : String} {now : Nat} {l : List DiskFile}
    {f : DiskFile} (h : f ∈ replaceFile dir fileName text now l) :
    f ∈ l ∨ (f.dir = dir ∧ f.fileName = fileName) := by
  induction l with
  | nil => simp [replaceFile] at h
  | cons x xs ih =>
    unfold replaceFile at h
    by_cases hx : x.dir = dir ∧ x.fileName = fileName
    · rw [if_pos hx] at h
      rcases List.mem_cons.mp h with h1 | h1
      · right; rw [h1]; exact hx
      · left; exact List.mem_cons_of_mem _ h1
    · rw [if_neg hx] at h
      rcases List.mem_cons.mp h with h1 | h1
      · left; rw [h1]; exact List.mem_cons_self _ _
      · rcases ih h1 with h2 | h2
        · left; exact List.mem_cons_of_mem _ h2
        · right; exact h2

theorem mem_replaceFile_of_other {dir fileName text : String} {now : Nat} {l : List DiskFile}
    {f : DiskFile} (h : f ∈ l) (hf : ¬(f.dir = dir ∧ f.fileName = fileName)) :
    f ∈ replaceFile dir fileName text now l := by
  induction l with
  | nil => simp at h
  | cons x xs ih =>
    unfold replaceFile
    by_cases hx : x.dir = dir ∧ x.fileName = fileName
    · rw [if_pos hx]
      rcases List.mem_cons.mp h with h1 | h1
      · rw [h1] at hf; exact absurd hx hf
      · exact List.mem_cons_of_mem _ h1
    · rw [if_neg hx]
      rcases List.mem_cons.mp h with h1 | h1
      · rw [h1]; exact List.mem_cons_self _ _
      · exact List.mem_cons_of_mem _ (ih h1)

/-- Writing another file of the folder keeps what the folder holds under `fileName`. -/
theorem Disk.holds_write (d d1 : Disk) (dir fileName text other t : String) (now : Nat)
    (hne : other ≠ fileName) (h : d.holds dir fileName text)
    (hw : d.write dir other t now = some d1) : d1.holds dir fileName text := by
  unfold Disk.write at hw
  obtain ⟨⟨f0, hf0, hf0d⟩, hall⟩ := h
  have hf0o : ¬(f0.dir = dir ∧ f0.fileName = other) := fun hc => hne (hc.2.symm.trans hf0d.2)
  split at hw
  · split at hw
    · rw [← Option.some.inj hw]
      refine ⟨⟨f0, mem_replaceFile_of_other hf0 hf0o, hf0d⟩, ?_⟩
      intro f hf hd hn
      rcases mem_replaceFile hf with h1 | h1
      · exact hall f h1 hd hn
      · exact absurd (h1.2.symm.trans hn) hne
    · exact Option.noConfusion hw
  · split at hw
    · rw [← Option.some.inj hw]
      refine ⟨⟨f0, List.mem_append_left _ hf0, hf0d⟩, ?_⟩
      intro f hf hd hn
      rcases List.mem_append.mp hf with h1 | h1
      · exact hall f h1 hd hn
      · rw [List.mem_singleton.mp h1] at hn
        exact absurd hn hne
    · exact Option.noConfusion hw

/-- The flush keeps what the folder holds under a file name that no dirty note has. -/
theorem storeDirtyNotesToDisk_holds (notesPath : String) (disk : Disk) (db : NoteIndex)
    (now : Nat) (fileName text : String)
    (hdirty : ∀ n ∈ db.notes, n.hasDirtyData = true → n.fileName ≠ fileName)
    (h : disk.holds notesPath fileName text) :
    (Note.storeDirtyNotesToDisk notesPath disk db now).1.holds notesPath fileName text := by
  unfold Note.storeDirtyNotesToDisk
  refine foldl_invariant
    (fun acc : Disk × NoteIndex × List (String × Bool) => acc.1.holds notesPath fileName text)
    (Note.storeDirtyStep notesPath now) _ (disk, db, []) h ?_
  intro acc n hn hacc
  have hnf : n.fileName ≠ fileName := by
    have := List.mem_filter.mp hn
    exact hdirty n this.1 (by simpa using this.2)
  unfold Note.storeDirtyStep Note.storeNoteTextFileToDisk
  cases hw : acc.1.write notesPath n.fileName n.noteText now with
  | none => simpa [hw] using hacc
  | some d1 =>
    simp only [hw]
    exact Disk.holds_write acc.1 d1 notesPath fileName text n.fileName n.noteText now hnf hacc hw

theorem mem_entryList {d : Disk} {dir : String} {f : DiskFile} :
    f ∈ entryList d dir ↔
      f ∈ d.files ∧ f.dir = dir ∧ matchesNoteFilters f.fileName = true
        ∧ isHiddenFileName f.fileName = false := by
  unfold entryList
  rw [(List.perm_insertionSort _ _).mem_iff, List.mem_filter]
  simp [and_assoc]

theorem findByFileName_rebuiltRows (fileName text : String) (files : List DiskFile)
    (hex : ∃ f ∈ files, f.fileName = fileName)
    (hall : ∀ f ∈ files, f.fileName = fileName → f.text = text) :
    ∀ k, ∃ row, findByFileName fileName (rebuiltRows k files) = some row
      ∧ row.noteText = text := by
  induction files with
  | nil => obtain ⟨f, hf, _⟩ := hex; simp at hf
  | cons x xs ih =>
    intro k
    by_cases hx : x.fileName = fileName
    · simp only [rebuiltRows, findByFileName, hx, if_true]
      exact ⟨_, rfl, hall x (List.mem_cons_self _ _) hx⟩
    · obtain ⟨f, hf, hfn⟩ := hex
      have hf1 : f ∈ xs := by
        rcases List.mem_cons.mp hf with h1 | h1
        · rw [h1] at hfn; exact absurd hfn hx
        · exact h1
      obtain ⟨row, hrow, htext⟩ := ih ⟨f, hf1, hfn⟩
        (fun g hg => hall g (List.mem_cons_of_mem _ hg)) (k + 1)
      exact ⟨row, by simp only [rebuiltRows, findByFileName, hx, if_false]; exact hrow, htext⟩

theorem store_found_of (n m : Note) (db : NoteIndex) (fileName : String)
    (hfn : n.fileName = fileName) (h : findByFileName fileName db.notes = some m)
    (hid : m.id = n.id) (hpos : 0 < n.id) :
    findByFileName fileName (n.store db).1.notes = some n ∧ (n.store db).2 = n := by
  subst hfn
  exact ⟨store_found n m db h hid hpos, (refetch_store_resolved db n m h hid hpos).2⟩

/-- When the created index resolves the file name of the current note to
`row0`, the rebuilt index resolves it to the re-fetched current note, which
has the text of `row0`. -/
theorem rebuildIndex_text (db1 : NoteIndex) (cur1 : Note) (files1 : List DiskFile) (row0 : Note)
    (h : findByFileName cur1.fileName (createdIndex db1 files1).notes = some row0) :
    findByFileName cur1.fileName (rebuildIndex db1 cur1 files1).1.notes
        = some (rebuildIndex db1 cur1 files1).2
      ∧ (rebuildIndex db1 cur1 files1).2.noteText = row0.noteText := by
  have hre : cur1.refetch (createdIndex db1 files1) = row0 := by
    unfold Note.refetch; rw [h]; rfl
  have hpos : 0 < row0.id :=
    Nat.lt_of_le_of_lt (Nat.zero_le _) (createdIndex_ids _ _ _ (findByFileName_some h).1)
  have hfn : row0.fileName = cur1.fileName := (findByFileName_some h).2
  unfold rebuildIndex
  by_cases hk : cur1.cryptoKey ≠ 0
  · rw [if_pos hk, hre]
    have h1 := store_found_of
      { row0 with cryptoKey := cur1.cryptoKey, cryptoPassword := cur1.cryptoPassword } row0
      (createdIndex db1 files1) cur1.fileName hfn h rfl hpos
    exact ⟨h1.1.trans (congrArg some h1.2.symm), by rw [h1.2]⟩
  · rw [if_neg hk, hre]
    exact ⟨h, rfl⟩

/-- After `buildNotesIndex`, when the listing of the flushed folder is not
empty: the disk is the flushed disk and the index is rebuilt from that listing. -/
theorem buildNotesIndex_listed (s : MainWindow)
    (hne : entryList (Note.storeDirtyNotesToDisk s.notesPath s.disk s.db s.now).1 s.notesPath ≠ []) :
    ∃ cur1 : Note,
      s.buildNotesIndex.disk = (Note.storeDirtyNotesToDisk s.notesPath s.disk s.db s.now).1
      ∧ s.buildNotesIndex.db
          = (rebuildIndex (Note.storeDirtyNotesToDisk s.notesPath s.disk s.db s.now).2.1 cur1
              (entryList (Note.storeDirtyNotesToDisk s.notesPath s.disk s.db s.now).1
                s.notesPath)).1
      ∧ s.buildNotesIndex.currentNote
          = (rebuildIndex (Note.storeDirtyNotesToDisk s.notesPath s.disk s.db s.now).2.1 cur1
              (entryList (Note.storeDirtyNotesToDisk s.notesPath s.disk s.db s.now).1
                s.notesPath)).2
      ∧ cur1.fileName = s.currentNote.fileName := by
  obtain ⟨fl, dk, dc, j, hb, hl⟩ := buildNotesIndex_eq s
  obtain ⟨cur1, lg, nv, sb, now1, l, r, v, wd, wf, hs, _, hcur⟩ :=
    storeUpdatedNotesToDisk_shape s
  have h1 : s.storeUpdatedNotesToDisk.disk
      = (Note.storeDirtyNotesToDisk s.notesPath s.disk s.db s.now).1 := by rw [hs]
  have h2 : s.storeUpdatedNotesToDisk.notesPath = s.notesPath := by rw [hs]
  have h3 : s.storeUpdatedNotesToDisk.db
      = (Note.storeDirtyNotesToDisk s.notesPath s.disk s.db s.now).2.1 := by rw [hs]
  have h4 : s.storeUpdatedNotesToDisk.currentNote = cur1 := by rw [hs]
  rw [h1, h2] at hl
  obtain ⟨hfl, hdk⟩ := hl hne
  rw [h3, h4, hfl, hdk] at hb
  refine ⟨cur1, by rw [hb], by rw [hb], by rw [hb], ?_⟩
  rcases hcur with h | h
  · rw [h]
  · exact (findByFileName_some h).2

/-- After `buildNotesIndex` on a state whose notes folder holds a note file
with text `text` that no dirty note is about to overwrite: the file still
has that text, and the rebuilt index resolves its name to a row with that
text, which is the current note when the current note has that file name. -/
theorem buildNotesIndex_holds (s : MainWindow) (fileName text : String)
    (hholds : s.disk.holds s.notesPath fileName text)
    (hdirty : ∀ n ∈ s.db.notes, n.hasDirtyData = true → n.fileName ≠ fileName)
    (hfilter : matchesNoteFilters fileName = true) (hvisible : isHiddenFileName fileName = false)
    (hcur : s.currentNote.fileName = fileName) :
    s.buildNotesIndex.disk.read s.notesPath fileName = some text
      ∧ findByFileName fileName s.buildNotesIndex.db.notes = some s.buildNotesIndex.currentNote
      ∧ s.buildNotesIndex.currentNote.noteText = text := by
  have hflush := storeDirtyNotesToDisk_holds s.notesPath s.disk s.db s.now fileName text
    hdirty hholds
  obtain ⟨f, hf, hfd, hfn⟩ := hflush.1
  have hmem : f ∈ entryList (Note.storeDirtyNotesToDisk s.notesPath s.disk s.db s.now).1
      s.notesPath := mem_entryList.mpr ⟨hf, hfd, by rw [hfn]; exact hfilter, by rw [hfn]; exact hvisible⟩
  obtain ⟨cur1, hdisk, hdb, hc, hcfn⟩ := buildNotesIndex_listed s (List.ne_nil_of_mem hmem)
  obtain ⟨row0, hrow0, htext⟩ := findByFileName_rebuiltRows fileName text
    (entryList (Note.storeDirtyNotesToDisk s.notesPath s.disk s.db s.now).1 s.notesPath)
    ⟨f, hmem, hfn⟩
    (fun g hg hgn => hflush.2 g (mem_entryList.mp hg).1 (mem_entryList.mp hg).2.1 hgn)
    (Note.storeDirtyNotesToDisk s.notesPath s.disk s.db s.now).2.1.lastId
  have hcf : cur1.fileName = fileName := hcfn.trans hcur
  rw [← createdIndex_notes, ← hcf] at hrow0
  obtain ⟨h1, h2⟩ := rebuildIndex_text _ cur1 _ row0 hrow0
  rw [hdisk, hdb, hc]
  refine ⟨Disk.read_of_holds _ _ _ _ hflush, ?_, h2.trans htext⟩
  rw [← hcf]
  exact h1

theorem mem_updateRow_ne {n m : Note} {l : List Note} (h : m ∈ updateRow n l) :
    m = n ∨ (m ∈ l ∧ m.id ≠ n.id) := by
  induction l with
  | nil => simp [updateRow] at h
  | cons x xs ih =>
    simp only [updateRow, List.mem_cons] at h
    rcases h with h | h
    · by_cases hx : x.id = n.id
      · left; simpa [hx] using h
      · right; simp only [hx, if_false] at h
        rw [h]; exact ⟨List.mem_cons_self _ _, hx⟩
    · rcases ih h with h1 | ⟨h1, h2⟩
      · left; exact h1
      · right; exact ⟨List.mem_cons_of_mem _ h1, h2⟩

theorem buildNotesIndex_frame (s : MainWindow) :
    s.buildNotesIndex.noteTextEdit = s.noteTextEdit
      ∧ s.buildNotesIndex.log.filter Event.isDialog = s.log.filter Event.isDialog
      ∧ s.buildNotesIndex.notesPath = s.notesPath
      ∧ s.buildNotesIndex.watcherBlocked = s.watcherBlocked := by
  obtain ⟨fl, cur1, dk, dc, j, lg, nv, sb, now1, l, r, v, wd, wf, hB, hlg, _, _⟩ :=
    buildNotesIndex_shape s
  rw [hB]
  exact ⟨rfl, hlg, rfl, rfl⟩

/-- The write of the Restore branch: a note whose file is gone is saved
into an existing notes folder. -/
theorem saveNote_new_file (s : MainWindow) (n : Note)
    (hgone : s.disk.lookup s.notesPath n.fileName = none) (hdir : s.notesPath ∈ s.disk.dirs)
    (hpos : 0 < n.id) :
    (s.saveNote n).1.disk.holds s.notesPath n.fileName n.noteText
      ∧ (s.saveNote n).1.db.notes
          = updateRow { n with hasDirtyData := false, fileLastModified := s.now } s.db.notes
      ∧ (s.saveNote n).1.db.lastId = s.db.lastId
      ∧ (s.saveNote n).2.fileName = n.fileName
      ∧ (s.saveNote n).1.log = s.log ++ [Event.fileWrite n.fileName true s.watcherBlocked]
      ∧ (s.saveNote n).1.currentNote = s.currentNote
      ∧ (s.saveNote n).1.noteTextEdit = s.noteTextEdit
      ∧ (s.saveNote n).1.notesPath = s.notesPath
      ∧ (s.saveNote n).1.watcherBlocked = s.watcherBlocked := by
  have hw : s.disk.write s.notesPath n.fileName n.noteText s.now
      = some { s.disk with files := s.disk.files ++
          [{ dir := s.notesPath, fileName := n.fileName, text := n.noteText,
             lastModified := s.now }] } := by
    unfold Disk.write
    rw [hgone]
    simp [hdir]
  have hpos1 : 0 < ({ n with hasDirtyData := false, fileLastModified := s.now } : Note).id := hpos
  have hst : n.storeNoteTextFileToDisk s.notesPath s.disk s.db s.now
      = ({ s.disk with files := s.disk.files ++
            [{ dir := s.notesPath, fileName := n.fileName, text := n.noteText,
               lastModified := s.now }] },
         { s.db with notes :=
            updateRow { n with hasDirtyData := false, fileLastModified := s.now } s.db.notes },
         { n with hasDirtyData := false, fileLastModified := s.now }, true) := by
    unfold Note.storeNoteTextFileToDisk
    simp only [hw]
    unfold Note.store
    rw [if_pos hpos1]
  unfold MainWindow.saveNote
  rw [hst]
  refine ⟨⟨⟨_, List.mem_append_right _ (List.mem_singleton_self _), rfl, rfl⟩, ?_⟩,
    rfl, rfl, rfl, rfl, rfl, rfl, rfl, rfl⟩
  intro f hf hd hn
  rcases List.mem_append.mp hf with h1 | h1
  · exact absurd ⟨hd, hn⟩ (findFile_none hgone f h1)
  · rw [List.mem_singleton.mp h1]

theorem notesWereModified_restore_eq (u : User) (s : MainWindow) (str : String)
    (hcur : (Note.fetchByFileName s.db (fileNameOfPath str)).fileName = s.currentNote.fileName)
    (hgone : s.disk.lookup s.notesPath s.currentNote.fileName = none)
    (hrestore : u.restoreChoice = 0) :
    MainWindow.notesWereModified u s str =
      { ((s.afterRestoreWrite (Note.fetchByFileName s.db
            (fileNameOfPath str))).buildNotesIndex.loadNoteDirectoryList).setCurrentNote
          ((s.restoredNote (Note.fetchByFileName s.db (fileNameOfPath str))).refetch
            (s.afterRestoreWrite (Note.fetchByFileName s.db
              (fileNameOfPath str))).buildNotesIndex.loadNoteDirectoryList.db)
          false true true with
        watcherBlocked := s.watcherBlocked } := by
  have hex : (Note.fetchByFileName s.db (fileNameOfPath str)).fileExists s.notesPath s.disk
      = false := by
    unfold Note.fileExists Disk.fileExists
    rw [hcur, hgone]
    rfl
  unfold MainWindow.notesWereModified MainWindow.afterRestoreWrite MainWindow.restoredNote
    MainWindow.beforeRestoreWrite
  simp only [hcur, hex, hrestore, if_true, Bool.false_eq_true, if_false]

/-- The Restore branch, field by field: the result is the state after the
rebuild and the re-selection, with the watcher released. -/
theorem notesWereModified_restore_fields (u : User) (s : MainWindow) (str : String)
    (hcur : (Note.fetchByFileName s.db (fileNameOfPath str)).fileName = s.currentNote.fileName)
    (hgone : s.disk.lookup s.notesPath s.currentNote.fileName = none)
    (hrestore : u.restoreChoice = 0) :
    ∃ S : MainWindow,
      S = ((s.afterRestoreWrite (Note.fetchByFileName s.db
            (fileNameOfPath str))).buildNotesIndex.loadNoteDirectoryList).setCurrentNote
          ((s.restoredNote (Note.fetchByFileName s.db (fileNameOfPath str))).refetch
            (s.afterRestoreWrite (Note.fetchByFileName s.db
              (fileNameOfPath str))).buildNotesIndex.loadNoteDirectoryList.db)
          false true true
      ∧ (MainWindow.notesWereModified u s str).log = S.log
      ∧ (MainWindow.notesWereModified u s str).disk = S.disk
      ∧ (MainWindow.notesWereModified u s str).db = S.db
      ∧ (MainWindow.notesWereModified u s str).notesListWidget = S.notesListWidget
      ∧ (MainWindow.notesWereModified u s str).currentNote = S.currentNote
      ∧ (MainWindow.notesWereModified u s str).noteTextEdit = S.noteTextEdit := by
  refine ⟨_, rfl, ?_⟩
  rw [notesWereModified_restore_eq u s str hcur hgone hrestore]
  generalize ((s.afterRestoreWrite (Note.fetchByFileName s.db
            (fileNameOfPath str))).buildNotesIndex.loadNoteDirectoryList).setCurrentNote
          ((s.restoredNote (Note.fetchByFileName s.db (fileNameOfPath str))).refetch
            (s.afterRestoreWrite (Note.fetchByFileName s.db
              (fileNameOfPath str))).buildNotesIndex.loadNoteDirectoryList.db)
          false true true = S
  exact ⟨rfl, rfl, rfl, rfl, rfl, rfl⟩

theorem storeNewText_resolved (n : Note) (db : NoteIndex) (text : String) (hpos : 0 < n.id) :
    (n.storeNewText db text).1
        = { db with notes := updateRow { n with noteText := text, hasDirtyData := true } db.notes }
      ∧ (n.storeNewText db text).2 = { n with noteText := text, hasDirtyData := true } := by
  have hpos1 : 0 < ({ n with noteText := text, hasDirtyData := true } : Note).id := hpos
  unfold Note.storeNewText Note.store
  rw [if_pos hpos1]
  exact ⟨rfl, rfl⟩

/-- The state in which the Restore branch starts the rebuild. -/
theorem afterRestoreWrite_spec (s : MainWindow) (note : Note)
    (hcur : note.fileName = s.currentNote.fileName) (hres : 0 < note.id)
    (hgone : s.disk.lookup s.notesPath s.currentNote.fileName = none)
    (hdir : s.notesPath ∈ s.disk.dirs)
    (hunique : ∀ m ∈ s.db.notes, m.fileName = s.currentNote.fileName → m.id = note.id) :
    (s.afterRestoreWrite note).disk.holds s.notesPath s.currentNote.fileName s.noteTextEdit
      ∧ (∀ m ∈ (s.afterRestoreWrite note).db.notes, m.hasDirtyData = true →
          m.fileName ≠ s.currentNote.fileName)
      ∧ (s.afterRestoreWrite note).currentNote = s.currentNote
      ∧ (s.afterRestoreWrite note).noteTextEdit = s.noteTextEdit
      ∧ (s.afterRestoreWrite note).notesPath = s.notesPath
      ∧ (s.afterRestoreWrite note).db.lastId = s.db.lastId
      ∧ (s.afterRestoreWrite note).log
          = s.log ++ [Event.removedDialog s.watcherBlocked,
                      Event.fileWrite s.currentNote.fileName true true]
      ∧ (s.restoredNote note).fileName = s.currentNote.fileName := by
  obtain ⟨hst1, hst2⟩ := storeNewText_resolved note s.db s.noteTextEdit hres
  unfold MainWindow.afterRestoreWrite MainWindow.restoredNote MainWindow.beforeRestoreWrite
  generalize note.storeNewText s.db s.noteTextEdit = p at hst1 hst2 ⊢
  obtain ⟨db1, n⟩ := p
  simp only at hst1 hst2
  have hnf : n.fileName = s.currentNote.fileName := by rw [hst2]; exact hcur
  have hnt : n.noteText = s.noteTextEdit := by rw [hst2]
  have hnid : n.id = note.id := by rw [hst2]
  have hsave := saveNote_new_file
    ({ s with log := s.log ++ [Event.removedDialog s.watcherBlocked], watcherBlocked := true,
              db := db1 } : MainWindow) n
    (by rw [hnf]; exact hgone) hdir (by rw [hnid]; exact hres)
  obtain ⟨h1, h2, h3, h4, h5, h6, h7, h8, _⟩ := hsave
  rw [hnf] at h1 h4 h5
  rw [hnt] at h1
  refine ⟨?_, ?_, ?_, ?_, ?_, ?_, ?_, ?_⟩
  · rw [showStatusBarMessage_disk]
    exact h1
  · rw [showStatusBarMessage_db, h2]
    intro m hm hdirty
    rcases mem_updateRow_ne hm with hm1 | ⟨hm1, hmid⟩
    · rw [hm1] at hdirty
      exact Bool.noConfusion hdirty
    · have hm1' : m ∈ db1.notes := hm1
      rw [hst1] at hm1'
      rcases mem_updateRow_ne hm1' with hm2 | ⟨hm2, _⟩
      · rw [hm2] at hmid
        exact absurd hnid.symm hmid
      · intro hfn
        exact hmid ((hunique m hm2 hfn).trans hnid.symm)
  · rw [showStatusBarMessage_currentNote, h6]
  · rw [showStatusBarMessage_noteTextEdit, h7]
  · rw [showStatusBarMessage_notesPath, h8]
  · rw [showStatusBarMessage_db, h3]
    show db1.lastId = s.db.lastId
    rw [hst1]
  · rw [showStatusBarMessage_log, h5]
    simp
  · exact h4

/-- C7, amended: a file-changed event for the current note whose file is
gone opens the message box "Note was removed externally!" (one dialog entry
in the trace).  On Restore, given that the notes folder exists, the file is a
note file that the scan lists and the index has no second note of that
file name: the file exists again and holds the editor text; the index and
the list are those rebuilt from the state in which the file was written;
the current note is the row that the rebuilt index resolves for the file
name, with an id handed out after the event and with the editor text as
its text; the editor text is as before.  On any other answer the state is
the state before plus the dialog entry: nothing is written. -/
theorem notesWereModified_removed (u : User) (s : MainWindow) (str : String)
    (hcur : (Note.fetchByFileName s.db (fileNameOfPath str)).fileName = s.currentNote.fileName)
    (hres : 0 < (Note.fetchByFileName s.db (fileNameOfPath str)).id)
    (hgone : s.disk.lookup s.notesPath s.currentNote.fileName = none)
    (hdir : s.notesPath ∈ s.disk.dirs)
    (hfilter : matchesNoteFilters s.currentNote.fileName = true)
    (hvisible : isHiddenFileName s.currentNote.fileName = false)
    (hunique : ∀ m ∈ s.db.notes, m.fileName = s.currentNote.fileName →
      m.id = (Note.fetchByFileName s.db (fileNameOfPath str)).id) :
    (MainWindow.notesWereModified u s str).log.filter Event.isDialog
        = s.log.filter Event.isDialog ++ [Event.removedDialog s.watcherBlocked]
      ∧ (u.restoreChoice = 0 →
          (MainWindow.notesWereModified u s str).disk.read s.notesPath s.currentNote.fileName
              = some s.noteTextEdit
            ∧ (∃ written : MainWindow,
                written.disk.read s.notesPath s.currentNote.fileName = some s.noteTextEdit
                ∧ written.db.lastId = s.db.lastId
                ∧ (MainWindow.notesWereModified u s str).db = written.buildNotesIndex.db
                ∧ (MainWindow.notesWereModified u s str).notesListWidget
                    = written.buildNotesIndex.loadNoteDirectoryList.notesListWidget)
            ∧ findByFileName s.currentNote.fileName (MainWindow.notesWereModified u s str).db.notes
                = some (MainWindow.notesWereModified u s str).currentNote
            ∧ s.db.lastId < (MainWindow.notesWereModified u s str).currentNote.id
            ∧ (MainWindow.notesWereModified u s str).currentNote.noteText = s.noteTextEdit
            ∧ (MainWindow.notesWereModified u s str).noteTextEdit = s.noteTextEdit)
      ∧ (u.restoreChoice ≠ 0 →
          MainWindow.notesWereModified u s str
            = { s with log := s.log ++ [Event.removedDialog s.watcherBlocked] }) := by
  have hex : (Note.fetchByFileName s.db (fileNameOfPath str)).fileExists s.notesPath s.disk
      = false := by
    unfold Note.fileExists Disk.fileExists
    rw [hcur, hgone]
    rfl
  have hcancel : u.restoreChoice ≠ 0 → MainWindow.notesWereModified u s str
      = { s with log := s.log ++ [Event.removedDialog s.watcherBlocked] } := by
    intro hc
    unfold MainWindow.notesWereModified
    simp only [hcur, hex, hc, if_true, Bool.false_eq_true, if_false]
  by_cases hrestore : u.restoreChoice = 0
  · obtain ⟨w1, w2, w3, w4, w5, w6, w7, w8⟩ := afterRestoreWrite_spec s
      (Note.fetchByFileName s.db (fileNameOfPath str)) hcur hres hgone hdir hunique
    obtain ⟨S, hS, r1', r2', r3', r4', r5', r6'⟩ :=
      notesWereModified_restore_fields u s str hcur hgone hrestore
    generalize MainWindow.notesWereModified u s str = r at r1' r2' r3' r4' r5' r6' hcancel ⊢
    generalize s.afterRestoreWrite (Note.fetchByFileName s.db (fileNameOfPath str)) = W
      at hS w1 w2 w3 w4 w5 w6 w7
    generalize s.restoredNote (Note.fetchByFileName s.db (fileNameOfPath str)) = X at hS w8
    have hb := buildNotesIndex_holds W s.currentNote.fileName s.noteTextEdit
      (by rw [w5]; exact w1) w2 hfilter hvisible (by rw [w3])
    rw [w5] at hb
    obtain ⟨b1, b2, b3⟩ := hb
    have hfr := buildNotesIndex_frame W
    have hL := loadNoteDirectoryList_fields W.buildNotesIndex
    have hrr := rebuild_reselect W false
    have hid := (hrr.2.2.2.2.1 _ (by rw [w3]; exact b2)).2.1
    rw [w6] at hid
    have hne : W.buildNotesIndex.db.notes ≠ [] := List.ne_nil_of_mem (findByFileName_some b2).1
    have hbfn : W.buildNotesIndex.currentNote.fileName = s.currentNote.fileName :=
      (findByFileName_some b2).2
    have hre : ∀ n : Note, n.fileName = s.currentNote.fileName →
        n.refetch W.buildNotesIndex.db = W.buildNotesIndex.currentNote := by
      intro n hn
      unfold Note.refetch
      rw [hn, b2]
      rfl
    rw [hL.1, hre X w8] at hS
    obtain ⟨s1, s2, s3, s4, s5, s6⟩ := setCurrentNote_fields
      W.buildNotesIndex.loadNoteDirectoryList W.buildNotesIndex.currentNote false true true
    rw [hL.1, hre _ hbfn] at s2
    rw [← hS] at s1 s2 s3 s4 s5 s6
    have r1 : r.log = W.buildNotesIndex.log := r1'.trans (s3.trans hL.2.2.1)
    have r2 : r.disk = W.buildNotesIndex.disk := r2'.trans (s4.trans hL.2.2.2.1)
    have r3 : r.db = W.buildNotesIndex.db := r3'.trans (s1.trans hL.1)
    have r4 : r.notesListWidget = W.buildNotesIndex.loadNoteDirectoryList.notesListWidget :=
      r4'.trans s5
    have r5 : r.currentNote = W.buildNotesIndex.currentNote := r5'.trans s2
    have r6 : r.noteTextEdit = s.noteTextEdit := by
      rw [r6', s6, hL.2.2.2.2.2, if_neg hne, hfr.1, w4]
      rfl
    refine ⟨?_, fun _ => ⟨?_, ⟨W, Disk.read_of_holds _ _ _ _ w1, w6, r3, r4⟩, ?_, ?_, ?_, r6⟩,
      hcancel⟩
    · rw [r1, hfr.2.1, w7]
      simp [Event.isDialog]
    · rw [r2]; exact b1
    · rw [r3, r5]; exact b2
    · rw [r5]; exact hid
    · rw [r5]; exact b3
  · rw [hcancel hrestore]
    exact ⟨by simp [Event.isDialog], fun h => absurd h hrestore, fun _ => rfl⟩

theorem setCurrentNote_currentRow (s : MainWindow) (note : Note) (u hist : Bool) :
    (s.setCurrentNote note u true hist).currentRow
      = (match findItemRow note.name s.notesListWidget with
         | some i => (i : Int)
         | none => s.currentRow) := by
  unfold MainWindow.setCurrentNote MainWindow.updateEncryptNoteButtons
    MainWindow.setNoteTextFromNote
  by_cases h1 : (hist && note.noteExists s.db) = true <;> by_cases h3 : u = true <;>
    simp only [h1, h3, if_true, if_false, Bool.false_eq_true, Bool.not_false, Bool.not_true] <;>
    split <;> rfl

theorem loadNoteDirectoryList_currentRow (s : MainWindow) :
    s.loadNoteDirectoryList.currentRow = -1 := by
  rw [load_eq]

/-- The list selection after rebuilding and re-selecting: the row of the
first item that has the name of the current note, none if there is no such item. -/
theorem rebuild_reselect_currentRow (s : MainWindow) (u : Bool) :
    ((s.buildNotesIndex.loadNoteDirectoryList).setCurrentNote
        s.buildNotesIndex.loadNoteDirectoryList.currentNote u true true).currentRow
      = (match findItemRow s.buildNotesIndex.currentNote.name
            s.buildNotesIndex.loadNoteDirectoryList.notesListWidget with
         | some i => (i : Int)
         | none => -1) := by
  rw [setCurrentNote_currentRow, loadNoteDirectoryList_currentRow,
    (loadNoteDirectoryList_fields s.buildNotesIndex).2.1]

/-- C7 as stated fails: the notes folder was removed together with the file
of the open note "A" (editor text "hello"); the event is one for the current
note, the message box opens and the user answers Restore.  The write fails,
its result is not looked at, and the rebuild runs on: no file is recreated,
the index is empty, the current note has no row in it, and the editor is
cleared. -/
theorem restore_without_folder_recreates_nothing :
    (Note.fetchByFileName scenarioFolderRemoved.db (fileNameOfPath "/notes/A.md")).fileName
        = scenarioFolderRemoved.currentNote.fileName
      ∧ scenarioFolderRemoved.disk.lookup "/notes" "A.md" = none
      ∧ scenarioFolderRemoved.noteTextEdit = "hello"
      ∧ (MainWindow.notesWereModified userRestore scenarioFolderRemoved "/notes/A.md").log.filter
            Event.isDialog = [Event.removedDialog false]
      ∧ (MainWindow.notesWereModified userRestore scenarioFolderRemoved "/notes/A.md").disk.read
            "/notes" "A.md" = none
      ∧ (MainWindow.notesWereModified userRestore scenarioFolderRemoved "/notes/A.md").db.notes
          = []
      ∧ (MainWindow.notesWereModified userRestore scenarioFolderRemoved
            "/notes/A.md").notesListWidget = []
      ∧ (MainWindow.notesWereModified userRestore scenarioFolderRemoved
            "/notes/A.md").noteTextEdit = "" := by
  decide

/-- C7, amended, at a concrete state: the file of the open note "A" was
removed and the notes folder exists; the user answers Restore: the file
holds the editor text "hello" again, the current note is the re-fetched
row, and the editor text is as before. -/
theorem notesWereModified_removed_witness :
    (MainWindow.notesWereModified userRestore scenarioRemoved "/notes/A.md").disk.read
        "/notes" "A.md" = some "hello"
      ∧ scenarioRemoved.db.lastId
          < (MainWindow.notesWereModified userRestore scenarioRemoved "/notes/A.md").currentNote.id
      ∧ (MainWindow.notesWereModified userRestore scenarioRemoved "/notes/A.md").noteTextEdit
          = "hello" :=
  ⟨((notesWereModified_removed userRestore scenarioRemoved "/notes/A.md" (by decide) (by decide)
      (by decide) (by decide) (by decide) (by decide) (by decide)).2.1 rfl).1,
   ((notesWereModified_removed userRestore scenarioRemoved "/notes/A.md" (by decide) (by decide)
      (by decide) (by decide) (by decide) (by decide) (by decide)).2.1 rfl).2.2.2.1,
   ((notesWereModified_removed userRestore scenarioRemoved "/notes/A.md" (by decide) (by decide)
      (by decide) (by decide) (by decide) (by decide) (by decide)).2.1 rfl).2.2.2.2.2⟩

/-- The trace of the flush: the writes of the dirty notes, then the wait of
100 ms when a note was written, all with the watcher blocked. -/
theorem storeUpdatedNotesToDisk_log (s : MainWindow) :
    s.storeUpdatedNotesToDisk.log
      = s.log ++ (Note.storeDirtyNotesToDisk s.notesPath s.disk s.db s.now).2.2.map
            (fun a => Event.fileWrite a.1 a.2 true)
          ++ (if 0 < writtenCount (Note.storeDirtyNotesToDisk s.notesPath s.disk s.db s.now).2.2
              then [Event.wait 100 true] else []) := by
  unfold MainWindow.storeUpdatedNotesToDisk
  by_cases hc : 0 < writtenCount (Note.storeDirtyNotesToDisk s.notesPath s.disk s.db s.now).2.2
  · simp only [hc, if_true]
    rw [showStatusBarMessage_eq]
    simp only [MainWindow.waitMsecs]
    split
    · split
      · rw [makeFirst_eq]
      · rfl
    · rw [load_eq]
  · simp only [hc, if_false, List.append_nil]

theorem storeUpdatedNotesToDisk_disk (s : MainWindow) :
    s.storeUpdatedNotesToDisk.disk = (Note.storeDirtyNotesToDisk s.notesPath s.disk s.db s.now).1
      ∧ s.storeUpdatedNotesToDisk.db
          = (Note.storeDirtyNotesToDisk s.notesPath s.disk s.db s.now).2.1
      ∧ s.storeUpdatedNotesToDisk.notesPath = s.notesPath := by
  obtain ⟨cur1, lg, nv, sb, now1, l, r, v, wd, wf, hs, -, -⟩ := storeUpdatedNotesToDisk_shape s
  rw [hs]
  exact ⟨rfl, rfl, rfl⟩

theorem storeDirtyNotesToDisk_clean (notesPath : String) (disk : Disk) (db : NoteIndex)
    (now : Nat) (hclean : ∀ n ∈ db.notes, n.hasDirtyData = false) :
    Note.storeDirtyNotesToDisk notesPath disk db now = (disk, db, []) := by
  unfold Note.storeDirtyNotesToDisk
  have hf : db.notes.filter (fun n => n.hasDirtyData) = [] := by
    rw [List.filter_eq_nil_iff]
    intro n hn
    rw [hclean n hn]
    exact Bool.false_ne_true
  rw [hf]
  rfl

/-- C11: in the conflict path of `notesWereModified` with the answer
Overwrite, and in the autosave flush `storeUpdatedNotesToDisk` of any state,
the entries the operation adds to the trace are its writes of note files,
each made with the watcher blocked, followed by a wait of 100 ms with the
watcher still blocked (after Overwrite always, after the flush when at least
one note was written); the disk after the flush is the disk these writes
leave; and afterwards the watcher is blocked exactly if it was before. -/
theorem own_writes_made_with_watcher_blocked (u : User) (s t : MainWindow) (str d : String)
    (hcur : (Note.fetchByFileName s.db (fileNameOfPath str)).fileName = s.currentNote.fileName)
    (hdisk : s.disk.read s.notesPath s.currentNote.fileName = some d)
    (hne : s.noteTextEdit ≠ d) (hconf : s.promptNeeded)
    (hchoice : u.diffChoice s.noteTextEdit d = NoteDiffDialog.Overwrite) :
    (∃ written : Bool, (MainWindow.notesWereModified u s str).log
        = s.log ++ [Event.diffDialog s.noteTextEdit d s.watcherBlocked,
            Event.fileWrite s.currentNote.fileName written true, Event.wait 100 true])
      ∧ (MainWindow.notesWereModified u s str).watcherBlocked = s.watcherBlocked
      ∧ t.storeUpdatedNotesToDisk.log
          = t.log ++ (Note.storeDirtyNotesToDisk t.notesPath t.disk t.db t.now).2.2.map
                (fun a => Event.fileWrite a.1 a.2 true)
              ++ (if 0 < writtenCount (Note.storeDirtyNotesToDisk t.notesPath t.disk t.db t.now).2.2
                  then [Event.wait 100 true] else [])
      ∧ t.storeUpdatedNotesToDisk.disk
          = (Note.storeDirtyNotesToDisk t.notesPath t.disk t.db t.now).1
      ∧ t.storeUpdatedNotesToDisk.watcherBlocked = t.watcherBlocked := by
  have hfr := openNoteDiffDialog_frame u
    (s.showStatusBarMessage StatusText.currentNoteModifiedExternally 3000)
    ((Note.fetchByFileName s.db (fileNameOfPath str)).withDiskText d)
  refine ⟨?_, ?_, storeUpdatedNotesToDisk_log t, (storeUpdatedNotesToDisk_disk t).1, rfl⟩
  · rw [notesWereModified_conflict u s str d hcur hdisk hne hconf]
    obtain ⟨w, hw⟩ := applyDiffResult_log (MainWindow.openNoteDiffDialog u
      (s.showStatusBarMessage StatusText.currentNoteModifiedExternally 3000)
      ((Note.fetchByFileName s.db (fileNameOfPath str)).withDiskText d)).1
      ((Note.fetchByFileName s.db (fileNameOfPath str)).withDiskText d)
      (u.diffChoice s.noteTextEdit d)
    refine ⟨w, ?_⟩
    rw [hw, notesWereModified_dialog_log u s str d hcur hdisk, hfr.1, if_pos hchoice]
    simp
  · rw [notesWereModified_conflict u s str d hcur hdisk hne hconf,
      applyDiffResult_watcherBlocked, hfr.2.2.2.2.2.2.1]
    simp

/-- C11, at concrete states: the user picks Overwrite for note "A", and the
flush runs in the state with one dirty note. -/
theorem own_writes_made_with_watcher_blocked_witness :
    (MainWindow.notesWereModified userOverwrite scenarioA "/notes/A.md").log
        = [Event.diffDialog "hello" "hello world" false, Event.fileWrite "A.md" true true,
           Event.wait 100 true]
      ∧ scenarioDirty.storeUpdatedNotesToDisk.log
          = [Event.fileWrite "A.md" true true, Event.wait 100 true]
      ∧ scenarioDirty.storeUpdatedNotesToDisk.watcherBlocked = false := by
  have h := own_writes_made_with_watcher_blocked userOverwrite scenarioA scenarioDirty
    "/notes/A.md" "hello world" (by decide) (by decide) (by decide) (Or.inl (by decide))
    (by decide)
  refine ⟨by decide, ?_, ?_⟩
  · rw [h.2.2.1]; decide
  · rw [h.2.2.2.2]; decide

/-- C12: when no note of the index is dirty, the flush counts no written
note and `storeUpdatedNotesToDisk` returns the state it was given: disk,
index, current note, note list, view flag, status bar message, clock and
trace (so no write and no wait) are as before. -/
theorem storeUpdatedNotesToDisk_nothing_dirty (s : MainWindow)
    (hclean : ∀ n ∈ s.db.notes, n.hasDirtyData = false) :
    writtenCount (Note.storeDirtyNotesToDisk s.notesPath s.disk s.db s.now).2.2 = 0
      ∧ s.storeUpdatedNotesToDisk = s := by
  have h := storeDirtyNotesToDisk_clean s.notesPath s.disk s.db s.now hclean
  constructor
  · rw [h]; rfl
  · unfold MainWindow.storeUpdatedNotesToDisk
    simp only [h]
    simp [writtenCount]

/-- C12, at a concrete state: note "A" is open and saved. -/
theorem storeUpdatedNotesToDisk_nothing_dirty_witness :
    writtenCount (Note.storeDirtyNotesToDisk scenarioSpurious.notesPath scenarioSpurious.disk
        scenarioSpurious.db scenarioSpurious.now).2.2 = 0
      ∧ scenarioSpurious.storeUpdatedNotesToDisk = scenarioSpurious :=
  storeUpdatedNotesToDisk_nothing_dirty scenarioSpurious (by decide)

/-! ### The flush before the wipe -/

theorem rebuiltRows_crypto (files : List DiskFile) :
    ∀ (k : Nat) (n : Note), n ∈ rebuiltRows k files → n.cryptoKey = 0 ∧ n.cryptoPassword = "" := by
  induction files with
  | nil => intro k n h; simp [rebuiltRows] at h
  | cons f fs ih =>
    intro k n h
    simp only [rebuiltRows, List.mem_cons] at h
    rcases h with h | h
    · rw [h]; exact ⟨rfl, rfl⟩
    · exact ih (k + 1) n h

theorem Note.store_crypto (n : Note) (db : NoteIndex) :
    (n.store db).2.cryptoKey = n.cryptoKey ∧ (n.store db).2.cryptoPassword = n.cryptoPassword := by
  unfold Note.store
  split <;> exact ⟨rfl, rfl⟩

/-- The crypto key of the current note after the rebuild is the key it had before. -/
theorem rebuildIndex_cryptoKey (db1 : NoteIndex) (cur1 : Note) (files1 : List DiskFile) :
    (rebuildIndex db1 cur1 files1).2.cryptoKey = cur1.cryptoKey := by
  unfold rebuildIndex
  by_cases hk : cur1.cryptoKey ≠ 0
  · rw [if_pos hk]
    exact (Note.store_crypto _ _).1
  · rw [if_neg hk]
    rcases refetch_cases cur1 (createdIndex db1 files1) with ⟨h, _⟩ | h
    · rw [h]
    · have hm := (findByFileName_some h).1
      rw [createdIndex_notes] at hm
      rw [(rebuiltRows_crypto _ _ _ hm).1]
      exact (not_not.mp hk).symm

/-- With a crypto key other than 0 the password of the current note is put back. -/
theorem rebuildIndex_cryptoPassword (db1 : NoteIndex) (cur1 : Note) (files1 : List DiskFile)
    (hk : cur1.cryptoKey ≠ 0) :
    (rebuildIndex db1 cur1 files1).2.cryptoPassword = cur1.cryptoPassword := by
  unfold rebuildIndex
  rw [if_pos hk]
  exact (Note.store_crypto _ _).2

/-- With the crypto key 0 a current note that the rebuilt index resolves has no password. -/
theorem rebuildIndex_password_dropped (db1 : NoteIndex) (cur1 : Note) (files1 : List DiskFile)
    (row : Note) (hk : cur1.cryptoKey = 0)
    (h : findByFileName cur1.fileName (rebuildIndex db1 cur1 files1).1.notes = some row) :
    (rebuildIndex db1 cur1 files1).2.cryptoPassword = "" := by
  rw [rebuildIndex_resolved db1 cur1 files1 row h]
  have hm := (findByFileName_some h).1
  unfold rebuildIndex at hm
  rw [if_neg (not_not.mpr hk), createdIndex_notes] at hm
  exact (rebuiltRows_crypto _ _ _ hm).2

/-- C14 as stated fails: the open note "A" carries the password "secret"
and the key 0 before the wipe; after `buildNotesIndex` the current note is
the re-resolved note "A" and its password is empty. -/
theorem password_without_key_is_dropped :
    scenarioPasswordOnly.storeUpdatedNotesToDisk.currentNote.cryptoKey = 0
      ∧ scenarioPasswordOnly.storeUpdatedNotesToDisk.currentNote.cryptoPassword = "secret"
      ∧ scenarioPasswordOnly.buildNotesIndex.currentNote.fileName = "A.md"
      ∧ scenarioPasswordOnly.buildNotesIndex.currentNote.id = 2
      ∧ scenarioPasswordOnly.buildNotesIndex.currentNote.cryptoPassword = "" := by
  decide

/-- C14, amended: after `buildNotesIndex` the current note carries the
crypto key that the current note carried when the index was wiped (that is,
after the flush); when that key is not 0 it also carries the same password;
when the key is 0 and the rebuilt index resolves the file name of the
current note, the password of the current note is empty. -/
theorem buildNotesIndex_keeps_crypto_key (s : MainWindow) :
    s.buildNotesIndex.currentNote.cryptoKey = s.storeUpdatedNotesToDisk.currentNote.cryptoKey
      ∧ (s.storeUpdatedNotesToDisk.currentNote.cryptoKey ≠ 0 →
          s.buildNotesIndex.currentNote.cryptoPassword
            = s.storeUpdatedNotesToDisk.currentNote.cryptoPassword)
      ∧ (s.storeUpdatedNotesToDisk.currentNote.cryptoKey = 0 →
          ∀ row, findByFileName s.storeUpdatedNotesToDisk.currentNote.fileName
              s.buildNotesIndex.db.notes = some row →
            s.buildNotesIndex.currentNote.cryptoPassword = "") := by
  obtain ⟨fl, dk, dc, j, hb, _⟩ := buildNotesIndex_eq s
  have hc : s.buildNotesIndex.currentNote
      = (rebuildIndex s.storeUpdatedNotesToDisk.db s.storeUpdatedNotesToDisk.currentNote fl).2 := by
    rw [hb]
  have hdb : s.buildNotesIndex.db
      = (rebuildIndex s.storeUpdatedNotesToDisk.db s.storeUpdatedNotesToDisk.currentNote fl).1 := by
    rw [hb]
  rw [hc, hdb]
  exact ⟨rebuildIndex_cryptoKey _ _ _, rebuildIndex_cryptoPassword _ _ _,
    fun hk row hrow => rebuildIndex_password_dropped _ _ _ row hk hrow⟩

/-- C14, amended, at a concrete state: the open note "A" carries the key 42
and the password "secret". -/
theorem buildNotesIndex_keeps_crypto_key_witness :
    scenarioEncrypted.buildNotesIndex.currentNote.cryptoKey = 42
      ∧ scenarioEncrypted.buildNotesIndex.currentNote.cryptoPassword = "secret" :=
  ⟨(buildNotesIndex_keeps_crypto_key scenarioEncrypted).1.trans (by decide),
   ((buildNotesIndex_keeps_crypto_key scenarioEncrypted).2.1 (by decide)).trans (by decide)⟩

/-! ### The demo notes -/

theorem storeUpdatedNotesToDisk_settings (s : MainWindow) :
    s.storeUpdatedNotesToDisk.demoNotesCreated = s.demoNotesCreated
      ∧ s.storeUpdatedNotesToDisk.notesPath = s.notesPath
      ∧ s.storeUpdatedNotesToDisk.jumpToWelcomeNoteScheduled = s.jumpToWelcomeNoteScheduled
      ∧ s.storeUpdatedNotesToDisk.noteHistory = s.noteHistory
      ∧ s.storeUpdatedNotesToDisk.platformLinux = s.platformLinux := by
  obtain ⟨cur1, lg, nv, sb, now1, l, r, v, wd, wf, hs, -, -⟩ := storeUpdatedNotesToDisk_shape s
  rw [hs]
  exact ⟨rfl, rfl, rfl, rfl, rfl⟩

/-- The rebuild that seeds the demo notes. -/
theorem buildNotesIndex_seeding (s : MainWindow) (hc : s.createDemoNotes = true) :
    s.buildNotesIndex.demoNotesCreated = true
      ∧ s.buildNotesIndex.jumpToWelcomeNoteScheduled = true
      ∧ s.buildNotesIndex.disk
          = demoNoteFileNames.foldl
              (copyDemoNote s.storeUpdatedNotesToDisk.now s.storeUpdatedNotesToDisk.notesPath)
              s.storeUpdatedNotesToDisk.disk
      ∧ s.buildNotesIndex.db
          = (rebuildIndex s.storeUpdatedNotesToDisk.db s.storeUpdatedNotesToDisk.currentNote
              (entryList s.buildNotesIndex.disk s.storeUpdatedNotesToDisk.notesPath)).1
      ∧ s.buildNotesIndex.currentNote
          = (rebuildIndex s.storeUpdatedNotesToDisk.db s.storeUpdatedNotesToDisk.currentNote
              (entryList s.buildNotesIndex.disk s.storeUpdatedNotesToDisk.notesPath)).2
      ∧ s.buildNotesIndex.notesPath = s.storeUpdatedNotesToDisk.notesPath := by
  unfold MainWindow.createDemoNotes at hc
  unfold MainWindow.buildNotesIndex rebuildIndex createdIndex
  generalize s.storeUpdatedNotesToDisk = s1 at hc ⊢
  generalize hdemo : demoNoteFileNames.foldl (copyDemoNote s1.now s1.notesPath) s1.disk = dd
  by_cases hk : s1.currentNote.cryptoKey = 0
  · simp only [hc, hk, hdemo, if_true, ne_eq, not_true_eq_false, if_false]
    exact ⟨trivial, trivial, trivial, trivial, trivial, trivial⟩
  · simp only [hc, hk, hdemo, if_true, ne_eq, not_false_eq_true]
    exact ⟨trivial, trivial, trivial, trivial, trivial, trivial⟩

/-- The rebuild that does not seed the demo notes. -/
theorem buildNotesIndex_not_seeding (s : MainWindow) (hc : s.createDemoNotes = false) :
    s.buildNotesIndex.demoNotesCreated = s.storeUpdatedNotesToDisk.demoNotesCreated
      ∧ s.buildNotesIndex.jumpToWelcomeNoteScheduled
          = s.storeUpdatedNotesToDisk.jumpToWelcomeNoteScheduled
      ∧ s.buildNotesIndex.disk = s.storeUpdatedNotesToDisk.disk
      ∧ s.buildNotesIndex.db
          = (rebuildIndex s.storeUpdatedNotesToDisk.db s.storeUpdatedNotesToDisk.currentNote
              (entryList s.buildNotesIndex.disk s.storeUpdatedNotesToDisk.notesPath)).1
      ∧ s.buildNotesIndex.currentNote
          = (rebuildIndex s.storeUpdatedNotesToDisk.db s.storeUpdatedNotesToDisk.currentNote
              (entryList s.buildNotesIndex.disk s.storeUpdatedNotesToDisk.notesPath)).2
      ∧ s.buildNotesIndex.notesPath = s.storeUpdatedNotesToDisk.notesPath := by
  unfold MainWindow.createDemoNotes at hc
  unfold MainWindow.buildNotesIndex rebuildIndex createdIndex
  generalize s.storeUpdatedNotesToDisk = s1 at hc ⊢
  by_cases hk : s1.currentNote.cryptoKey = 0
  · simp only [hc, hk, if_true, ne_eq, not_true_eq_false, if_false, Bool.false_eq_true]
    exact ⟨trivial, trivial, trivial, trivial, trivial, trivial⟩
  · simp only [hc, hk, if_true, ne_eq, not_false_eq_true, if_false, Bool.false_eq_true]
    exact ⟨trivial, trivial, trivial, trivial, trivial, trivial⟩

/-- Once the demo notes were created, no rebuild creates them again: a run
of rebuilds seeds at most once, and not at all when the flag is set. -/
theorem rebuildRun_le (ws : List (String × Disk)) :
    ∀ s : MainWindow, (rebuildRun ws s).2 ≤ (if s.demoNotesCreated then 0 else 1) := by
  induction ws with
  | nil => intro s; simp [rebuildRun]
  | cons w ws ih =>
    intro s
    simp only [rebuildRun]
    have hd : ({ s with notesPath := w.1, disk := w.2 } : MainWindow).demoNotesCreated
        = s.demoNotesCreated := rfl
    generalize ({ s with notesPath := w.1, disk := w.2 } : MainWindow) = s1 at hd ⊢
    rw [← hd]
    have hset := storeUpdatedNotesToDisk_settings s1
    have hi := ih s1.buildNotesIndex
    cases hc : s1.createDemoNotes with
    | true =>
      have hflag : s1.demoNotesCreated = false := by
        have h2 := hc
        unfold MainWindow.createDemoNotes at h2
        rw [hset.1] at h2
        have h3 := ((Bool.and_eq_true _ _).mp h2).2
        simpa using h3
      rw [(buildNotesIndex_seeding _ hc).1] at hi
      simp only [hflag, if_true, Bool.false_eq_true, if_false] at hi ⊢
      omega
    | false =>
      rw [(buildNotesIndex_not_seeding _ hc).1, hset.1] at hi
      simp only [Bool.false_eq_true, if_false, Nat.zero_add]
      exact hi

/-- C15: `buildNotesIndex` seeds the demo notes exactly when the listing of
the (flushed) notes folder is empty and the flag `demoNotesCreated` is not
set.  When it seeds, the flag is set, the three demo notes are copied into
the notes folder, and the index is built from a new listing of the folder;
when it does not, flag and disk are those after the flush and the index is
built from the listing.  Over a run of rebuilds, whatever the folder and the
disk are before each rebuild, the seeding happens at most once. -/
theorem buildNotesIndex_seeds_once (s : MainWindow) (ws : List (String × Disk)) :
    (s.createDemoNotes = true ↔
        entryList s.storeUpdatedNotesToDisk.disk s.notesPath = [] ∧ s.demoNotesCreated = false)
      ∧ (s.createDemoNotes = true →
          s.buildNotesIndex.demoNotesCreated = true
            ∧ s.buildNotesIndex.disk
                = demoNoteFileNames.foldl (copyDemoNote s.storeUpdatedNotesToDisk.now s.notesPath)
                    s.storeUpdatedNotesToDisk.disk
            ∧ s.buildNotesIndex.db
                = (rebuildIndex s.storeUpdatedNotesToDisk.db s.storeUpdatedNotesToDisk.currentNote
                    (entryList s.buildNotesIndex.disk s.notesPath)).1)
      ∧ (s.createDemoNotes = false →
          s.buildNotesIndex.demoNotesCreated = s.demoNotesCreated
            ∧ s.buildNotesIndex.disk = s.storeUpdatedNotesToDisk.disk
            ∧ s.buildNotesIndex.db
                = (rebuildIndex s.storeUpdatedNotesToDisk.db s.storeUpdatedNotesToDisk.currentNote
                    (entryList s.storeUpdatedNotesToDisk.disk s.notesPath)).1)
      ∧ demoNoteFileNames.length = 3
      ∧ (rebuildRun ws s).2 ≤ 1 := by
  have hset := storeUpdatedNotesToDisk_settings s
  refine ⟨?_, ?_, ?_, rfl, ?_⟩
  · unfold MainWindow.createDemoNotes
    rw [hset.1, hset.2.1]
    simp [List.isEmpty_iff]
  · intro hc
    obtain ⟨h1, _, h3, h4, _, _⟩ := buildNotesIndex_seeding s hc
    rw [hset.2.1] at h3 h4
    exact ⟨h1, h3, h4⟩
  · intro hc
    obtain ⟨h1, _, h3, h4, _, _⟩ := buildNotesIndex_not_seeding s hc
    rw [hset.2.1] at h4
    rw [hset.1] at h1
    rw [h3] at h4
    exact ⟨h1, h3, h4⟩
  · have h := rebuildRun_le ws s
    split at h <;> omega

/-- C15, at a concrete state: at the first start with an empty notes folder
the three demo notes are created and indexed; a second rebuild after the
folder was emptied again creates nothing. -/
theorem buildNotesIndex_seeds_once_witness :
    scenarioFirstRun.buildNotesIndex.demoNotesCreated = true
      ∧ scenarioFirstRun.buildNotesIndex.db.notes.map (fun n => n.fileName) = demoNoteFileNames
      ∧ (rebuildRun [("/notes", scenarioFirstRun.disk), ("/notes", scenarioFirstRun.disk)]
          scenarioFirstRun).1.db.notes = []
      ∧ (rebuildRun [("/notes", scenarioFirstRun.disk), ("/notes", scenarioFirstRun.disk)]
          scenarioFirstRun).2 = 1 :=
  ⟨((buildNotesIndex_seeds_once scenarioFirstRun []).2.1 (by decide)).1, by decide, by decide,
   by decide⟩

/-! ### The watch set -/

/-- The watch loop on Linux: the paths of the first 201 file names that
exist, added in order. -/
theorem watchNoteFiles_linux (notesPath : String) (disk : Disk) (names : List String) :
    ∀ (count : Nat) (acc : List String), count ≤ 201 →
      watchNoteFiles true notesPath disk names count acc
        = (((names.filter (fun n => disk.fileExists notesPath n)).take (201 - count)).map
            (getFullNoteFilePathForFile notesPath)).foldl addPath acc := by
  induction names with
  | nil => intro count acc _; simp [watchNoteFiles]
  | cons n rest ih =>
    intro count acc hc
    unfold watchNoteFiles
    by_cases h200 : 200 < count
    · have h0 : 201 - count = 0 := by omega
      simp [h200, h0]
    · have hs : 201 - count = (200 - count) + 1 := by omega
      by_cases hex : disk.fileExists notesPath n = true
      · simp only [h200, decide_False, Bool.and_false, Bool.false_eq_true, if_false, hex, if_true]
        rw [ih (count + 1) _ (by omega), List.filter_cons_of_pos (by simpa using hex), hs,
          List.take_succ_cons, List.map_cons, List.foldl_cons]
        have h1 : 201 - (count + 1) = 200 - count := by omega
        rw [h1]
      · simp only [h200, decide_False, Bool.and_false, Bool.false_eq_true, if_false, hex]
        rw [ih count _ hc, List.filter_cons_of_neg (by simpa using hex)]

theorem addPath_foldl_nodup (l : List String) :
    ∀ acc : List String, (acc ++ l).Nodup → l.foldl addPath acc = acc ++ l := by
  induction l with
  | nil => intro acc _; simp
  | cons p l ih =>
    intro acc h
    have hp : p ∉ acc := by
      intro hm
      have := List.nodup_append.mp h
      exact this.2.2 hm (List.mem_cons_self _ _)
    have ha : addPath acc p = acc ++ [p] := by
      unfold addPath
      rw [if_neg hp]
    rw [List.foldl_cons, ha, ih (acc ++ [p]) (by simpa using h)]
    simp

/-- The watch set after `loadNoteDirectoryList`: the notes folder when it
exists, and the files the watch loop adds for the file names of the index. -/
theorem loadNoteDirectoryList_watcher (s : MainWindow) :
    s.loadNoteDirectoryList.watcherDirectories
        = (if s.notesPath ∈ s.disk.dirs then [s.notesPath] else [])
      ∧ s.loadNoteDirectoryList.watcherFiles
        = watchNoteFiles s.platformLinux s.notesPath s.disk (Note.fetchNoteFileNames s.db) 0 []
      ∧ s.loadNoteDirectoryList.platformLinux = s.platformLinux
      ∧ s.loadNoteDirectoryList.noteHistory = s.noteHistory := by
  unfold MainWindow.loadNoteDirectoryList
  by_cases h1 : (Note.fetchAll s.db).isEmpty = true <;>
    by_cases h2 : s.sortAlphabetically = true <;>
    simp only [h1, h2, if_true, if_false, Bool.false_eq_true] <;>
    exact ⟨trivial, trivial, trivial, trivial⟩

theorem numberedFileName_injective : Function.Injective numberedFileName := by
  intro i j h
  have h1 := congrArg (fun s : String => s.data.length) h
  simp [numberedFileName] at h1
  exact h1

theorem getFullNoteFilePathForFile_injective (notesPath : String) :
    Function.Injective (getFullNoteFilePathForFile notesPath) := by
  intro a b h
  unfold getFullNoteFilePathForFile at h
  have h1 := congrArg String.data h
  simp only [String.data_append] at h1
  exact String.ext (List.append_cancel_left h1)

theorem fileExists_of_mem (d : Disk) (f : DiskFile) (h : f ∈ d.files) :
    d.fileExists f.dir f.fileName = true := by
  unfold Disk.fileExists Disk.lookup
  cases hf : findFile f.dir f.fileName d.files with
  | none => exact absurd ⟨rfl, rfl⟩ (findFile_none hf f h)
  | some g => rfl

theorem scenarioManyNotes_names :
    (Note.fetchNoteFileNames scenarioManyNotes.db).Perm ((List.range 250).map numberedFileName) := by
  unfold Note.fetchNoteFileNames Note.fetchAll
  have h1 : scenarioManyNotes.db.notes.map (fun n => n.fileName)
      = (List.range 250).map numberedFileName := by
    unfold scenarioManyNotes
    simp only [List.map_map]
    rfl
  rw [← h1]
  exact (List.perm_insertionSort _ _).map _

theorem scenarioManyNotes_exist (n : String)
    (hn : n ∈ Note.fetchNoteFileNames scenarioManyNotes.db) :
    scenarioManyNotes.disk.fileExists "/notes" n = true := by
  have h1 := (scenarioManyNotes_names.mem_iff).mp hn
  obtain ⟨i, hi, hin⟩ := List.mem_map.mp h1
  have hf : ({ dir := "/notes", fileName := n, text := "text", lastModified := 1000 } : DiskFile)
      ∈ scenarioManyNotes.disk.files := by
    unfold scenarioManyNotes
    exact List.mem_map.mpr ⟨i, hi, by rw [hin]⟩
  exact fileExists_of_mem _ _ hf

/-- C16, the failing input evaluated: on Linux, with 250 indexed note files
that all exist, `loadNoteDirectoryList` watches the notes folder and the
first 201 note files in the order of `Note::fetchNoteFileNames`. -/
theorem watch_set_holds_201_note_files :
    scenarioManyNotes.platformLinux = true
      ∧ (Note.fetchNoteFileNames scenarioManyNotes.db).length = 250
      ∧ scenarioManyNotes.loadNoteDirectoryList.watcherDirectories = ["/notes"]
      ∧ scenarioManyNotes.loadNoteDirectoryList.watcherFiles
          = ((Note.fetchNoteFileNames scenarioManyNotes.db).take 201).map
              (getFullNoteFilePathForFile "/notes")
      ∧ scenarioManyNotes.loadNoteDirectoryList.watcherFiles.length = 201 := by
  have hlen : (Note.fetchNoteFileNames scenarioManyNotes.db).length = 250 := by
    rw [scenarioManyNotes_names.length_eq]
    simp
  have hnodup : (Note.fetchNoteFileNames scenarioManyNotes.db).Nodup :=
    scenarioManyNotes_names.nodup_iff.mpr
      ((List.nodup_range 250).map numberedFileName_injective)
  have hfilter : (Note.fetchNoteFileNames scenarioManyNotes.db).filter
      (fun n => scenarioManyNotes.disk.fileExists "/notes" n)
      = Note.fetchNoteFileNames scenarioManyNotes.db :=
    List.filter_eq_self.mpr scenarioManyNotes_exist
  have hw := loadNoteDirectoryList_watcher scenarioManyNotes
  have hfiles : scenarioManyNotes.loadNoteDirectoryList.watcherFiles
      = ((Note.fetchNoteFileNames scenarioManyNotes.db).take 201).map
          (getFullNoteFilePathForFile "/notes") := by
    rw [hw.2.1]
    have hl : scenarioManyNotes.platformLinux = true := rfl
    have hp : scenarioManyNotes.notesPath = "/notes" := rfl
    rw [hl, hp, watchNoteFiles_linux "/notes" _ _ 0 [] (by omega), hfilter]
    rw [addPath_foldl_nodup _ [] ?_]
    · simp
    · simp only [List.nil_append]
      exact ((hnodup.sublist (List.take_sublist _ _)).map
        (getFullNoteFilePathForFile_injective "/notes"))
  refine ⟨rfl, hlen, ?_, hfiles, ?_⟩
  · rw [hw.1]
    rfl
  · rw [hfiles, List.length_map, List.length_take, hlen]
    rfl

/-! ### The switch of the note folder -/

theorem storeNoteTextFileToDisk_fileNames (P : String → Prop) (n : Note) (notesPath : String)
    (disk : Disk) (db : NoteIndex) (now : Nat) (hn : P n.fileName)
    (h : ∀ m ∈ db.notes, P m.fileName) :
    ∀ m ∈ (n.storeNoteTextFileToDisk notesPath disk db now).2.1.notes, P m.fileName := by
  unfold Note.storeNoteTextFileToDisk
  split
  · unfold Note.store
    split
    · intro m hm
      rcases mem_updateRow hm with h1 | ⟨h1, _⟩
      · exact h m h1
      · rw [h1]; exact hn
    · intro m hm
      simp only [List.mem_append, List.mem_singleton] at hm
      rcases hm with h1 | h1
      · exact h m h1
      · rw [h1]; exact hn
  · exact h

/-- The flush keeps every property of the file names of the rows. -/
theorem storeDirtyNotesToDisk_fileNames (P : String → Prop) (notesPath : String) (disk : Disk)
    (db : NoteIndex) (now : Nat) (h : ∀ m ∈ db.notes, P m.fileName) :
    ∀ m ∈ (Note.storeDirtyNotesToDisk notesPath disk db now).2.1.notes, P m.fileName := by
  unfold Note.storeDirtyNotesToDisk
  refine foldl_invariant
    (fun acc : Disk × NoteIndex × List (String × Bool) => ∀ m ∈ acc.2.1.notes, P m.fileName)
    (Note.storeDirtyStep notesPath now) _ (disk, db, []) h ?_
  intro acc n hn hacc
  exact storeNoteTextFileToDisk_fileNames P n notesPath acc.1 acc.2.1 now
    (h n (List.mem_filter.mp hn).1) hacc

theorem findByFileName_none_of_forall (fileName : String) (l : List Note)
    (h : ∀ n ∈ l, n.fileName ≠ fileName) : findByFileName fileName l = none := by
  cases hf : findByFileName fileName l with
  | none => rfl
  | some m => exact absurd (findByFileName_some hf).2 (h m (findByFileName_some hf).1)

/-- The flush leaves a current note alone whose file name no row of the index has. -/
theorem storeUpdatedNotesToDisk_currentNote (s : MainWindow)
    (h : ∀ n ∈ s.db.notes, n.fileName ≠ s.currentNote.fileName) :
    s.storeUpdatedNotesToDisk.currentNote = s.currentNote := by
  obtain ⟨cur1, lg, nv, sb, now1, l, r, v, wd, wf, hs, -, hcur⟩ := storeUpdatedNotesToDisk_shape s
  have hc : s.storeUpdatedNotesToDisk.currentNote = cur1 := by rw [hs]
  rw [hc]
  rcases hcur with h1 | h1
  · exact h1
  · have hnone := findByFileName_none_of_forall s.currentNote.fileName _
      (storeDirtyNotesToDisk_fileNames (fun f => f ≠ s.currentNote.fileName) s.notesPath s.disk
        s.db s.now h)
    rw [hnone] at h1
    exact Option.noConfusion h1

theorem rebuiltRows_fileName (files : List DiskFile) :
    ∀ (k : Nat) (n : Note), n ∈ rebuiltRows k files → ∃ f ∈ files, n.fileName = f.fileName := by
  induction files with
  | nil => intro k n h; simp [rebuiltRows] at h
  | cons f fs ih =>
    intro k n h
    simp only [rebuiltRows, List.mem_cons] at h
    rcases h with h | h
    · exact ⟨f, List.mem_cons_self _ _, by rw [h]⟩
    · obtain ⟨g, hg, hgn⟩ := ih (k + 1) n h
      exact ⟨g, List.mem_cons_of_mem _ hg, hgn⟩

/-- The index after `buildNotesIndex` is built from the listing of the
notes folder as the disk holds it afterwards. -/
theorem buildNotesIndex_rescan (s : MainWindow) :
    s.buildNotesIndex.db
        = (rebuildIndex s.storeUpdatedNotesToDisk.db s.storeUpdatedNotesToDisk.currentNote
            (entryList s.buildNotesIndex.disk s.notesPath)).1
      ∧ s.buildNotesIndex.currentNote
        = (rebuildIndex s.storeUpdatedNotesToDisk.db s.storeUpdatedNotesToDisk.currentNote
            (entryList s.buildNotesIndex.disk s.notesPath)).2
      ∧ s.buildNotesIndex.notesPath = s.notesPath
      ∧ s.buildNotesIndex.log = s.storeUpdatedNotesToDisk.log
      ∧ s.buildNotesIndex.platformLinux = s.platformLinux := by
  have hset := storeUpdatedNotesToDisk_settings s
  obtain ⟨fl, dk, dc, j, hb, _⟩ := buildNotesIndex_eq s
  have hlog : s.buildNotesIndex.log = s.storeUpdatedNotesToDisk.log := by rw [hb]
  have hlin : s.buildNotesIndex.platformLinux = s.storeUpdatedNotesToDisk.platformLinux := by
    rw [hb]
  cases hc : s.createDemoNotes with
  | true =>
    obtain ⟨_, _, _, h4, h5, h6⟩ := buildNotesIndex_seeding s hc
    rw [hset.2.1] at h4 h5 h6
    exact ⟨h4, h5, h6, hlog, hlin.trans hset.2.2.2.2⟩
  | false =>
    obtain ⟨_, _, _, h4, h5, h6⟩ := buildNotesIndex_not_seeding s hc
    rw [hset.2.1] at h4 h5 h6
    exact ⟨h4, h5, h6, hlog, hlin.trans hset.2.2.2.2⟩

/-- Every path the watch loop adds is the path of one of the file names. -/
theorem mem_watchNoteFiles (linux : Bool) (notesPath : String) (disk : Disk)
    (names : List String) :
    ∀ (count : Nat) (acc : List String) (p : String),
      p ∈ watchNoteFiles linux notesPath disk names count acc →
      p ∈ acc ∨ ∃ n ∈ names, p = getFullNoteFilePathForFile notesPath n := by
  induction names with
  | nil => intro count acc p h; left; simpa [watchNoteFiles] using h
  | cons n rest ih =>
    intro count acc p h
    unfold watchNoteFiles at h
    split at h
    · left; exact h
    · split at h
      · rcases ih _ _ p h with h1 | ⟨m, hm, hp⟩
        · unfold addPath at h1
          split at h1
          · left; exact h1
          · rcases List.mem_append.mp h1 with h2 | h2
            · left; exact h2
            · right
              exact ⟨n, List.mem_cons_self _ _, List.mem_singleton.mp h2⟩
        · right; exact ⟨m, List.mem_cons_of_mem _ hm, hp⟩
      · rcases ih _ _ p h with h1 | ⟨m, hm, hp⟩
        · left; exact h1
        · right; exact ⟨m, List.mem_cons_of_mem _ hm, hp⟩

theorem mem_fetchNoteFileNames (db : NoteIndex) (n : String)
    (h : n ∈ Note.fetchNoteFileNames db) : ∃ row ∈ db.notes, row.fileName = n := by
  unfold Note.fetchNoteFileNames Note.fetchAll at h
  obtain ⟨row, hrow, hn⟩ := List.mem_map.mp h
  exact ⟨row, (List.perm_insertionSort _ _).mem_iff.mp hrow, hn⟩

theorem changeNoteFolder_eq (s : MainWindow) (noteFolder : NoteFolder) (forceChange : Bool)
    (hfetched : noteFolder.fetched = true)
    (hswitch : noteFolder.current = false ∨ forceChange = true)
    (hpath : s.notesPath ≠ noteFolder.localPath) :
    s.changeNoteFolder noteFolder forceChange
      = { (MainWindow.buildNotesIndex
            { s.storeUpdatedNotesToDisk with
              notesPath := noteFolder.localPath, currentNote := {} }).loadNoteDirectoryList with
          noteTextEdit := "", noteTextView := "", noteHistory := [] } := by
  unfold MainWindow.changeNoteFolder
  have h2 : (noteFolder.current && !forceChange) = false := by
    rcases hswitch with h | h <;> simp [h]
  simp only [hfetched, h2, Bool.not_true, Bool.false_eq_true, if_false, ne_eq, hpath,
    not_false_eq_true, if_true]

/-- C17: a call of `changeNoteFolder` for a fetched folder that is not the
current one (or with the change forced) and whose path is not the notes path
first writes the dirty notes under the old path, then makes the path of the
folder the notes path and unsets the current note; afterwards the index holds
exactly the notes made of the note files of the new folder, the watch set is
the new folder (when it exists) and paths of note files of the new folder,
the note history is empty and the editor is cleared.  The rows of the index
are taken to have file names. -/
theorem changeNoteFolder_switches (s : MainWindow) (noteFolder : NoteFolder)
    (forceChange : Bool) (hfetched : noteFolder.fetched = true)
    (hswitch : noteFolder.current = false ∨ forceChange = true)
    (hpath : s.notesPath ≠ noteFolder.localPath)
    (hnames : ∀ n ∈ s.db.notes, n.fileName ≠ "") :
    (∃ tail : List Event, (s.changeNoteFolder noteFolder forceChange).log
        = s.log ++ (Note.storeDirtyNotesToDisk s.notesPath s.disk s.db s.now).2.2.map
              (fun a => Event.fileWrite a.1 a.2 true) ++ tail)
      ∧ (s.changeNoteFolder noteFolder forceChange).notesPath = noteFolder.localPath
      ∧ (s.changeNoteFolder noteFolder forceChange).currentNote = {}
      ∧ (∃ k : Nat, (s.changeNoteFolder noteFolder forceChange).db.notes
          = rebuiltRows k (entryList (s.changeNoteFolder noteFolder forceChange).disk
              noteFolder.localPath))
      ∧ (s.changeNoteFolder noteFolder forceChange).watcherDirectories
          = (if noteFolder.localPath ∈ (s.changeNoteFolder noteFolder forceChange).disk.dirs
             then [noteFolder.localPath] else [])
      ∧ (∀ p ∈ (s.changeNoteFolder noteFolder forceChange).watcherFiles,
          ∃ n ∈ (s.changeNoteFolder noteFolder forceChange).db.notes,
            p = getFullNoteFilePathForFile noteFolder.localPath n.fileName)
      ∧ (s.changeNoteFolder noteFolder forceChange).noteHistory = []
      ∧ (s.changeNoteFolder noteFolder forceChange).noteTextEdit = "" := by
  rw [changeNoteFolder_eq s noteFolder forceChange hfetched hswitch hpath]
  have hs2 : ∀ n ∈ ({ s.storeUpdatedNotesToDisk with
      notesPath := noteFolder.localPath, currentNote := {} } : MainWindow).db.notes,
      n.fileName ≠ ({ s.storeUpdatedNotesToDisk with
      notesPath := noteFolder.localPath, currentNote := {} } : MainWindow).currentNote.fileName := by
    intro n hn
    have hn1 : n ∈ s.storeUpdatedNotesToDisk.db.notes := hn
    rw [(storeUpdatedNotesToDisk_disk s).2.1] at hn1
    exact storeDirtyNotesToDisk_fileNames (fun f => f ≠ "") s.notesPath s.disk s.db s.now
      hnames n hn1
  have hlog2 : ({ s.storeUpdatedNotesToDisk with
      notesPath := noteFolder.localPath, currentNote := {} } : MainWindow).log
      = s.storeUpdatedNotesToDisk.log := rfl
  have hpath2 : ({ s.storeUpdatedNotesToDisk with
      notesPath := noteFolder.localPath, currentNote := {} } : MainWindow).notesPath
      = noteFolder.localPath := rfl
  have hcur2 : ({ s.storeUpdatedNotesToDisk with
      notesPath := noteFolder.localPath, currentNote := {} } : MainWindow).currentNote
      = {} := rfl
  generalize ({ s.storeUpdatedNotesToDisk with
      notesPath := noteFolder.localPath, currentNote := {} } : MainWindow) = s2
    at hs2 hlog2 hpath2 hcur2 ⊢
  have hflush := storeUpdatedNotesToDisk_currentNote s2 hs2
  obtain ⟨hdb, hcur, hnp, hlog, _⟩ := buildNotesIndex_rescan s2
  rw [hflush, hcur2, hpath2] at hdb hcur
  rw [hpath2] at hnp
  have hL := loadNoteDirectoryList_fields s2.buildNotesIndex
  have hW := loadNoteDirectoryList_watcher s2.buildNotesIndex
  have hkey : (rebuildIndex s2.storeUpdatedNotesToDisk.db {}
      (entryList s2.buildNotesIndex.disk noteFolder.localPath))
      = (createdIndex s2.storeUpdatedNotesToDisk.db
          (entryList s2.buildNotesIndex.disk noteFolder.localPath),
         ({} : Note).refetch (createdIndex s2.storeUpdatedNotesToDisk.db
          (entryList s2.buildNotesIndex.disk noteFolder.localPath))) := by
    unfold rebuildIndex
    rw [if_neg (by decide)]
  have hrows : ∀ n ∈ (createdIndex s2.storeUpdatedNotesToDisk.db
      (entryList s2.buildNotesIndex.disk noteFolder.localPath)).notes, n.fileName ≠ "" := by
    intro n hn hempty
    rw [createdIndex_notes] at hn
    obtain ⟨f, hf, hfn⟩ := rebuiltRows_fileName _ _ _ hn
    have hm := (mem_entryList.mp hf).2.2.1
    rw [← hfn, hempty] at hm
    exact absurd hm (by decide)
  have hre : ({} : Note).refetch (createdIndex s2.storeUpdatedNotesToDisk.db
      (entryList s2.buildNotesIndex.disk noteFolder.localPath)) = {} := by
    unfold Note.refetch
    rw [findByFileName_none_of_forall _ _ hrows]
    rfl
  rw [hkey] at hdb hcur
  simp only at hdb hcur
  rw [hre] at hcur
  refine ⟨?_, ?_, ?_, ?_, ?_, ?_, rfl, rfl⟩
  · have hl : s2.buildNotesIndex.loadNoteDirectoryList.log
        = s.log ++ (Note.storeDirtyNotesToDisk s.notesPath s.disk s.db s.now).2.2.map
              (fun a => Event.fileWrite a.1 a.2 true)
            ++ ((if 0 < writtenCount (Note.storeDirtyNotesToDisk s.notesPath s.disk s.db s.now).2.2
                  then [Event.wait 100 true] else [])
                ++ ((Note.storeDirtyNotesToDisk s2.notesPath s2.disk s2.db s2.now).2.2.map
                      (fun a => Event.fileWrite a.1 a.2 true)
                    ++ (if 0 < writtenCount
                          (Note.storeDirtyNotesToDisk s2.notesPath s2.disk s2.db s2.now).2.2
                        then [Event.wait 100 true] else []))) := by
      rw [hL.2.2.1, hlog, storeUpdatedNotesToDisk_log s2, hlog2, storeUpdatedNotesToDisk_log s]
      simp only [List.append_assoc]
    exact ⟨_, hl⟩
  · show s2.buildNotesIndex.loadNoteDirectoryList.notesPath = _
    rw [hL.2.2.2.2.1, hnp]
  · show s2.buildNotesIndex.loadNoteDirectoryList.currentNote = _
    rw [hL.2.1, hcur]
  · show ∃ k : Nat, s2.buildNotesIndex.loadNoteDirectoryList.db.notes
      = rebuiltRows k (entryList s2.buildNotesIndex.loadNoteDirectoryList.disk _)
    rw [hL.1, hL.2.2.2.1, hdb, createdIndex_notes]
    exact ⟨_, rfl⟩
  · show s2.buildNotesIndex.loadNoteDirectoryList.watcherDirectories
      = (if noteFolder.localPath ∈ s2.buildNotesIndex.loadNoteDirectoryList.disk.dirs then _
         else _)
    rw [hW.1, hL.2.2.2.1, hnp]
  · show ∀ p ∈ s2.buildNotesIndex.loadNoteDirectoryList.watcherFiles,
      ∃ n ∈ s2.buildNotesIndex.loadNoteDirectoryList.db.notes, _
    intro p hp
    rw [hW.2.1, hnp] at hp
    rw [hL.1]
    rcases mem_watchNoteFiles _ _ _ _ _ _ p hp with h1 | ⟨n, hn, hpn⟩
    · exact absurd h1 (List.not_mem_nil _)
    · obtain ⟨row, hrow, hrn⟩ := mem_fetchNoteFileNames _ n hn
      exact ⟨row, hrow, by rw [hrn]; exact hpn⟩

/-- C17, at a concrete state: note "A" of the folder "/notes" is open and
dirty; the switch to the folder "/work" writes "A.md" under "/notes" first;
afterwards the index holds the note "W" of "/work", the watch set is "/work"
and "/work/W.md", no note is current and the history is empty. -/
theorem changeNoteFolder_switches_witness :
    (scenarioTwoFolders.changeNoteFolder workFolder false).notesPath = "/work"
      ∧ (scenarioTwoFolders.changeNoteFolder workFolder false).currentNote = {}
      ∧ (scenarioTwoFolders.changeNoteFolder workFolder false).noteHistory = []
      ∧ (scenarioTwoFolders.changeNoteFolder workFolder false).disk.read "/notes" "A.md"
          = some "hello!"
      ∧ (scenarioTwoFolders.changeNoteFolder workFolder false).db.notes.map (fun n => n.fileName)
          = ["W.md"]
      ∧ (scenarioTwoFolders.changeNoteFolder workFolder false).watcherDirectories = ["/work"]
      ∧ (scenarioTwoFolders.changeNoteFolder workFolder false).watcherFiles = ["/work/W.md"] :=
  ⟨(changeNoteFolder_switches scenarioTwoFolders workFolder false (by decide) (Or.inl (by decide))
      (by decide) (by decide)).2.1,
   (changeNoteFolder_switches scenarioTwoFolders workFolder false (by decide) (Or.inl (by decide))
      (by decide) (by decide)).2.2.1,
   (changeNoteFolder_switches scenarioTwoFolders workFolder false (by decide) (Or.inl (by decide))
      (by decide) (by decide)).2.2.2.2.2.2.1,
   by decide, by decide, by decide, by decide⟩

/-! ### Writes that fail -/

/-- C18 as stated fails: note "A" is dirty and its file is read-only.  The
autosave flush fails to write it and shows no status bar message at all;
the Overwrite of the diff prompt fails to write it and shows the message
"stored current note to disk". -/
theorem failed_write_is_not_surfaced :
    scenarioReadOnly.storeUpdatedNotesToDisk.log = [Event.fileWrite "A.md" false true]
      ∧ scenarioReadOnly.storeUpdatedNotesToDisk.statusBarMessage = none
      ∧ (MainWindow.notesWereModified userOverwrite scenarioReadOnlyChanged "/notes/A.md").log
          = [Event.diffDialog "hello!" "hello world" false, Event.fileWrite "A.md" false true,
             Event.wait 100 true]
      ∧ (MainWindow.notesWereModified userOverwrite scenarioReadOnlyChanged
            "/notes/A.md").statusBarMessage
          = some (StatusText.storedCurrentNoteToDisk, 1000)
      ∧ (MainWindow.notesWereModified userOverwrite scenarioReadOnlyChanged
            "/notes/A.md").currentNote.hasDirtyData = true := by
  decide

theorem Disk.write_none (d : Disk) (dir fileName text : String) (now : Nat)
    (h : d.canWrite dir fileName = false) : d.write dir fileName text now = none := by
  unfold Disk.canWrite at h
  unfold Disk.write
  cases hl : d.lookup dir fileName with
  | some f =>
    rw [hl] at h
    simp only at h ⊢
    rw [if_neg (by rw [h]; exact Bool.false_ne_true)]
  | none =>
    rw [hl] at h
    simp only [decide_eq_false_iff_not] at h
    simp only
    rw [if_neg h]

theorem findFile_replaceFile_other (dir fileName other text : String) (now : Nat)
    (hne : other ≠ fileName) (l : List DiskFile) :
    findFile dir fileName (replaceFile dir other text now l) = findFile dir fileName l := by
  induction l with
  | nil => rfl
  | cons x xs ih =>
    unfold replaceFile
    by_cases hx : x.dir = dir ∧ x.fileName = other
    · rw [if_pos hx]
      have h1 : ¬(x.dir = dir ∧ x.fileName = fileName) := fun hc => hne (hx.2.symm.trans hc.2)
      simp only [findFile, h1, if_false]
    · rw [if_neg hx]
      by_cases h1 : x.dir = dir ∧ x.fileName = fileName
      · simp only [findFile, h1, and_self, if_true]
      · simp only [findFile, h1, if_false]
        exact ih

theorem findFile_append_other (dir fileName : String) (l : List DiskFile) (f : DiskFile)
    (hne : f.fileName ≠ fileName) :
    findFile dir fileName (l ++ [f]) = findFile dir fileName l := by
  induction l with
  | nil => simp [findFile, hne]
  | cons x xs ih =>
    by_cases h1 : x.dir = dir ∧ x.fileName = fileName
    · simp only [List.cons_append, findFile, h1, and_self, if_true]
    · simp only [List.cons_append, findFile, h1, if_false]
      exact ih

/-- A write of another file does not change whether a file can be written. -/
theorem Disk.canWrite_write_other (d d1 : Disk) (dir fileName other text : String) (now : Nat)
    (hne : other ≠ fileName) (hw : d.write dir other text now = some d1) :
    d1.canWrite dir fileName = d.canWrite dir fileName := by
  unfold Disk.write at hw
  unfold Disk.canWrite Disk.lookup
  split at hw
  · split at hw
    · rw [← Option.some.inj hw]
      simp only
      rw [findFile_replaceFile_other dir fileName other text now hne]
    · exact Option.noConfusion hw
  · split at hw
    · rw [← Option.some.inj hw]
      simp only
      rw [findFile_append_other dir fileName d.files _ hne]
    · exact Option.noConfusion hw

theorem mem_updateRow_of_ne {n m : Note} {l : List Note} (h : m ∈ l) (hne : m.id ≠ n.id) :
    m ∈ updateRow n l := by
  induction l with
  | nil => simp at h
  | cons x xs ih =>
    unfold updateRow
    rcases List.mem_cons.mp h with h1 | h1
    · rw [← h1, if_neg hne]
      exact List.mem_cons_self _ _
    · exact List.mem_cons_of_mem _ (ih h1)

/-- The file names of the attempts of the flush are those of the dirty rows, in order. -/
theorem storeDirtyStep_attempts (notesPath : String) (now : Nat) (l : List Note) :
    ∀ acc : Disk × NoteIndex × List (String × Bool),
      (l.foldl (Note.storeDirtyStep notesPath now) acc).2.2.map Prod.fst
        = acc.2.2.map Prod.fst ++ l.map (fun n => n.fileName) := by
  induction l with
  | nil => intro acc; simp
  | cons n l ih =>
    intro acc
    rw [List.foldl_cons, ih]
    simp [Note.storeDirtyStep]

theorem storeDirtyNotesToDisk_attempts (notesPath : String) (disk : Disk) (db : NoteIndex)
    (now : Nat) :
    (Note.storeDirtyNotesToDisk notesPath disk db now).2.2.map Prod.fst
      = (db.notes.filter (fun n => n.hasDirtyData)).map (fun n => n.fileName) := by
  unfold Note.storeDirtyNotesToDisk
  rw [storeDirtyStep_attempts]
  simp

/-- A dirty note whose file cannot be written is still in the index after
the flush, its file still cannot be written, and every attempt of the flush
on its file name has failed. -/
theorem storeDirtyNotesToDisk_failed (notesPath : String) (disk : Disk) (db : NoteIndex)
    (now : Nat) (n : Note) (hn : n ∈ db.notes)
    (hfail : disk.canWrite notesPath n.fileName = false)
    (hpos : ∀ m ∈ db.notes, 0 < m.id) (huniq : ∀ m ∈ db.notes, m.id = n.id → m = n) :
    (Note.storeDirtyNotesToDisk notesPath disk db now).1.canWrite notesPath n.fileName = false
      ∧ n ∈ (Note.storeDirtyNotesToDisk notesPath disk db now).2.1.notes
      ∧ ∀ a ∈ (Note.storeDirtyNotesToDisk notesPath disk db now).2.2,
          a.1 = n.fileName → a.2 = false := by
  unfold Note.storeDirtyNotesToDisk
  refine foldl_invariant
    (fun acc : Disk × NoteIndex × List (String × Bool) =>
      acc.1.canWrite notesPath n.fileName = false ∧ n ∈ acc.2.1.notes
        ∧ ∀ a ∈ acc.2.2, a.1 = n.fileName → a.2 = false)
    (Note.storeDirtyStep notesPath now) _ (disk, db, [])
    ⟨hfail, hn, fun a ha => absurd ha (List.not_mem_nil _)⟩ ?_
  intro acc k hk ⟨h1, h2, h3⟩
  have hkdb : k ∈ db.notes := (List.mem_filter.mp hk).1
  unfold Note.storeDirtyStep Note.storeNoteTextFileToDisk
  cases hw : acc.1.write notesPath k.fileName k.noteText now with
  | none =>
    simp only [hw]
    refine ⟨h1, h2, ?_⟩
    intro a ha hfn
    rcases List.mem_append.mp ha with h4 | h4
    · exact h3 a h4 hfn
    · rw [List.mem_singleton.mp h4]
  | some d1 =>
    have hkn : k.fileName ≠ n.fileName := by
      intro heq
      rw [heq, Disk.write_none acc.1 notesPath n.fileName k.noteText now h1] at hw
      exact Option.noConfusion hw
    have hid : n.id ≠ k.id := fun heq => hkn (by rw [huniq k hkdb heq.symm])
    have hkpos : 0 < k.id := hpos k hkdb
    simp only [hw]
    refine ⟨?_, ?_, ?_⟩
    · rw [Disk.canWrite_write_other acc.1 d1 notesPath n.fileName k.fileName k.noteText now hkn hw]
      exact h1
    · unfold Note.store
      simp only [hkpos, if_true]
      exact mem_updateRow_of_ne h2 hid
    · intro a ha hfn
      rcases List.mem_append.mp ha with h4 | h4
      · exact h3 a h4 hfn
      · rw [List.mem_singleton.mp h4] at hfn
        exact absurd hfn hkn

theorem Note.store_hasDirtyData (n : Note) (db : NoteIndex) :
    (n.store db).2.hasDirtyData = n.hasDirtyData := by
  unfold Note.store
  split <;> rfl

/-- The Overwrite of the switch when the file of the current note cannot be written. -/
theorem applyDiffResult_overwrite_failed (s : MainWindow) (note : Note)
    (hfail : s.disk.canWrite s.notesPath s.currentNote.fileName = false) :
    (s.applyDiffResult note NoteDiffDialog.Overwrite).disk = s.disk
      ∧ (s.applyDiffResult note NoteDiffDialog.Overwrite).currentNote.hasDirtyData
          = s.currentNote.hasDirtyData
      ∧ (s.applyDiffResult note NoteDiffDialog.Overwrite).log
          = s.log ++ [Event.fileWrite s.currentNote.fileName false true, Event.wait 100 true] := by
  have hw : s.disk.write s.notesPath (s.currentNote.store s.db).2.fileName
      (s.currentNote.store s.db).2.noteText s.now = none := by
    rw [Note.store_fileName]
    exact Disk.write_none _ _ _ _ _ hfail
  unfold MainWindow.applyDiffResult MainWindow.saveNote Note.storeNoteTextFileToDisk
  rw [if_pos rfl]
  simp only [hw]
  rw [showStatusBarMessage_eq]
  simp only [MainWindow.waitMsecs, Note.store_fileName, Note.store_hasDirtyData,
    List.append_assoc, List.singleton_append]
  exact ⟨trivial, trivial, trivial⟩

/-- A flush that wrote no note leaves the status bar message as it was. -/
theorem storeUpdatedNotesToDisk_statusBarMessage (s : MainWindow)
    (h : writtenCount (Note.storeDirtyNotesToDisk s.notesPath s.disk s.db s.now).2.2 = 0) :
    s.storeUpdatedNotesToDisk.statusBarMessage = s.statusBarMessage := by
  unfold MainWindow.storeUpdatedNotesToDisk
  simp only [h, Nat.lt_irrefl, if_false]

/-- C18, amended: a write that fails is not reported.  When the file of the
current note cannot be written, the Overwrite of the diff prompt leaves disk
and dirty flag of the current note as they were; its write is in the trace
as failed.  When the file of a dirty note of the index cannot be written,
the flush leaves the note in the index as it was (dirty), its write is in
the trace as failed, the status bar message is as before when no note was
written, and the next flush tries to write the file of the note again. -/
theorem failed_write_keeps_note_dirty (s t : MainWindow) (note n : Note)
    (hcur : s.disk.canWrite s.notesPath s.currentNote.fileName = false)
    (hn : n ∈ t.db.notes) (hd : n.hasDirtyData = true)
    (hfail : t.disk.canWrite t.notesPath n.fileName = false)
    (hpos : ∀ m ∈ t.db.notes, 0 < m.id) (huniq : ∀ m ∈ t.db.notes, m.id = n.id → m = n) :
    (s.applyDiffResult note NoteDiffDialog.Overwrite).disk = s.disk
      ∧ (s.applyDiffResult note NoteDiffDialog.Overwrite).currentNote.hasDirtyData
          = s.currentNote.hasDirtyData
      ∧ (s.applyDiffResult note NoteDiffDialog.Overwrite).log
          = s.log ++ [Event.fileWrite s.currentNote.fileName false true, Event.wait 100 true]
      ∧ n ∈ t.storeUpdatedNotesToDisk.db.notes
      ∧ Event.fileWrite n.fileName false true ∈ t.storeUpdatedNotesToDisk.log
      ∧ (writtenCount (Note.storeDirtyNotesToDisk t.notesPath t.disk t.db t.now).2.2 = 0 →
          t.storeUpdatedNotesToDisk.statusBarMessage = t.statusBarMessage)
      ∧ (∀ (d : Disk) (now : Nat), ∃ written : Bool, (n.fileName, written)
          ∈ (Note.storeDirtyNotesToDisk t.notesPath d t.storeUpdatedNotesToDisk.db now).2.2) := by
  obtain ⟨o1, o2, o3⟩ := applyDiffResult_overwrite_failed s note hcur
  obtain ⟨_, f2, f3⟩ := storeDirtyNotesToDisk_failed t.notesPath t.disk t.db t.now n hn hfail
    hpos huniq
  have hmem : ∀ (d : Disk) (now : Nat) (db : NoteIndex), n ∈ db.notes →
      ∃ written : Bool, (n.fileName, written)
        ∈ (Note.storeDirtyNotesToDisk t.notesPath d db now).2.2 := by
    intro d now db hdb
    have h1 : n.fileName ∈ (Note.storeDirtyNotesToDisk t.notesPath d db now).2.2.map Prod.fst := by
      rw [storeDirtyNotesToDisk_attempts]
      exact List.mem_map.mpr ⟨n, List.mem_filter.mpr ⟨hdb, hd⟩, rfl⟩
    obtain ⟨a, ha, hfn⟩ := List.mem_map.mp h1
    exact ⟨a.2, by rw [← hfn]; exact ha⟩
  refine ⟨o1, o2, o3, ?_, ?_, storeUpdatedNotesToDisk_statusBarMessage t, ?_⟩
  · rw [(storeUpdatedNotesToDisk_disk t).2.1]
    exact f2
  · obtain ⟨b, hb⟩ := hmem t.disk t.now t.db hn
    have hb0 : b = false := f3 _ hb rfl
    rw [hb0] at hb
    rw [storeUpdatedNotesToDisk_log]
    refine List.mem_append_left _ (List.mem_append_right _ ?_)
    exact List.mem_map.mpr ⟨_, hb, rfl⟩
  · intro d now
    rw [(storeUpdatedNotesToDisk_disk t).2.1]
    exact hmem d now _ f2

/-- C18, amended, at concrete states: the read-only file of the dirty note
"A" after Overwrite and after the flush. -/
theorem failed_write_keeps_note_dirty_witness :
    (scenarioReadOnlyChanged.applyDiffResult noteA NoteDiffDialog.Overwrite).disk
        = scenarioReadOnlyChanged.disk
      ∧ ({ noteA with noteText := "hello!", hasDirtyData := true } : Note)
          ∈ scenarioReadOnly.storeUpdatedNotesToDisk.db.notes
      ∧ Event.fileWrite "A.md" false true ∈ scenarioReadOnly.storeUpdatedNotesToDisk.log :=
  ⟨(failed_write_keeps_note_dirty scenarioReadOnlyChanged scenarioReadOnly noteA
      { noteA with noteText := "hello!", hasDirtyData := true } (by decide) (by decide) (by decide)
      (by decide) (by decide) (by decide)).1,
   (failed_write_keeps_note_dirty scenarioReadOnlyChanged scenarioReadOnly noteA
      { noteA with noteText := "hello!", hasDirtyData := true } (by decide) (by decide) (by decide)
      (by decide) (by decide) (by decide)).2.2.2.1,
   (failed_write_keeps_note_dirty scenarioReadOnlyChanged scenarioReadOnly noteA
      { noteA with noteText := "hello!", hasDirtyData := true } (by decide) (by decide) (by decide)
      (by decide) (by decide) (by decide)).2.2.2.2.1⟩

/-! ### A current note that the rebuilt index does not resolve -/

theorem findByFileName_none {fileName : String} {l : List Note}
    (h : findByFileName fileName l = none) : ∀ n ∈ l, n.fileName ≠ fileName := by
  induction l with
  | nil => intro n hn; simp at hn
  | cons x xs ih =>
    unfold findByFileName at h
    by_cases hx : x.fileName = fileName
    · rw [if_pos hx] at h; exact Option.noConfusion h
    · rw [if_neg hx] at h
      intro n hn
      rcases List.mem_cons.mp hn with h1 | h1
      · rw [h1]; exact hx
      · exact ih h n h1

theorem Note.eta_crypto (n : Note) :
    ({ n with cryptoKey := n.cryptoKey, cryptoPassword := n.cryptoPassword } : Note) = n := by
  cases n
  rfl

/-- When the rebuilt index does not resolve the file name of the current
note, the current note after the rebuild is the record from before. -/
theorem rebuildIndex_unresolved (db1 : NoteIndex) (cur1 : Note) (files1 : List DiskFile)
    (h : findByFileName cur1.fileName (rebuildIndex db1 cur1 files1).1.notes = none) :
    (rebuildIndex db1 cur1 files1).2 = cur1 := by
  unfold rebuildIndex at h ⊢
  by_cases hk : cur1.cryptoKey ≠ 0
  · rw [if_pos hk] at h ⊢
    have hfn := refetch_fileName cur1 (createdIndex db1 files1)
    rcases refetch_cases cur1 (createdIndex db1 files1) with ⟨hr, _⟩ | hr
    · rw [hr] at h ⊢
      rw [Note.eta_crypto] at h ⊢
      unfold Note.store at h ⊢
      by_cases hid : 0 < cur1.id
      · rw [if_pos hid]
      · exfalso
        rw [if_neg hid] at h
        simp only at h
        rw [findByFileName_append] at h
        cases hf : findByFileName cur1.fileName (createdIndex db1 files1).notes with
        | none => simp [hf, findByFileName] at h
        | some m => simp [hf] at h
    · exfalso
      have hpos : 0 < (cur1.refetch (createdIndex db1 files1)).id :=
        Nat.lt_of_le_of_lt (Nat.zero_le _) (createdIndex_ids _ _ _ (findByFileName_some hr).1)
      have hu := store_found
        { cur1.refetch (createdIndex db1 files1) with
          cryptoKey := cur1.cryptoKey, cryptoPassword := cur1.cryptoPassword }
        (cur1.refetch (createdIndex db1 files1)) (createdIndex db1 files1)
        (by rw [show _ = cur1.fileName from hfn]; exact hr) rfl hpos
      rw [show _ = cur1.fileName from hfn, h] at hu
      exact Option.noConfusion hu
  · rw [if_neg hk] at h ⊢
    simp only at h ⊢
    unfold Note.refetch
    rw [h]
    rfl

theorem storeUpdatedNotesToDisk_currentNote_fileName (s : MainWindow) :
    s.storeUpdatedNotesToDisk.currentNote.fileName = s.currentNote.fileName := by
  obtain ⟨cur1, lg, nv, sb, now1, l, r, v, wd, wf, hs, -, hcur⟩ := storeUpdatedNotesToDisk_shape s
  have hc : s.storeUpdatedNotesToDisk.currentNote = cur1 := by rw [hs]
  rw [hc]
  rcases hcur with h | h
  · rw [h]
  · exact (findByFileName_some h).2

/-- The slot `notesDirectoryWasModified` as the re-selection with the text
update decided by the existence of the current note in the rebuilt index. -/
theorem notesDirectoryWasModified_eq (s : MainWindow) (str : String) :
    s.notesDirectoryWasModified str
      = ((s.showStatusBarMessage StatusText.notesDirectoryModifiedExternally
            3000).buildNotesIndex.loadNoteDirectoryList).setCurrentNote
          (s.showStatusBarMessage StatusText.notesDirectoryModifiedExternally
            3000).buildNotesIndex.loadNoteDirectoryList.currentNote
          (!(s.showStatusBarMessage StatusText.notesDirectoryModifiedExternally
            3000).buildNotesIndex.currentNote.noteExists
            (s.showStatusBarMessage StatusText.notesDirectoryModifiedExternally
              3000).buildNotesIndex.db) true true := by
  have hL := loadNoteDirectoryList_fields
    (s.showStatusBarMessage StatusText.notesDirectoryModifiedExternally 3000).buildNotesIndex
  unfold MainWindow.notesDirectoryWasModified
  simp only [hL.1, hL.2.1]

/-- C19 as stated fails: the file of the open note "A" was moved away and
the folder holds "B".  After `notesDirectoryWasModified` the note list holds
"B" alone, but the current note still is the record of "A", no list item is
selected, and the editor text "draft" is replaced by the text "hello" of the
record of "A", not by the text "other" of "B". -/
theorem unresolved_note_stays_current :
    findByFileName "A.md" (scenarioCurrentMoved.notesDirectoryWasModified "/notes").db.notes = none
      ∧ (scenarioCurrentMoved.notesDirectoryWasModified "/notes").notesListWidget.map
          (fun item => item.text) = ["B"]
      ∧ (scenarioCurrentMoved.notesDirectoryWasModified "/notes").currentNote.name = "A"
      ∧ (scenarioCurrentMoved.notesDirectoryWasModified "/notes").currentRow = -1
      ∧ (scenarioCurrentMoved.notesDirectoryWasModified "/notes").noteTextEdit = "hello" := by
  decide

/-- C19, amended: when the rebuilt index does not resolve the file name of
the current note (in a state whose ids are at most the last id handed out),
`notesDirectoryWasModified` does not select another note: the current note
stays the record that was current when the index was wiped, no row of the
rebuilt index has its file name, the editor text is set to the text of that
record, and the list selection is the item with its name if there is one
and no item otherwise. -/
theorem notesDirectoryWasModified_unresolved (s : MainWindow) (str : String)
    (hrows : ∀ n ∈ s.db.notes, n.id ≤ s.db.lastId) (hcur : s.currentNote.id ≤ s.db.lastId)
    (hnone : findByFileName s.currentNote.fileName (s.notesDirectoryWasModified str).db.notes
      = none) :
    (s.notesDirectoryWasModified str).currentNote
        = (s.showStatusBarMessage StatusText.notesDirectoryModifiedExternally
            3000).storeUpdatedNotesToDisk.currentNote
      ∧ (s.notesDirectoryWasModified str).currentNote.fileName = s.currentNote.fileName
      ∧ (∀ n ∈ (s.notesDirectoryWasModified str).db.notes,
          n.fileName ≠ (s.notesDirectoryWasModified str).currentNote.fileName)
      ∧ (s.notesDirectoryWasModified str).noteTextEdit
          = (s.notesDirectoryWasModified str).currentNote.noteText
      ∧ (s.notesDirectoryWasModified str).currentRow
          = (match findItemRow (s.notesDirectoryWasModified str).currentNote.name
                (s.notesDirectoryWasModified str).notesListWidget with
             | some i => (i : Int)
             | none => -1) := by
  have hres := notesDirectoryWasModified_eq s str
  have hcn : (s.showStatusBarMessage StatusText.notesDirectoryModifiedExternally
      3000).currentNote = s.currentNote := showStatusBarMessage_currentNote _ _ _
  have hsdb : (s.showStatusBarMessage StatusText.notesDirectoryModifiedExternally
      3000).db = s.db := showStatusBarMessage_db _ _ _
  generalize s.showStatusBarMessage StatusText.notesDirectoryModifiedExternally 3000 = s1
    at hres hcn hsdb ⊢
  have hdb : (s.notesDirectoryWasModified str).db = s1.buildNotesIndex.db := by
    rw [hres]
    exact (rebuild_reselect s1 _).1
  rw [hdb] at hnone
  obtain ⟨_, _, h3, _, _, h6, _⟩ := rebuild_reselect s1 true
  rw [hcn] at h3 h6
  rw [hsdb] at h6
  have hex := h6 hrows hcur hnone
  rw [hex] at hres
  obtain ⟨_, h2, _, _, _, _, h7⟩ := rebuild_reselect s1 (!false)
  have h8 := rebuild_reselect_currentRow s1 (!false)
  have h9 := (setCurrentNote_fields s1.buildNotesIndex.loadNoteDirectoryList
    s1.buildNotesIndex.loadNoteDirectoryList.currentNote (!false) true true).2.2.2.2.1
  rw [← hres] at h2 h7 h8 h9
  obtain ⟨rdb, rcur, _, _, _⟩ := buildNotesIndex_rescan s1
  have hfl := storeUpdatedNotesToDisk_currentNote_fileName s1
  rw [hcn] at hfl
  have hkeep : s1.buildNotesIndex.currentNote = s1.storeUpdatedNotesToDisk.currentNote := by
    rw [rcur]
    refine rebuildIndex_unresolved _ _ _ ?_
    rw [hfl, ← rdb]
    exact hnone
  refine ⟨h2.trans hkeep, by rw [h2]; exact h3, ?_, ?_, ?_⟩
  · intro n hn
    rw [hdb] at hn
    rw [h2, h3]
    exact findByFileName_none hnone n hn
  · rw [h7, h2]
    simp
  · rw [h8, h2, h9]

/-- C19, amended, at a concrete state: the file of the open note "A" was
moved away; the current note stays the record of "A" with its id 1 from
before the rebuild, and the editor shows its text. -/
theorem notesDirectoryWasModified_unresolved_witness :
    (scenarioCurrentMoved.notesDirectoryWasModified "/notes").currentNote = noteA
      ∧ (scenarioCurrentMoved.notesDirectoryWasModified "/notes").noteTextEdit
          = (scenarioCurrentMoved.notesDirectoryWasModified "/notes").currentNote.noteText :=
  ⟨(notesDirectoryWasModified_unresolved scenarioCurrentMoved "/notes" (by decide) (by decide)
      (by decide)).1.trans (by decide),
   (notesDirectoryWasModified_unresolved scenarioCurrentMoved "/notes" (by decide) (by decide)
      (by decide)).2.2.2.1⟩

/-! ### The dirty flag and the editor text -/

/-- C20, the failing input evaluated: note "A" is open and saved with the
text "hello"; the user types "hello!" and then types the text back to
"hello".  The editor text equals the text of the file, but the current note
is dirty and its text is "hello!"; the next flush writes "hello!" to the
file while the editor shows "hello". -/
theorem typed_back_note_stays_dirty :
    (scenarioDirty.userEditsText "hello").noteTextEdit = "hello"
      ∧ (scenarioDirty.userEditsText "hello").disk.read "/notes" "A.md" = some "hello"
      ∧ (scenarioDirty.userEditsText "hello").currentNote.hasDirtyData = true
      ∧ (scenarioDirty.userEditsText "hello").currentNote.noteText = "hello!"
      ∧ (scenarioDirty.userEditsText "hello").storeUpdatedNotesToDisk.disk.read "/notes" "A.md"
          = some "hello!"
      ∧ (scenarioDirty.userEditsText "hello").storeUpdatedNotesToDisk.noteTextEdit = "hello" := by
  decide

/-! ### The dirty tracker on a text change -/

/-- C21 as stated fails: note "A" is open and saved with the text "hello",
last edited at 0 s.  A text-change event at 105 s whose editor text is the
text of the file leaves the time of the last edit at 0 s.  When the record
of the note holds the unsaved text "hello!", last edited at 100 s, such an
event leaves the time of the last edit at 100 s and the text of the record
at "hello!". -/
theorem text_change_to_disk_text_is_skipped :
    ({ scenarioOnlyNote with now := 105000 } : MainWindow).currentNoteLastEdited = 0
      ∧ ({ scenarioOnlyNote with now := 105000 } : MainWindow).disk.read "/notes" "A.md"
          = some "hello"
      ∧ (({ scenarioOnlyNote with now := 105000 } : MainWindow).userEditsText
            "hello").currentNoteLastEdited = 0
      ∧ ({ scenarioDirty with now := 105000 } : MainWindow).currentNoteLastEdited = 100000
      ∧ ({ scenarioDirty with now := 105000 } : MainWindow).currentNote.noteText = "hello!"
      ∧ (({ scenarioDirty with now := 105000 } : MainWindow).userEditsText
            "hello").currentNoteLastEdited = 100000
      ∧ (({ scenarioDirty with now := 105000 } : MainWindow).userEditsText
            "hello").currentNote.noteText = "hello!" := by
  decide

/-- C21, amended: a text-change event whose editor text differs from the
text of the file of the current note sets the time of the last edit to the
current time; when the index resolves the file name of the current note to
its row, the current note then holds the editor text and is dirty. -/
theorem on_noteTextEdit_textChanged_updates (s : MainWindow) (text : String)
    (hdiff : text ≠ (s.currentNote.updateNoteTextFromDisk s.notesPath s.disk).noteText) :
    (s.userEditsText text).currentNoteLastEdited = s.now
      ∧ (s.userEditsText text).noteTextEdit = text
      ∧ (∀ m : Note, findByFileName s.currentNote.fileName s.db.notes = some m →
          m.id = s.currentNote.id → 0 < s.currentNote.id →
          (s.userEditsText text).currentNote
            = { s.currentNote with noteText := text, hasDirtyData := true }) := by
  unfold MainWindow.userEditsText MainWindow.on_noteTextEdit_textChanged
    MainWindow.updateEncryptNoteButtons
  simp only
  rw [if_pos hdiff]
  refine ⟨rfl, rfl, ?_⟩
  intro m hm hid hpos
  obtain ⟨h1, h2⟩ := refetch_store_resolved s.db
    { s.currentNote with noteText := text, hasDirtyData := true } m hm hid hpos
  have h3 := h1
  rw [h2] at h3
  show ((s.currentNote.storeNewText s.db text).2.refetch
      (s.currentNote.storeNewText s.db text).1).refetch (s.currentNote.storeNewText s.db text).1
    = _
  unfold Note.storeNewText
  rw [h1, h3]

/-- C21, amended, at a concrete state: note "A" is open and saved with the
text "hello"; the user types "hello!" at 105 s. -/
theorem on_noteTextEdit_textChanged_updates_witness :
    (({ scenarioOnlyNote with now := 105000 } : MainWindow).userEditsText
          "hello!").currentNoteLastEdited = 105000
      ∧ (({ scenarioOnlyNote with now := 105000 } : MainWindow).userEditsText
          "hello!").currentNote.noteText = "hello!"
      ∧ (({ scenarioOnlyNote with now := 105000 } : MainWindow).userEditsText
          "hello!").currentNote.hasDirtyData = true :=
  ⟨(on_noteTextEdit_textChanged_updates { scenarioOnlyNote with now := 105000 } "hello!"
      (by decide)).1,
   by decide, by decide⟩

/-- C22, the failing input evaluated: the user edits note "A" at 100 s, the
autosave stores it, the user opens note "B" at 110 s, and at 120 s the file
of "B" has changed externally.  "B" is not dirty and external modifications
are not all notified, yet the diff prompt opens, because the time of the
last edit is still that of the edit of "A".  With an old time of the last
edit the same event reloads "B" without a prompt. -/
theorem edit_of_other_note_forces_prompt :
    scenarioSwitched.currentNote.name = "B"
      ∧ scenarioSwitched.currentNote.hasDirtyData = false
      ∧ scenarioSwitched.noteTextEdit = "other"
      ∧ scenarioSwitched.notifyAllExternalModifications = false
      ∧ scenarioSwitched.currentNoteLastEdited = 100000
      ∧ scenarioSwitched.now = 120000
      ∧ scenarioSwitched.log.filter Event.isDialog = []
      ∧ (MainWindow.notesWereModified userCancel scenarioSwitched "/notes/B.md").log.filter
            Event.isDialog = [Event.diffDialog "other" "changed" false]
      ∧ (MainWindow.notesWereModified userCancel
            { scenarioSwitched with currentNoteLastEdited := 0 } "/notes/B.md").log.filter
            Event.isDialog = []
      ∧ (MainWindow.notesWereModified userCancel
            { scenarioSwitched with currentNoteLastEdited := 0 } "/notes/B.md").noteTextEdit
          = "changed" := by
  decide

/-! ### The autosave interval -/

theorem wrapInt32_of_fits (x : Int) (h1 : -2147483648 ≤ x) (h2 : x ≤ 2147483647) :
    wrapInt32 x = x := by
  unfold wrapInt32
  rw [Int.emod_eq_of_lt (by omega) (by omega)]
  omega

theorem readSettings_interval (s : SettingsState) :
    s.readSettingsFromSettingsDialog.noteSaveIntervalTime
      = (if s.storedNoteSaveIntervalTime = none ∨ s.storedNoteSaveIntervalTime = some 0 then 10
         else s.storedNoteSaveIntervalTime.getD 0) := by
  unfold SettingsState.readSettingsFromSettingsDialog
  cases h : s.storedNoteSaveIntervalTime with
  | none => simp
  | some v =>
    by_cases hv : v = 0
    · subst hv; simp
    · simp [hv]

/-- C23 as stated fails: with a stored interval of 2147484 seconds the
interval is the stored value, but its `int` product with 1000 does not fit
32 bits: the constructor and the accepted settings dialog start the note
save timer with -2147483296 ms, not with 2147484000 ms. -/
theorem note_save_timer_interval_overflows :
    (SettingsState.mk (some 2147484) false false 0
        none).readSettingsFromSettingsDialog.noteSaveIntervalTime = 2147484
      ∧ (SettingsState.mk (some 2147484) false false 0 none).construct.noteSaveTimerInterval
          = some (-2147483296)
      ∧ (SettingsState.mk (some 2147484) false false 0
          none).openSettingsDialogAccepted.noteSaveTimerInterval = some (-2147483296)
      ∧ (SettingsState.mk (some 2147484) false false 0 none).construct.noteSaveTimerInterval
          ≠ some (2147484 * 1000) := by
  decide

/-- C23, amended: after `readSettingsFromSettingsDialog` the autosave
interval is 10 when the stored setting is absent or 0, and 10 is then
stored; otherwise it is the stored value, which stays stored.  The interval
is never 0.  The constructor and the accepted settings dialog keep this
interval, and for an interval of at most 2147483 seconds in absolute value
they start the note save timer with the interval times 1000. -/
theorem readSettingsFromSettingsDialog_interval (s : SettingsState) :
    (s.storedNoteSaveIntervalTime = none ∨ s.storedNoteSaveIntervalTime = some 0 →
        s.readSettingsFromSettingsDialog.noteSaveIntervalTime = 10
          ∧ s.readSettingsFromSettingsDialog.storedNoteSaveIntervalTime = some 10)
      ∧ (∀ v : Int, s.storedNoteSaveIntervalTime = some v → v ≠ 0 →
          s.readSettingsFromSettingsDialog.noteSaveIntervalTime = v
            ∧ s.readSettingsFromSettingsDialog.storedNoteSaveIntervalTime = some v)
      ∧ s.readSettingsFromSettingsDialog.noteSaveIntervalTime ≠ 0
      ∧ s.construct.noteSaveIntervalTime = s.readSettingsFromSettingsDialog.noteSaveIntervalTime
      ∧ s.openSettingsDialogAccepted.noteSaveIntervalTime
          = s.readSettingsFromSettingsDialog.noteSaveIntervalTime
      ∧ (-2147483 ≤ s.readSettingsFromSettingsDialog.noteSaveIntervalTime →
          s.readSettingsFromSettingsDialog.noteSaveIntervalTime ≤ 2147483 →
          s.construct.noteSaveTimerInterval
              = some (s.readSettingsFromSettingsDialog.noteSaveIntervalTime * 1000)
            ∧ s.openSettingsDialogAccepted.noteSaveTimerInterval
              = some (s.readSettingsFromSettingsDialog.noteSaveIntervalTime * 1000)) := by
  have hc : s.construct.noteSaveTimerInterval
      = some (wrapInt32 (s.readSettingsFromSettingsDialog.noteSaveIntervalTime * 1000)) := rfl
  have ho : s.openSettingsDialogAccepted.noteSaveTimerInterval
      = some (wrapInt32 (s.readSettingsFromSettingsDialog.noteSaveIntervalTime * 1000)) := rfl
  refine ⟨?_, ?_, ?_, rfl, rfl, ?_⟩
  · intro h
    unfold SettingsState.readSettingsFromSettingsDialog
    rcases h with h | h <;> simp [h]
  · intro v h hv
    unfold SettingsState.readSettingsFromSettingsDialog
    simp [h, hv]
  · rw [readSettings_interval]
    cases h : s.storedNoteSaveIntervalTime with
    | none => simp
    | some v =>
      by_cases hv : v = 0
      · subst hv; simp
      · simp [hv]
  · intro h1 h2
    rw [hc, ho, wrapInt32_of_fits _ (by omega) (by omega)]
    exact ⟨rfl, rfl⟩

/-- C23, amended, at concrete states: without a stored interval the interval
is 10, 10 is stored and the timer runs with 10000 ms; a stored interval of
30 starts the timer with 30000 ms. -/
theorem readSettingsFromSettingsDialog_interval_witness :
    (({} : SettingsState).readSettingsFromSettingsDialog.noteSaveIntervalTime = 10
        ∧ ({} : SettingsState).readSettingsFromSettingsDialog.storedNoteSaveIntervalTime
            = some 10)
      ∧ ({} : SettingsState).construct.noteSaveTimerInterval = some 10000
      ∧ (SettingsState.mk (some 30) false false 0 none).openSettingsDialogAccepted.noteSaveTimerInterval
          = some 30000 :=
  ⟨(readSettingsFromSettingsDialog_interval {}).1 (Or.inl rfl),
   ((readSettingsFromSettingsDialog_interval {}).2.2.2.2.2 (by decide) (by decide)).1.trans
     (by decide),
   ((readSettingsFromSettingsDialog_interval (SettingsState.mk (some 30) false false 0
      none)).2.2.2.2.2 (by decide) (by decide)).2.trans (by decide)⟩

/-! ### The filters of the note list -/

theorem searchFilterLoop_fst (noteNameList : List String) (l : List NoteListItem) :
    ∀ (i : Nat) (first : Int),
      (searchFilterLoop noteNameList l i first).1
        = l.map (fun item => { item with hidden := decide (item.text ∉ noteNameList) }) := by
  induction l with
  | nil => intro i first; rfl
  | cons x xs ih =>
    intro i first
    unfold searchFilterLoop
    by_cases hx : x.text ∉ noteNameList
    · rw [if_pos hx]
      simp only [List.map_cons, ih, decide_eq_true hx]
    · rw [if_neg hx]
      simp only [List.map_cons, ih, decide_eq_false hx]

theorem tagFilterLoop_fst (fileNameList : List String) (l : List NoteListItem) :
    ∀ (i : Nat) (first : Int),
      (tagFilterLoop fileNameList l i first).1
        = l.map (fun item =>
            { item with hidden := item.hidden || decide (item.text ∉ fileNameList) }) := by
  induction l with
  | nil => intro i first; rfl
  | cons x xs ih =>
    intro i first
    unfold tagFilterLoop
    by_cases hh : x.hidden = true
    · rw [if_pos hh]
      simp only [List.map_cons, ih, hh, Bool.true_or]
      congr 1
      cases x
      simp only at hh
      rw [hh]
    · rw [if_neg hh]
      have hh1 : x.hidden = false := by
        cases h : x.hidden
        · rfl
        · exact absurd h hh
      by_cases hx : x.text ∉ fileNameList
      · rw [if_pos hx]
        simp only [List.map_cons, ih, decide_eq_true hx, Bool.or_true]
      · rw [if_neg hx]
        simp only [List.map_cons, ih, decide_eq_false hx, Bool.or_false, hh1]

/-- The hidden flags after `filterNotes`: a row is shown exactly when its
text is in the name list of the search, or the search text has fewer than
two UTF-16 code units, and, with tags enabled and a fetched active tag, its text
is among the notes linked to the tag. -/
theorem filterNotes_hidden (s : MainWindow) (arg1 : String) (noteNameList : List String)
    (tagsEnabled : Bool) (activeTag : Option (List String)) :
    (s.filterNotes arg1 noteNameList tagsEnabled activeTag).notesListWidget
      = s.notesListWidget.map (fun item =>
          { item with hidden :=
              (decide (2 ≤ qstringCount arg1) && decide (item.text ∉ noteNameList))
                || (tagsEnabled && (match activeTag with
                                    | none => false
                                    | some fileNameList => decide (item.text ∉ fileNameList))) }) := by
  unfold MainWindow.filterNotes MainWindow.filterNotesByTag
    MainWindow.filterNotesBySearchLineEditText
  by_cases ha : qstringCount arg1 ≥ 2
  · have ha1 : 2 ≤ qstringCount arg1 := ha
    cases tagsEnabled with
    | false =>
      simp only [ha, if_true, searchFilterLoop_fst, Bool.false_eq_true, if_false, ha1,
        decide_True, Bool.true_and, Bool.false_and, Bool.or_false]
    | true =>
      cases activeTag with
      | none =>
        simp only [ha, if_true, searchFilterLoop_fst, ha1, decide_True, Bool.true_and,
          Bool.or_false]
      | some fl =>
        simp only [ha, if_true, searchFilterLoop_fst, tagFilterLoop_fst, List.map_map, ha1,
          decide_True, Bool.true_and]
        rfl
  · have ha1 : ¬ 2 ≤ qstringCount arg1 := ha
    cases tagsEnabled with
    | false =>
      simp only [ha, if_false, Bool.false_eq_true, ha1, decide_False, Bool.false_and,
        Bool.or_false]
    | true =>
      cases activeTag with
      | none =>
        simp only [ha, if_false, if_true, ha1, decide_False, Bool.false_and, Bool.true_and,
          Bool.or_false]
      | some fl =>
        simp only [ha, if_false, if_true, tagFilterLoop_fst, List.map_map, ha1, decide_False,
          Bool.false_and, Bool.true_and, Bool.false_or]
        rfl

/-- C27, the failing input evaluated: the notes "A" and "B" are listed, the
search text is empty, tags are enabled and the active tag is linked to "B"
only.  After `filterNotes` row 0 is hidden and row 1 is the first visible
row, but `firstVisibleNoteListRow` is 0.  With an active tag that no note
is linked to no row is visible and `firstVisibleNoteListRow` is 0, not -1;
the same holds for an empty note list. -/
theorem filterNotes_first_visible_row_stale :
    (scenarioTwoNotes.filterNotes "" [] true (some ["B"])).notesListWidget.map
          (fun item => (item.text, item.hidden)) = [("A", true), ("B", false)]
      ∧ (scenarioTwoNotes.filterNotes "" [] true (some ["B"])).firstVisibleNoteListRow = 0
      ∧ (scenarioTwoNotes.filterNotes "" [] true (some [])).notesListWidget.map
          (fun item => (item.text, item.hidden)) = [("A", true), ("B", true)]
      ∧ (scenarioTwoNotes.filterNotes "" [] true (some [])).firstVisibleNoteListRow = 0
      ∧ (MainWindow.filterNotes {} "" [] false none).notesListWidget = []
      ∧ (MainWindow.filterNotes {} "" [] false none).firstVisibleNoteListRow = 0 := by
  decide

/-! ### The navigation in the note list -/

theorem hiddenAt_true {items : List NoteListItem} {i : Nat} (h : hiddenAt items i = true) :
    ∃ item, items[i]? = some item ∧ item.hidden = true := by
  unfold hiddenAt at h
  cases hi : items[i]? with
  | none => rw [hi] at h; exact absurd h (by decide)
  | some item => rw [hi] at h; exact ⟨item, rfl, h⟩

theorem visibleAt_true {items : List NoteListItem} {i : Nat} (h : visibleAt items i = true) :
    ∃ item, items[i]? = some item ∧ item.hidden = false := by
  unfold visibleAt at h
  cases hi : items[i]? with
  | none => rw [hi] at h; exact absurd h (by decide)
  | some item =>
    rw [hi] at h
    refine ⟨item, rfl, ?_⟩
    cases hh : item.hidden
    · rfl
    · simp only [hh] at h; exact absurd h (by decide)

theorem visibleAt_lt {items : List NoteListItem} {i : Nat} (h : visibleAt items i = true) :
    i < items.length := by
  obtain ⟨item, hi, _⟩ := visibleAt_true h
  exact (List.getElem?_eq_some.mp hi).1

theorem hiddenAt_lt {items : List NoteListItem} {i : Nat} (h : hiddenAt items i = true) :
    i < items.length := by
  obtain ⟨item, hi, _⟩ := hiddenAt_true h
  exact (List.getElem?_eq_some.mp hi).1

theorem hiddenAt_of_not_visibleAt {items : List NoteListItem} {i : Nat} (hi : i < items.length)
    (h : visibleAt items i ≠ true) : hiddenAt items i = true := by
  unfold visibleAt at h
  unfold hiddenAt
  rw [List.getElem?_eq_getElem hi] at h ⊢
  cases hh : items[i].hidden
  · simp only [hh] at h; exact absurd rfl h
  · simp only [hh]

theorem visibleAt_ne_of_hiddenAt {items : List NoteListItem} {i : Nat}
    (h : hiddenAt items i = true) : visibleAt items i ≠ true := by
  obtain ⟨item, hi, hh⟩ := hiddenAt_true h
  unfold visibleAt
  simp only [hi, hh]
  decide

theorem setCurrentNote_currentRow_kept (s : MainWindow) (note : Note) (u hist : Bool) :
    (s.setCurrentNote note u false hist).currentRow = s.currentRow := by
  unfold MainWindow.setCurrentNote MainWindow.updateEncryptNoteButtons
    MainWindow.setNoteTextFromNote
  by_cases h1 : (hist && note.noteExists s.db) = true <;> by_cases h3 : u = true <;>
    simp only [h1, h3, if_true, if_false, Bool.false_eq_true, Bool.not_false, Bool.not_true]

theorem setCurrentNote_firstVisibleNoteListRow (s : MainWindow) (note : Note) (u sel hist : Bool) :
    (s.setCurrentNote note u sel hist).firstVisibleNoteListRow = s.firstVisibleNoteListRow := by
  rw [setCurrentNote_eq]

theorem on_notesListWidget_currentItemChanged_fields (s : MainWindow) :
    s.on_notesListWidget_currentItemChanged.currentRow = s.currentRow
      ∧ s.on_notesListWidget_currentItemChanged.notesListWidget = s.notesListWidget
      ∧ s.on_notesListWidget_currentItemChanged.firstVisibleNoteListRow
          = s.firstVisibleNoteListRow := by
  unfold MainWindow.on_notesListWidget_currentItemChanged
  by_cases hneg : s.currentRow < 0
  · rw [if_pos hneg]; exact ⟨rfl, rfl, rfl⟩
  · rw [if_neg hneg]
    cases hitem : s.notesListWidget[s.currentRow.toNat]? with
    | none => exact ⟨rfl, rfl, rfl⟩
    | some current =>
      exact ⟨setCurrentNote_currentRow_kept s _ true true,
        (setCurrentNote_fields s _ true false true).2.2.2.2.1,
        setCurrentNote_firstVisibleNoteListRow s _ true false true⟩

theorem setCurrentRow_fields (s : MainWindow) (row : Int) :
    (s.setCurrentRow row).currentRow = row
      ∧ (s.setCurrentRow row).notesListWidget = s.notesListWidget
      ∧ (s.setCurrentRow row).firstVisibleNoteListRow = s.firstVisibleNoteListRow := by
  unfold MainWindow.setCurrentRow
  by_cases h : row ≠ s.currentRow
  · rw [if_pos h]
    exact on_notesListWidget_currentItemChanged_fields _
  · rw [if_neg h]
    exact ⟨rfl, rfl, rfl⟩

theorem gotoNextNoteAux_hidden (s : MainWindow) (d k : Nat)
    (hf : s.firstVisibleNoteListRow ≠ -1) (h : hiddenAt s.notesListWidget k = true) :
    MainWindow.gotoNextNoteAux (d + 1) s (k : Int)
      = MainWindow.gotoNextNoteAux d s ((k + 1 : Nat) : Int) := by
  obtain ⟨item, hi, hh⟩ := hiddenAt_true h
  have hlt := hiddenAt_lt h
  have h1 : ((k : Int) = -1) = False := by simp
  have h2 : ¬ ((k : Int) ≥ (s.notesListWidget.length : Int)) := by omega
  have h3 : ¬ ((k : Int) < 0) := by omega
  rw [MainWindow.gotoNextNoteAux]
  simp only [hf, h1, if_false, h2, h3, Int.toNat_ofNat, hi, hh, if_true, Nat.cast_add,
    Nat.cast_one]

theorem gotoNextNoteAux_visible (s : MainWindow) (d k : Nat)
    (hf : s.firstVisibleNoteListRow ≠ -1) (h : visibleAt s.notesListWidget k = true) :
    MainWindow.gotoNextNoteAux (d + 1) s (k : Int)
      = Outcome.returned (s.setCurrentRow (k : Int)) := by
  obtain ⟨item, hi, hh⟩ := visibleAt_true h
  have hlt := visibleAt_lt h
  have h1 : ((k : Int) = -1) = False := by simp
  have h2 : ¬ ((k : Int) ≥ (s.notesListWidget.length : Int)) := by omega
  have h3 : ¬ ((k : Int) < 0) := by omega
  rw [MainWindow.gotoNextNoteAux]
  simp only [hf, h1, if_false, h2, h3, Int.toNat_ofNat, hi, hh, Bool.false_eq_true]

theorem gotoNextNoteAux_wrap (s : MainWindow) (d k : Nat)
    (hf : s.firstVisibleNoteListRow ≠ -1) (h : s.notesListWidget.length ≤ k) :
    MainWindow.gotoNextNoteAux (d + 1) s (k : Int) = MainWindow.gotoNextNoteAux d s 0 := by
  have h1 : ((k : Int) = -1) = False := by simp
  have h2 : ((k : Int) ≥ (s.notesListWidget.length : Int)) := by omega
  rw [MainWindow.gotoNextNoteAux]
  simp only [hf, h1, if_false, h2, if_true]

theorem gotoNextNoteAux_default (s : MainWindow) (d k : Nat) (h : s.currentRow + 1 = (k : Int)) :
    MainWindow.gotoNextNoteAux d s (-1) = MainWindow.gotoNextNoteAux d s (k : Int) := by
  cases d with
  | zero => rfl
  | succ d =>
    have h1 : ((k : Int) = -1) = False := by simp
    rw [MainWindow.gotoNextNoteAux, MainWindow.gotoNextNoteAux]
    simp only [h1, if_false, if_true, h]

theorem gotoPreviousNoteAux_visible (s : MainWindow) (d k : Nat)
    (hf : s.firstVisibleNoteListRow ≠ -1) (h : visibleAt s.notesListWidget k = true) :
    MainWindow.gotoPreviousNoteAux (d + 1) s (k : Int)
      = Outcome.returned (s.setCurrentRow (k : Int)) := by
  obtain ⟨item, hi, hh⟩ := visibleAt_true h
  have h1 : ((k : Int) = -1) = False := by simp
  have h3 : ¬ ((k : Int) < 0) := by omega
  rw [MainWindow.gotoPreviousNoteAux]
  simp only [hf, h1, if_false, h3, Int.toNat_ofNat, hi, hh, Bool.false_eq_true]

theorem gotoPreviousNoteAux_hidden (s : MainWindow) (d k : Nat)
    (hf : s.firstVisibleNoteListRow ≠ -1) (h : hiddenAt s.notesListWidget (k + 1) = true) :
    MainWindow.gotoPreviousNoteAux (d + 1) s ((k + 1 : Nat) : Int)
      = MainWindow.gotoPreviousNoteAux d s (k : Int) := by
  obtain ⟨item, hi, hh⟩ := hiddenAt_true h
  have h1 : (((k + 1 : Nat) : Int) = -1) = False := by simp; omega
  have h3 : ¬ (((k + 1 : Nat) : Int) < 0) := by omega
  have h4 : ¬ (((k + 1 : Nat) : Int) - 1 < 0) := by omega
  have h5 : ((k + 1 : Nat) : Int) - 1 = (k : Int) := by omega
  have h6 : ¬ ((k : Int) < 0) := by omega
  rw [MainWindow.gotoPreviousNoteAux]
  simp only [hf, h1, if_false, h3, Int.toNat_ofNat, hi, hh, if_true, h4, h5, h6]

theorem gotoPreviousNoteAux_hidden_zero (s : MainWindow) (d : Nat)
    (hf : s.firstVisibleNoteListRow ≠ -1) (h : hiddenAt s.notesListWidget 0 = true) :
    MainWindow.gotoPreviousNoteAux (d + 1) s ((0 : Nat) : Int)
      = MainWindow.gotoPreviousNoteAux d s ((s.notesListWidget.length - 1 : Nat) : Int) := by
  obtain ⟨item, hi, hh⟩ := hiddenAt_true h
  have hlt := hiddenAt_lt h
  have h1 : (((0 : Nat) : Int) = -1) = False := by simp
  have h3 : ¬ (((0 : Nat) : Int) < 0) := by omega
  have h4 : (((0 : Nat) : Int) - 1 < 0) := by omega
  have h5 : (s.notesListWidget.length : Int) - 1 = ((s.notesListWidget.length - 1 : Nat) : Int) := by
    omega
  rw [MainWindow.gotoPreviousNoteAux]
  simp only [hf, h1, if_false, h3, Int.toNat_ofNat, hi, hh, if_true, h4, h5]

theorem gotoPreviousNoteAux_default (s : MainWindow) (d k : Nat)
    (h : s.currentRow - 1 = (k : Int)) :
    MainWindow.gotoPreviousNoteAux d s (-1) = MainWindow.gotoPreviousNoteAux d s (k : Int) := by
  cases d with
  | zero => rfl
  | succ d =>
    have h1 : ((k : Int) = -1) = False := by simp
    rw [MainWindow.gotoPreviousNoteAux, MainWindow.gotoPreviousNoteAux]
    simp only [h1, if_false, if_true, h]

theorem gotoPreviousNoteAux_default_wrap (s : MainWindow) (d : Nat)
    (hf : s.firstVisibleNoteListRow ≠ -1) (h : s.currentRow ≤ 0)
    (hn : 0 < s.notesListWidget.length) :
    MainWindow.gotoPreviousNoteAux (d + 1) s (-1)
      = MainWindow.gotoPreviousNoteAux d s ((s.notesListWidget.length - 1 : Nat) : Int) := by
  have h4 : s.currentRow - 1 < 0 := by omega
  have h5 : (s.notesListWidget.length : Int) - 1 = ((s.notesListWidget.length - 1 : Nat) : Int) := by
    omega
  rw [MainWindow.gotoPreviousNoteAux]
  simp only [hf, if_false, if_true, h4, h5]

theorem gotoNextNoteAux_all_hidden (s : MainWindow) (hf : s.firstVisibleNoteListRow ≠ -1)
    (hall : ∀ i, i < s.notesListWidget.length → hiddenAt s.notesListWidget i = true)
    (hc : -1 ≤ s.currentRow) (d : Nat) :
    ∀ r : Int, -1 ≤ r → MainWindow.gotoNextNoteAux d s r = Outcome.unfinished := by
  induction d with
  | zero => intro r _; rfl
  | succ d ih =>
    intro r hr
    by_cases h1 : r = -1
    · subst h1
      obtain ⟨k, hk⟩ : ∃ k : Nat, s.currentRow + 1 = (k : Int) :=
        ⟨(s.currentRow + 1).toNat, by omega⟩
      rw [gotoNextNoteAux_default s (d + 1) k hk]
      by_cases hkn : s.notesListWidget.length ≤ k
      · rw [gotoNextNoteAux_wrap s d k hf hkn]; exact ih 0 (by omega)
      · rw [gotoNextNoteAux_hidden s d k hf (hall k (by omega))]; exact ih _ (by omega)
    · obtain ⟨k, hk⟩ : ∃ k : Nat, r = (k : Int) := ⟨r.toNat, by omega⟩
      subst hk
      by_cases hkn : s.notesListWidget.length ≤ k
      · rw [gotoNextNoteAux_wrap s d k hf hkn]; exact ih 0 (by omega)
      · rw [gotoNextNoteAux_hidden s d k hf (hall k (by omega))]; exact ih _ (by omega)

theorem gotoPreviousNoteAux_all_hidden (s : MainWindow) (hf : s.firstVisibleNoteListRow ≠ -1)
    (hall : ∀ i, i < s.notesListWidget.length → hiddenAt s.notesListWidget i = true)
    (hc : s.currentRow < s.notesListWidget.length) (d : Nat) :
    ∀ r : Int, r < s.notesListWidget.length →
      MainWindow.gotoPreviousNoteAux d s r = Outcome.unfinished := by
  induction d with
  | zero => intro r _; rfl
  | succ d ih =>
    intro r hr
    rw [MainWindow.gotoPreviousNoteAux]
    rw [if_neg hf]
    generalize hp : (if r = -1 then s.currentRow - 1 else r) = p
    have hpn : p < s.notesListWidget.length := by
      rw [← hp]; split <;> omega
    by_cases hp0 : p < 0
    · simp only [hp0, if_true]
      exact ih _ (by omega)
    · simp only [hp0, if_false]
      have hlt : p.toNat < s.notesListWidget.length := by omega
      obtain ⟨item, hi, hh⟩ := hiddenAt_true (hall p.toNat hlt)
      simp only [hi, hh, if_true]
      apply ih
      split <;> omega

theorem exists_first_visible (items : List NoteListItem) (k : Nat)
    (h : ∃ i, k ≤ i ∧ visibleAt items i = true) :
    ∃ r, k ≤ r ∧ visibleAt items r = true
      ∧ ∀ i, k ≤ i → i < r → hiddenAt items i = true := by
  classical
  refine ⟨Nat.find h, (Nat.find_spec h).1, (Nat.find_spec h).2, ?_⟩
  intro i hki hir
  have hlt : i < items.length := lt_trans hir (visibleAt_lt (Nat.find_spec h).2)
  apply hiddenAt_of_not_visibleAt hlt
  intro hv
  exact Nat.find_min h hir ⟨hki, hv⟩

theorem exists_last_visible (items : List NoteListItem) (k : Nat) (hk : k < items.length)
    (h : ∃ i, i ≤ k ∧ visibleAt items i = true) :
    ∃ r, r ≤ k ∧ visibleAt items r = true
      ∧ ∀ i, r < i → i ≤ k → hiddenAt items i = true := by
  obtain ⟨i0, hi0, hv0⟩ := h
  have hs : (fun i => visibleAt items i = true)
      (Nat.findGreatest (fun i => visibleAt items i = true) k) :=
    Nat.findGreatest_spec (P := fun i => visibleAt items i = true) hi0 hv0
  refine ⟨Nat.findGreatest (fun i => visibleAt items i = true) k, Nat.findGreatest_le k,
    hs, ?_⟩
  intro i hri hik
  apply hiddenAt_of_not_visibleAt (lt_of_le_of_lt hik hk)
  exact Nat.findGreatest_is_greatest hri hik

theorem gotoNextNoteAux_run (s : MainWindow) (hf : s.firstVisibleNoteListRow ≠ -1) (m : Nat) :
    ∀ (k d : Nat), visibleAt s.notesListWidget (k + m) = true →
      (∀ i, k ≤ i → i < k + m → hiddenAt s.notesListWidget i = true) → m + 1 ≤ d →
      MainWindow.gotoNextNoteAux d s (k : Int)
        = Outcome.returned (s.setCurrentRow ((k + m : Nat) : Int)) := by
  induction m with
  | zero =>
    intro k d hv _ hd
    obtain ⟨d1, rfl⟩ : ∃ d1, d = d1 + 1 := ⟨d - 1, by omega⟩
    exact gotoNextNoteAux_visible s d1 k hf hv
  | succ m ih =>
    intro k d hv hh hd
    obtain ⟨d1, rfl⟩ : ∃ d1, d = d1 + 1 := ⟨d - 1, by omega⟩
    rw [gotoNextNoteAux_hidden s d1 k hf (hh k (le_refl k) (by omega))]
    have e : k + (m + 1) = (k + 1) + m := by omega
    rw [e] at hv ⊢
    exact ih (k + 1) d1 hv (fun i h1 h2 => hh i (by omega) (by omega)) (by omega)

theorem gotoNextNoteAux_run_wrap (s : MainWindow) (hf : s.firstVisibleNoteListRow ≠ -1)
    (r : Nat) (hv : visibleAt s.notesListWidget r = true)
    (hr : ∀ i, i < r → hiddenAt s.notesListWidget i = true) (m : Nat) :
    ∀ (k d : Nat), k + m = s.notesListWidget.length →
      (∀ i, k ≤ i → i < s.notesListWidget.length → hiddenAt s.notesListWidget i = true) →
      m + r + 2 ≤ d →
      MainWindow.gotoNextNoteAux d s (k : Int) = Outcome.returned (s.setCurrentRow (r : Int)) := by
  induction m with
  | zero =>
    intro k d hk _ hd
    obtain ⟨d1, rfl⟩ : ∃ d1, d = d1 + 1 := ⟨d - 1, by omega⟩
    rw [gotoNextNoteAux_wrap s d1 k hf (by omega)]
    have := gotoNextNoteAux_run s hf r 0 d1 (by rw [Nat.zero_add]; exact hv)
      (fun i _ h2 => hr i (by omega)) (by omega)
    rw [Nat.zero_add] at this
    exact this
  | succ m ih =>
    intro k d hk hh hd
    obtain ⟨d1, rfl⟩ : ∃ d1, d = d1 + 1 := ⟨d - 1, by omega⟩
    rw [gotoNextNoteAux_hidden s d1 k hf (hh k (le_refl k) (by omega))]
    exact ih (k + 1) d1 (by omega) (fun i h1 h2 => hh i (by omega) h2) (by omega)

theorem gotoPreviousNoteAux_run (s : MainWindow) (hf : s.firstVisibleNoteListRow ≠ -1)
    (r : Nat) (hv : visibleAt s.notesListWidget r = true) (m : Nat) :
    ∀ d : Nat, (∀ i, r < i → i ≤ r + m → hiddenAt s.notesListWidget i = true) → m + 1 ≤ d →
      MainWindow.gotoPreviousNoteAux d s ((r + m : Nat) : Int)
        = Outcome.returned (s.setCurrentRow (r : Int)) := by
  induction m with
  | zero =>
    intro d _ hd
    obtain ⟨d1, rfl⟩ : ∃ d1, d = d1 + 1 := ⟨d - 1, by omega⟩
    exact gotoPreviousNoteAux_visible s d1 r hf hv
  | succ m ih =>
    intro d hh hd
    obtain ⟨d1, rfl⟩ : ∃ d1, d = d1 + 1 := ⟨d - 1, by omega⟩
    have e : r + (m + 1) = (r + m) + 1 := by omega
    rw [e, gotoPreviousNoteAux_hidden s d1 (r + m) hf (hh (r + m + 1) (by omega) (by omega))]
    exact ih d1 (fun i h1 h2 => hh i h1 (by omega)) (by omega)

theorem gotoPreviousNoteAux_run_wrap (s : MainWindow) (hf : s.firstVisibleNoteListRow ≠ -1)
    (r : Nat) (hv : visibleAt s.notesListWidget r = true)
    (hr : ∀ i, r < i → i < s.notesListWidget.length → hiddenAt s.notesListWidget i = true)
    (k : Nat) :
    ∀ d : Nat, (∀ i, i ≤ k → hiddenAt s.notesListWidget i = true) →
      k + (s.notesListWidget.length - r) + 2 ≤ d →
      MainWindow.gotoPreviousNoteAux d s (k : Int)
        = Outcome.returned (s.setCurrentRow (r : Int)) := by
  have hrn := visibleAt_lt hv
  induction k with
  | zero =>
    intro d hh hd
    obtain ⟨d1, rfl⟩ : ∃ d1, d = d1 + 1 := ⟨d - 1, by omega⟩
    rw [gotoPreviousNoteAux_hidden_zero s d1 hf (hh 0 (le_refl 0))]
    have e : s.notesListWidget.length - 1 = r + (s.notesListWidget.length - 1 - r) := by omega
    rw [e]
    exact gotoPreviousNoteAux_run s hf r hv _ d1 (fun i h1 h2 => hr i h1 (by omega)) (by omega)
  | succ k ih =>
    intro d hh hd
    obtain ⟨d1, rfl⟩ : ∃ d1, d = d1 + 1 := ⟨d - 1, by omega⟩
    rw [gotoPreviousNoteAux_hidden s d1 k hf (hh (k + 1) (le_refl _))]
    exact ih d1 (fun i h1 => hh i (by omega)) (by omega)

theorem exists_isNextVisible (items : List NoteListItem) (c : Int) (hc : -1 ≤ c)
    (h : ∃ i, visibleAt items i = true) : ∃ r, isNextVisible items c r := by
  obtain ⟨k, hk⟩ : ∃ k : Nat, c + 1 = (k : Int) := ⟨(c + 1).toNat, by omega⟩
  by_cases hex : ∃ i, k ≤ i ∧ visibleAt items i = true
  · obtain ⟨r, hkr, hv, hh⟩ := exists_first_visible items k hex
    exact ⟨r, hv, Or.inl ⟨by omega, fun i h1 h2 => hh i (by omega) h2⟩⟩
  · obtain ⟨i0, hi0⟩ := h
    obtain ⟨r, _, hv, hh⟩ := exists_first_visible items 0 ⟨i0, Nat.zero_le _, hi0⟩
    have hrk : r < k := by
      by_contra hcon
      exact hex ⟨r, by omega, hv⟩
    refine ⟨r, hv, Or.inr ⟨by omega, ?_, fun i h1 => hh i (Nat.zero_le _) h1⟩⟩
    intro i h1 h2
    apply hiddenAt_of_not_visibleAt h2
    intro hvi
    exact hex ⟨i, by omega, hvi⟩

theorem exists_isPreviousVisible (items : List NoteListItem) (c : Int)
    (hc : c ≤ (items.length : Int)) (h : ∃ i, visibleAt items i = true) :
    ∃ r, isPreviousVisible items c r := by
  obtain ⟨i0, hi0⟩ := h
  have hn := visibleAt_lt hi0
  by_cases hex : ∃ i : Nat, (i : Int) < c ∧ visibleAt items i = true
  · obtain ⟨i1, hi1c, hi1⟩ := hex
    obtain ⟨r, hrk, hv, hh⟩ := exists_last_visible items (c - 1).toNat (by omega)
      ⟨i1, by omega, hi1⟩
    exact ⟨r, hv, Or.inl ⟨by omega, fun i h1 h2 => hh i h1 (by omega)⟩⟩
  · obtain ⟨r, hrk, hv, hh⟩ := exists_last_visible items (items.length - 1) (by omega)
      ⟨i0, by omega, hi0⟩
    have hcr : c ≤ (r : Int) := by
      by_contra hcon
      exact hex ⟨r, by omega, hv⟩
    refine ⟨r, hv, Or.inr ⟨hcr, ?_, fun i h1 h2 => hh i h1 (by omega)⟩⟩
    intro i h1
    apply hiddenAt_of_not_visibleAt (by omega)
    intro hvi
    exact hex ⟨i, h1, hvi⟩

theorem isPreviousVisible_of_isNextVisible (items : List NoteListItem) (c r : Nat)
    (hv : visibleAt items c = true) (h : isNextVisible items (c : Int) r) :
    isPreviousVisible items (r : Int) c := by
  obtain ⟨_, h | h⟩ := h
  · exact ⟨hv, Or.inl ⟨h.1, fun i h1 h2 => h.2 i (by omega) (by omega)⟩⟩
  · exact ⟨hv, Or.inr ⟨h.1, fun i h1 => h.2.2 i (by omega), fun i h1 h2 => h.2.1 i (by omega) h2⟩⟩

theorem isNextVisible_of_isPreviousVisible (items : List NoteListItem) (c r : Nat)
    (hv : visibleAt items c = true) (h : isPreviousVisible items (c : Int) r) :
    isNextVisible items (r : Int) c := by
  obtain ⟨_, h | h⟩ := h
  · exact ⟨hv, Or.inl ⟨h.1, fun i h1 h2 => h.2 i (by omega) (by omega)⟩⟩
  · exact ⟨hv, Or.inr ⟨h.1, fun i h1 h2 => h.2.2 i (by omega) h2, fun i h1 => h.2.1 i (by omega)⟩⟩

theorem gotoNextNote_of_isNextVisible (s : MainWindow) (hf : s.firstVisibleNoteListRow ≠ -1)
    (hc1 : -1 ≤ s.currentRow) (hc2 : s.currentRow < s.notesListWidget.length) (r : Nat)
    (h : isNextVisible s.notesListWidget s.currentRow r) (d : Nat)
    (hd : s.notesListWidget.length + 2 ≤ d) :
    MainWindow.gotoNextNote d s = Outcome.returned (s.setCurrentRow (r : Int)) := by
  obtain ⟨k, hk⟩ : ∃ k : Nat, s.currentRow + 1 = (k : Int) := ⟨(s.currentRow + 1).toNat, by omega⟩
  unfold MainWindow.gotoNextNote
  rw [gotoNextNoteAux_default s d k hk]
  obtain ⟨hv, h | h⟩ := h
  · have hrn := visibleAt_lt hv
    have e : r = k + (r - k) := by omega
    rw [e] at hv
    have := gotoNextNoteAux_run s hf (r - k) k d hv (fun i h1 h2 => h.2 i (by omega) (by omega))
      (by omega)
    rw [← e] at this
    exact this
  · exact gotoNextNoteAux_run_wrap s hf r hv h.2.2 (s.notesListWidget.length - k) k d (by omega)
      (fun i h1 h2 => h.2.1 i (by omega) h2) (by omega)

theorem gotoPreviousNote_of_isPreviousVisible (s : MainWindow)
    (hf : s.firstVisibleNoteListRow ≠ -1)
    (hc1 : -1 ≤ s.currentRow) (hc2 : s.currentRow < s.notesListWidget.length) (r : Nat)
    (h : isPreviousVisible s.notesListWidget s.currentRow r) (d : Nat)
    (hd : s.notesListWidget.length + 2 ≤ d) :
    MainWindow.gotoPreviousNote d s = Outcome.returned (s.setCurrentRow (r : Int)) := by
  unfold MainWindow.gotoPreviousNote
  obtain ⟨hv, h⟩ := h
  have hrn := visibleAt_lt hv
  by_cases hc : s.currentRow ≤ 0
  · obtain ⟨d1, rfl⟩ : ∃ d1, d = d1 + 1 := ⟨d - 1, by omega⟩
    rw [gotoPreviousNoteAux_default_wrap s d1 hf hc (by omega)]
    rcases h with h | h
    · exfalso; omega
    · have e : s.notesListWidget.length - 1 = r + (s.notesListWidget.length - 1 - r) := by omega
      rw [e]
      exact gotoPreviousNoteAux_run s hf r hv _ d1 (fun i h1 h2 => h.2.2 i h1 (by omega))
        (by omega)
  · obtain ⟨k, hk⟩ : ∃ k : Nat, s.currentRow - 1 = (k : Int) :=
      ⟨(s.currentRow - 1).toNat, by omega⟩
    rw [gotoPreviousNoteAux_default s d k hk]
    rcases h with h | h
    · have e : k = r + (k - r) := by omega
      rw [e]
      exact gotoPreviousNoteAux_run s hf r hv _ d (fun i h1 h2 => h.2 i h1 (by omega)) (by omega)
    · exact gotoPreviousNoteAux_run_wrap s hf r hv h.2.2 k d (fun i h1 => h.2.1 i (by omega))
        (by omega)

/-- C24, the failing inputs evaluated: after `filterNotes` with an empty
search text and an active tag that no note is linked to both rows are
hidden and `firstVisibleNoteListRow` is 0; `gotoNextNote()` and
`gotoPreviousNote()` do not return within any number of nested calls.  The
same holds for the empty note list after `filterNotes`. -/
theorem gotoNextNote_unbounded_when_all_hidden :
    scenarioTagHidesAll.notesListWidget.map (fun item => (item.text, item.hidden))
        = [("A", true), ("B", true)]
      ∧ scenarioTagHidesAll.firstVisibleNoteListRow = 0
      ∧ (∀ depth, MainWindow.gotoNextNote depth scenarioTagHidesAll = Outcome.unfinished)
      ∧ (∀ depth, MainWindow.gotoPreviousNote depth scenarioTagHidesAll = Outcome.unfinished)
      ∧ scenarioNoNotes.notesListWidget = []
      ∧ scenarioNoNotes.firstVisibleNoteListRow = 0
      ∧ (∀ depth, MainWindow.gotoNextNote depth scenarioNoNotes = Outcome.unfinished)
      ∧ (∀ depth, MainWindow.gotoPreviousNote depth scenarioNoNotes = Outcome.unfinished) := by
  refine ⟨by decide, by decide, ?_, ?_, by decide, by decide, ?_, ?_⟩
  · intro depth
    exact gotoNextNoteAux_all_hidden scenarioTagHidesAll (by decide) (by decide) (by decide)
      depth (-1) (le_refl _)
  · intro depth
    exact gotoPreviousNoteAux_all_hidden scenarioTagHidesAll (by decide) (by decide) (by decide)
      depth (-1) (by decide)
  · intro depth
    exact gotoNextNoteAux_all_hidden scenarioNoNotes (by decide) (by decide) (by decide)
      depth (-1) (le_refl _)
  · intro depth
    exact gotoPreviousNoteAux_all_hidden scenarioNoNotes (by decide) (by decide) (by decide)
      depth (-1) (by decide)

/-- C25: for a note list whose current row is -1 or a row of the list:
when `firstVisibleNoteListRow` is -1, `gotoNextNote()` returns and leaves
the state as it is.  Otherwise, with at least one visible row, the call
returns within list size plus two nested calls, the current row is then
the first visible row strictly after the old current row in cyclic order,
the rows and their hidden flags are unchanged, and a current row that is
the only visible row stays current. -/
theorem gotoNextNote_selects_next_visible (s : MainWindow)
    (hc1 : -1 ≤ s.currentRow) (hc2 : s.currentRow < s.notesListWidget.length) :
    (s.firstVisibleNoteListRow = -1 → ∀ d, 0 < d → MainWindow.gotoNextNote d s = Outcome.returned s)
      ∧ (s.firstVisibleNoteListRow ≠ -1 → (∃ i, visibleAt s.notesListWidget i = true) →
          ∃ (r : Nat) (s1 : MainWindow),
            (∀ d, s.notesListWidget.length + 2 ≤ d →
                MainWindow.gotoNextNote d s = Outcome.returned s1)
              ∧ s1.currentRow = (r : Int)
              ∧ isNextVisible s.notesListWidget s.currentRow r
              ∧ s1.notesListWidget = s.notesListWidget
              ∧ ((∀ i : Nat, visibleAt s.notesListWidget i = true → (i : Int) = s.currentRow) →
                  s1.currentRow = s.currentRow)) := by
  constructor
  · intro hf d hd
    obtain ⟨d1, rfl⟩ : ∃ d1, d = d1 + 1 := ⟨d - 1, by omega⟩
    unfold MainWindow.gotoNextNote
    rw [MainWindow.gotoNextNoteAux, if_pos hf]
  · intro hf hex
    obtain ⟨r, hr⟩ := exists_isNextVisible s.notesListWidget s.currentRow hc1 hex
    refine ⟨r, s.setCurrentRow (r : Int),
      fun d hd => gotoNextNote_of_isNextVisible s hf hc1 hc2 r hr d hd,
      (setCurrentRow_fields s _).1, hr, (setCurrentRow_fields s _).2.1, ?_⟩
    intro honly
    rw [(setCurrentRow_fields s _).1]
    exact honly r hr.1

/-- C25, at concrete states: the rows "A" and "B" are visible and "A" is
current; `gotoNextNote()` makes row 1 current and "B" the current note.
When the search has hidden row "B", the current row "A" stays current. -/
theorem gotoNextNote_selects_next_visible_witness :
    (∃ (r : Nat) (s1 : MainWindow),
        (∀ d, scenarioTwoNotes.notesListWidget.length + 2 ≤ d →
            MainWindow.gotoNextNote d scenarioTwoNotes = Outcome.returned s1)
          ∧ s1.currentRow = (r : Int)
          ∧ isNextVisible scenarioTwoNotes.notesListWidget scenarioTwoNotes.currentRow r
          ∧ s1.notesListWidget = scenarioTwoNotes.notesListWidget
          ∧ ((∀ i : Nat, visibleAt scenarioTwoNotes.notesListWidget i = true →
                (i : Int) = scenarioTwoNotes.currentRow) →
              s1.currentRow = scenarioTwoNotes.currentRow))
      ∧ MainWindow.gotoNextNote 4 scenarioTwoNotes
          = Outcome.returned (scenarioTwoNotes.setCurrentRow 1)
      ∧ (scenarioTwoNotes.setCurrentRow 1).currentRow = 1
      ∧ (scenarioTwoNotes.setCurrentRow 1).currentNote = noteB
      ∧ MainWindow.gotoNextNote 4 (scenarioTwoNotes.filterNotes "AA" ["A"] false none)
          = Outcome.returned (scenarioTwoNotes.filterNotes "AA" ["A"] false none)
      ∧ (scenarioTwoNotes.filterNotes "AA" ["A"] false none).currentRow = 0 :=
  ⟨(gotoNextNote_selects_next_visible scenarioTwoNotes (by decide) (by decide)).2 (by decide)
      ⟨0, by decide⟩,
   by decide, by decide, by decide, by decide, by decide⟩

/-- C26: when the current row is a visible row and `firstVisibleNoteListRow`
is not -1, `gotoNextNote()` followed by `gotoPreviousNote()` returns, within
list size plus two nested calls each, with the original current row, and
so does `gotoPreviousNote()` followed by `gotoNextNote()`. -/
theorem gotoNextNote_gotoPreviousNote_round_trip (s : MainWindow) (c : Nat)
    (hf : s.firstVisibleNoteListRow ≠ -1) (hc : s.currentRow = (c : Int))
    (hv : visibleAt s.notesListWidget c = true) :
    ∃ s1 s2 : MainWindow,
      (∀ d, s.notesListWidget.length + 2 ≤ d →
          (MainWindow.gotoNextNote d s).andThen (MainWindow.gotoPreviousNote d)
            = Outcome.returned s1)
        ∧ s1.currentRow = s.currentRow
        ∧ (∀ d, s.notesListWidget.length + 2 ≤ d →
          (MainWindow.gotoPreviousNote d s).andThen (MainWindow.gotoNextNote d)
            = Outcome.returned s2)
        ∧ s2.currentRow = s.currentRow := by
  have hcn := visibleAt_lt hv
  have hc1 : -1 ≤ s.currentRow := by omega
  have hc2 : s.currentRow < s.notesListWidget.length := by omega
  obtain ⟨r, hr⟩ := exists_isNextVisible s.notesListWidget s.currentRow hc1 ⟨c, hv⟩
  obtain ⟨p, hp⟩ := exists_isPreviousVisible s.notesListWidget s.currentRow (by omega) ⟨c, hv⟩
  obtain ⟨n1, n2, n3⟩ := setCurrentRow_fields s (r : Int)
  obtain ⟨p1, p2, p3⟩ := setCurrentRow_fields s (p : Int)
  have hrn := visibleAt_lt hr.1
  have hpn := visibleAt_lt hp.1
  refine ⟨(s.setCurrentRow (r : Int)).setCurrentRow (c : Int),
    (s.setCurrentRow (p : Int)).setCurrentRow (c : Int), ?_, ?_, ?_, ?_⟩
  · intro d hd
    rw [gotoNextNote_of_isNextVisible s hf hc1 hc2 r hr d hd]
    show MainWindow.gotoPreviousNote d (s.setCurrentRow (r : Int)) = _
    apply gotoPreviousNote_of_isPreviousVisible
    · rw [n3]; exact hf
    · rw [n1]; omega
    · rw [n1, n2]; omega
    · rw [n1, n2]
      rw [hc] at hr
      exact isPreviousVisible_of_isNextVisible _ c r hv hr
    · rw [n2]; exact hd
  · rw [(setCurrentRow_fields _ _).1, hc]
  · intro d hd
    rw [gotoPreviousNote_of_isPreviousVisible s hf hc1 hc2 p hp d hd]
    show MainWindow.gotoNextNote d (s.setCurrentRow (p : Int)) = _
    apply gotoNextNote_of_isNextVisible
    · rw [p3]; exact hf
    · rw [p1]; omega
    · rw [p1, p2]; omega
    · rw [p1, p2]
      rw [hc] at hp
      exact isNextVisible_of_isPreviousVisible _ c p hv hp
    · rw [p2]; exact hd
  · rw [(setCurrentRow_fields _ _).1, hc]
/-- C26, at a concrete state: the rows "A" and "B" are visible and "A" is
current; both round trips end on row 0. -/
theorem gotoNextNote_gotoPreviousNote_round_trip_witness :
    (∃ s1 s2 : MainWindow,
        (∀ d, scenarioTwoNotes.notesListWidget.length + 2 ≤ d →
            (MainWindow.gotoNextNote d scenarioTwoNotes).andThen (MainWindow.gotoPreviousNote d)
              = Outcome.returned s1)
          ∧ s1.currentRow = scenarioTwoNotes.currentRow
          ∧ (∀ d, scenarioTwoNotes.notesListWidget.length + 2 ≤ d →
            (MainWindow.gotoPreviousNote d scenarioTwoNotes).andThen (MainWindow.gotoNextNote d)
              = Outcome.returned s2)
          ∧ s2.currentRow = scenarioTwoNotes.currentRow)
      ∧ scenarioTwoNotes.currentRow = 0 :=
  ⟨gotoNextNote_gotoPreviousNote_round_trip scenarioTwoNotes 0 (by decide) (by decide)
      (by decide),
   by decide⟩

/-! ### The recent note folders -/

theorem storeRecentNoteFolder_eq (l : List String) (add remove : String) :
    storeRecentNoteFolder l add remove
      = (if add ≠ remove then [add] else [])
          ++ l.filter (fun z => decide (z ≠ add ∧ z ≠ remove ∧ z ≠ "")) := by
  unfold storeRecentNoteFolder removeAll
  simp only [List.filter_filter]
  have : (fun a => (decide (a ≠ "") && (decide (a ≠ remove) && decide (a ≠ add))))
      = (fun z => decide (z ≠ add ∧ z ≠ remove ∧ z ≠ "")) := by
    funext z
    by_cases h1 : z = add <;> by_cases h2 : z = remove <;> by_cases h3 : z = "" <;>
      simp [h1, h2, h3]
  rw [this]
  by_cases h : add = remove
  · simp [h]
  · simp [h]

/-- C28: `storeRecentNoteFolder(add, remove)` stores the list without every
occurrence of `add`, of `remove` and of the empty string, the other entries
in their order, with `add` in front when `add` differs from `remove`.  The
result does not hold `remove`; when `add` differs from `remove` it starts
with `add` and holds it once; a second call with the same arguments stores
the same list. -/
theorem storeRecentNoteFolder_stores (L : List String) (add remove : String) :
    storeRecentNoteFolder L add remove
        = (if add ≠ remove then [add] else [])
            ++ L.filter (fun z => decide (z ≠ add ∧ z ≠ remove ∧ z ≠ ""))
      ∧ remove ∉ storeRecentNoteFolder L add remove
      ∧ (add ≠ remove →
          (storeRecentNoteFolder L add remove).head? = some add
            ∧ (storeRecentNoteFolder L add remove).count add = 1)
      ∧ storeRecentNoteFolder (storeRecentNoteFolder L add remove) add remove
          = storeRecentNoteFolder L add remove := by
  refine ⟨storeRecentNoteFolder_eq L add remove, ?_, ?_, ?_⟩
  · rw [storeRecentNoteFolder_eq]
    by_cases h : add = remove
    · simp [h]
    · simp [h]
      exact fun h1 => h h1.symm
  · intro h
    rw [storeRecentNoteFolder_eq]
    simp only [h, ne_eq, not_false_eq_true, if_true]
    refine ⟨rfl, ?_⟩
    rw [List.singleton_append, List.count_cons_self, List.count_eq_zero.mpr]
    simp
  · rw [storeRecentNoteFolder_eq (storeRecentNoteFolder L add remove), storeRecentNoteFolder_eq L]
    by_cases h : add = remove
    · simp [h, List.filter_filter]
    · simp [h, List.filter_filter]
/-- C28, at a concrete list: the folder "/a" is put in front once. -/
theorem storeRecentNoteFolder_stores_witness :
    storeRecentNoteFolder ["/c", "/a", "", "/b", "/a"] "/a" "/b" = ["/a", "/c"]
      ∧ ((storeRecentNoteFolder ["/c", "/a", "", "/b", "/a"] "/a" "/b").head? = some "/a"
          ∧ (storeRecentNoteFolder ["/c", "/a", "", "/b", "/a"] "/a" "/b").count "/a" = 1) :=
  ⟨by decide,
   (storeRecentNoteFolder_stores ["/c", "/a", "", "/b", "/a"] "/a" "/b").2.2.1 (by decide)⟩

/-- C29, the failing input evaluated: at the first start the notes path is
empty and no recent folder is stored; `storeRecentNoteFolder("", "/notes")`
stores a list that holds the empty path. -/
theorem storeRecentNoteFolder_stores_empty_path :
    storeRecentNoteFolder [] "" "/notes" = [""]
      ∧ "" ∈ storeRecentNoteFolder ["/a", ""] "" "/notes" := by
  decide

/-! ### Removing the current note -/

theorem resetCurrentNote_nil (s : MainWindow) (h : s.notesListWidget = []) :
    s.resetCurrentNote = s := by
  unfold MainWindow.resetCurrentNote
  rw [h]

theorem resetCurrentNote_cons (s : MainWindow) (item : NoteListItem) (rest : List NoteListItem)
    (h : s.notesListWidget = item :: rest) :
    s.resetCurrentNote.currentNote = (Note.fetchByName s.db item.text).refetch s.db
      ∧ s.resetCurrentNote.currentRow = 0
      ∧ s.resetCurrentNote.noteTextEdit = (Note.fetchByName s.db item.text).noteText
      ∧ s.resetCurrentNote.db = s.db
      ∧ s.resetCurrentNote.disk = s.disk
      ∧ s.resetCurrentNote.notesListWidget = s.notesListWidget := by
  have key : s.resetCurrentNote
      = MainWindow.setCurrentNote { s with currentRow := 0 } (Note.fetchByName s.db item.text)
          true false true := by
    unfold MainWindow.resetCurrentNote
    split
    · next hnil => rw [h] at hnil; exact absurd hnil (by simp)
    · next item1 rest1 hcons =>
      rw [h] at hcons
      obtain ⟨h1, _⟩ := List.cons.inj hcons
      rw [h1]
  rw [key]
  obtain ⟨f1, f2, _, f4, f5, f6⟩ :=
    setCurrentNote_fields { s with currentRow := 0 } (Note.fetchByName s.db item.text)
      true false true
  exact ⟨f2, setCurrentNote_currentRow_kept _ _ _ _, f6, f1, f4, f5⟩

theorem removeCurrentNote_eq (s : MainWindow) (i : Nat)
    (hfound : findItemRow s.storeUpdatedNotesToDisk.currentNote.name
      s.storeUpdatedNotesToDisk.notesListWidget = some i) :
    ∃ s4 : MainWindow,
      s.removeCurrentNote 0
          = { s4.resetCurrentNote with watcherBlocked := s.storeUpdatedNotesToDisk.watcherBlocked }
        ∧ s4.notesListWidget = s.storeUpdatedNotesToDisk.notesListWidget.eraseIdx i
        ∧ s4.db = { s.storeUpdatedNotesToDisk.db with
                    notes := s.storeUpdatedNotesToDisk.db.notes.filter
                      (fun m => decide (m.id ≠ s.storeUpdatedNotesToDisk.currentNote.id)) }
        ∧ s4.disk.files = s.storeUpdatedNotesToDisk.disk.files.filter
            (fun f => decide (¬(f.dir = s.storeUpdatedNotesToDisk.notesPath
              ∧ f.fileName = s.storeUpdatedNotesToDisk.currentNote.fileName)))
        ∧ s4.currentNote = s.storeUpdatedNotesToDisk.currentNote
        ∧ s4.noteTextEdit = ""
        ∧ s4.currentRow = (if (s.storeUpdatedNotesToDisk.notesListWidget.eraseIdx i).isEmpty then -1
                           else s.storeUpdatedNotesToDisk.currentRow) := by
  unfold MainWindow.removeCurrentNote
  generalize s.storeUpdatedNotesToDisk = s1 at hfound ⊢
  simp only [if_true, hfound]
  exact ⟨_, rfl, rfl, rfl, rfl, rfl, rfl, rfl⟩

theorem findByName_mem {name : String} {l : List Note} {m : Note}
    (h : findByName name l = some m) : m ∈ l := by
  induction l with
  | nil => simp [findByName] at h
  | cons x xs ih =>
    unfold findByName at h
    by_cases hx : x.name = name
    · rw [if_pos hx] at h
      rw [← Option.some.inj h]
      exact List.mem_cons_self _ _
    · rw [if_neg hx] at h
      exact List.mem_cons_of_mem _ (ih h)

/-- C30, the failing input evaluated: "A" is the only note; the user
confirms its removal.  The list, the index and the folder are empty
afterwards and the editor is cleared, but the current note is still the
record of "A", not the empty note. -/
theorem removed_only_note_stays_current :
    scenarioOnlyNote.currentNote = noteA
      ∧ scenarioOnlyNote.notesListWidget.map (fun item => item.text) = ["A"]
      ∧ (scenarioOnlyNote.removeCurrentNote 0).notesListWidget = []
      ∧ (scenarioOnlyNote.removeCurrentNote 0).db.notes = []
      ∧ (scenarioOnlyNote.removeCurrentNote 0).disk.files = []
      ∧ (scenarioOnlyNote.removeCurrentNote 0).noteTextEdit = ""
      ∧ (scenarioOnlyNote.removeCurrentNote 0).currentRow = -1
      ∧ (scenarioOnlyNote.removeCurrentNote 0).currentNote = noteA
      ∧ (scenarioOnlyNote.removeCurrentNote 0).currentNote ≠ {} := by
  decide

/-- What `removeCurrentNote` does after the user confirms and the item of
the current note is found at row `i` of the list: the item is removed,
no row of the index carries the id of the removed note and its file is
gone.  When an item remains and the index resolves the name of the first
remaining item to a note, that note is the current note, it is not the
removed note, row 0 is current and the editor shows its text.  When no item
remains the current note is left as it was, no row is current and the
editor is empty. -/
theorem removeCurrentNote_resets_current_note (s : MainWindow) (i : Nat)
    (hfound : findItemRow s.storeUpdatedNotesToDisk.currentNote.name
      s.storeUpdatedNotesToDisk.notesListWidget = some i) :
    (s.removeCurrentNote 0).notesListWidget = s.storeUpdatedNotesToDisk.notesListWidget.eraseIdx i
      ∧ (∀ m ∈ (s.removeCurrentNote 0).db.notes, m.id ≠ s.storeUpdatedNotesToDisk.currentNote.id)
      ∧ (s.removeCurrentNote 0).disk.fileExists s.storeUpdatedNotesToDisk.notesPath
          s.storeUpdatedNotesToDisk.currentNote.fileName = false
      ∧ (∀ (item : NoteListItem) (rest : List NoteListItem) (r : Note),
          s.storeUpdatedNotesToDisk.notesListWidget.eraseIdx i = item :: rest →
          findByName item.text (s.removeCurrentNote 0).db.notes = some r →
          findByFileName r.fileName (s.removeCurrentNote 0).db.notes = some r →
          (s.removeCurrentNote 0).currentNote = r
            ∧ r.id ≠ s.storeUpdatedNotesToDisk.currentNote.id
            ∧ (s.removeCurrentNote 0).currentRow = 0
            ∧ (s.removeCurrentNote 0).noteTextEdit = r.noteText)
      ∧ (s.storeUpdatedNotesToDisk.notesListWidget.eraseIdx i = [] →
          (s.removeCurrentNote 0).currentNote = s.storeUpdatedNotesToDisk.currentNote
            ∧ (s.removeCurrentNote 0).currentRow = -1
            ∧ (s.removeCurrentNote 0).noteTextEdit = "") := by
  obtain ⟨s4, heq, hl, hdb, hdisk, hcur, htext, hrow⟩ := removeCurrentNote_eq s i hfound
  generalize s.storeUpdatedNotesToDisk = s1 at heq hl hdb hdisk hcur htext hrow ⊢
  have hmem : ∀ m ∈ s4.db.notes, m.id ≠ s1.currentNote.id := by
    intro m hm
    rw [hdb] at hm
    have := (List.mem_filter.mp hm).2
    exact of_decide_eq_true this
  have hfile : s4.disk.fileExists s1.notesPath s1.currentNote.fileName = false := by
    unfold Disk.fileExists Disk.lookup
    cases hf : findFile s1.notesPath s1.currentNote.fileName s4.disk.files with
    | none => rfl
    | some f =>
      exfalso
      obtain ⟨h1, h2⟩ := findFile_some hf
      rw [hdisk] at h1
      exact (of_decide_eq_true (List.mem_filter.mp h1).2) h2
  rw [heq]
  cases hl4 : s4.notesListWidget with
  | nil =>
    rw [resetCurrentNote_nil s4 hl4]
    rw [hl4] at hl
    refine ⟨hl4.trans hl, hmem, hfile, ?_, ?_⟩
    · intro item rest r h1
      rw [← hl] at h1
      exact absurd h1 (by simp)
    · intro _
      refine ⟨hcur, ?_, htext⟩
      show s4.currentRow = -1
      rw [hrow, ← hl]
      rfl
  | cons item0 rest0 =>
    obtain ⟨g1, g2, g3, g4, g5, g6⟩ := resetCurrentNote_cons s4 item0 rest0 hl4
    refine ⟨?_, ?_, ?_, ?_, ?_⟩
    · show s4.resetCurrentNote.notesListWidget = _
      rw [g6, hl]
    · show ∀ m ∈ s4.resetCurrentNote.db.notes, _
      rw [g4]; exact hmem
    · show s4.resetCurrentNote.disk.fileExists _ _ = false
      rw [g5]; exact hfile
    · intro item rest r h1 h2 h3
      have h2a : findByName item.text s4.db.notes = some r := by
        rw [← g4]; exact h2
      have h3a : findByFileName r.fileName s4.db.notes = some r := by
        rw [← g4]; exact h3
      rw [← hl, hl4] at h1
      obtain ⟨e1, _⟩ := List.cons.inj h1
      have hfetch : Note.fetchByName s4.db item0.text = r := by
        unfold Note.fetchByName
        rw [e1, h2a]; rfl
      refine ⟨?_, hmem r (findByName_mem h2a), g2, ?_⟩
      · show s4.resetCurrentNote.currentNote = r
        rw [g1, hfetch]
        unfold Note.refetch
        rw [h3a]; rfl
      · show s4.resetCurrentNote.noteTextEdit = _
        rw [g3, hfetch]
    · intro h1
      rw [← hl, hl4] at h1
      exact absurd h1 (by simp)
/-- At a concrete state: the notes "A" and "B" are listed and "A" is open;
after the removal of "A" note "B" is the current note. -/
theorem removeCurrentNote_two_notes :
    (scenarioTwoNotes.removeCurrentNote 0).currentNote = noteB
      ∧ noteB.id ≠ scenarioTwoNotes.storeUpdatedNotesToDisk.currentNote.id
      ∧ (scenarioTwoNotes.removeCurrentNote 0).currentRow = 0
      ∧ (scenarioTwoNotes.removeCurrentNote 0).noteTextEdit = noteB.noteText :=
  (removeCurrentNote_resets_current_note scenarioTwoNotes 0 (by decide)).2.2.2.1
    { text := "B", toolTipName := "B", toolTipModified := 4000, noteId := 2 } [] noteB
    (by decide) (by decide) (by decide)

end QOwnNotes
